import Mathlib

/-!
Physical-plan enumeration for joins: a shallow embedding.

The definitions below transcribe functions of
`pkg/planner/core/exhaust_physical_plans.go` into pure Lean functions.

Conventions of the embedding.

* Go slices are Lean lists; the nil slice is the empty list.  Go interface
  values that may be nil are `Option`s.
* A run-time fault of the Go code (index out of range, nil dereference) is the
  result `none` of a function returning `Option`.
* The statement context's warning sink is made explicit: every function that
  calls `SetHintWarning` returns, as its last component, the warnings it
  appended, in order.
* `uint` hint masks are natural numbers combined with `&&&`.
* Cardinality estimates (`float64` in Go) are exact rationals; no theorem below
  depends on their arithmetic.
* Failpoints (`failpoint.Inject`) are test hooks and are taken as not injected.
-/

set_option autoImplicit false

namespace Planner

/-! ## Expressions and schemas -/

/-- Column of package expression, reduced to its identity, the `InOperand` mark and the
type code of its `RetType`. -/
structure Column where
  UniqueID : Int
  InOperand : Bool
  RetType : Nat := 0
  deriving DecidableEq, Repr

/-- Modelled from the spec: the type code `mysql.TypeEnum` (package mysql is not among
the sources). -/
def mysql.TypeEnum : Nat := 247

/-- Modelled from the spec: the type code `mysql.TypeSet` (package mysql is not among
the sources). -/
def mysql.TypeSet : Nat := 248

/-- Modelled from the spec: the constant `types.UnspecifiedLength` (package types is not
among the sources): the length of an index column that is not a prefix column. -/
def types.UnspecifiedLength : Int := -1

/-- Expression of package expression: the dynamic types the planner switches on. -/
inductive Expression where
  | column (c : Column)
  | constant (v : Int)
  | correlatedColumn (c : Column)
  | scalarFunction (FuncName : String) (args : List Expression)
  deriving Repr

/-- Modelled from the spec: the constant `ast.EQ` (package ast is not among the sources). -/
def ast.EQ : String := "eq"

/-- Modelled from the spec: the constant `ast.NullEQ` (package ast is not among the sources). -/
def ast.NullEQ : String := "nulleq"

/-- Element of `EqualConditions` / `NAEQConditions`: a `*expression.ScalarFunction`
whose two arguments are bare columns, the first of the left child and the second of
the right child. -/
structure EqualCondition where
  FuncName : String
  lhs : Column
  rhs : Column
  deriving DecidableEq, Repr

/-- The equal condition seen as an `expression.Expression`. -/
def EqualCondition.toExpression (e : EqualCondition) : Expression :=
  Expression.scalarFunction e.FuncName [Expression.column e.lhs, Expression.column e.rhs]

/-- Schema of package expression: the list of output columns. -/
structure Schema where
  Columns : List Column
  deriving DecidableEq, Repr

/-- Modelled from the spec: `Schema.Contains` (package expression is not among the
sources); columns are looked up by their numeric identifier. -/
def Schema.Contains (s : Schema) (col : Column) : Bool :=
  s.Columns.any (fun c => c.UniqueID == col.UniqueID)

/-! ## Properties, statistics, session -/

/-- Sort item of a required property. -/
structure SortItem where
  Col : Column
  Desc : Bool
  deriving DecidableEq, Repr

/-- Task placement requested by a property. -/
inductive TaskType where
  | RootTaskType
  | CopSingleReadTaskType
  | CopMultiReadTaskType
  | MppTaskType
  deriving DecidableEq, Repr

/-- Partition requirement of a property. -/
inductive MPPPartitionType where
  | AnyType
  | BroadcastType
  | HashType
  | SinglePartitionType
  deriving DecidableEq, Repr

/-- Statistics of an operator: the row count, and the histogram collection (a pointer
that may be nil) as a handle. -/
structure StatsInfo where
  RowCount : ℚ
  HistColl : Option Nat := none
  deriving DecidableEq, Repr

/-- Modelled from the spec: the constant `math.MaxFloat64` as an exact rational. -/
def MaxFloat64 : ℚ := 2 ^ 1024 - 2 ^ 971

/-- Runtime requirement an index join passes to its inner child. -/
structure IndexJoinRuntimeProp where
  OtherConditions : List Expression
  InnerJoinKeys : List Column
  OuterJoinKeys : List Column
  AvgInnerRowCnt : ℚ
  TableRangeScan : Bool
  deriving Repr

/-- Partition column of an MPP property. -/
structure MPPPartitionColumn where
  Col : Column
  CollateID : Int
  deriving DecidableEq, Repr

/-- Vector-search requirement of a property (`VectorProp`): the interpreted search
expression (a pointer that may be nil, kept as a handle) and the number of rows. -/
structure VectorProp where
  VSInfo : Option Nat := none
  TopK : Nat := 0
  deriving DecidableEq, Repr

/-- Required physical property. Fields a Go composite literal omits take the zero
values given as defaults. -/
structure PhysicalProperty where
  SortItems : List SortItem := []
  TaskTp : TaskType := TaskType.RootTaskType
  MPPPartitionTp : MPPPartitionType := MPPPartitionType.AnyType
  ExpectedCnt : ℚ := 0
  CTEProducerStatus : Nat := 0
  NoCopPushDown : Bool := false
  CanAddEnforcer : Bool := false
  IndexJoinProp : Option IndexJoinRuntimeProp := none
  MPPPartitionCols : List MPPPartitionColumn := []
  SortItemsForPartition : List SortItem := []
  VectorProp : VectorProp := {}
  deriving Repr

/-- Modelled from the spec: `PhysicalProperty.IsSortItemEmpty` (package property is
not among the sources): the property demands no order. -/
def PhysicalProperty.IsSortItemEmpty (prop : PhysicalProperty) : Bool :=
  prop.SortItems.length == 0

/-- Modelled from the spec: `PhysicalProperty.IsFlashProp` (package property is not
among the sources): the property asks for the MPP placement. -/
def PhysicalProperty.IsFlashProp (prop : PhysicalProperty) : Bool :=
  prop.TaskTp == TaskType.MppTaskType

/-- Modelled from the spec: first result of `PhysicalProperty.AllSameOrder` (package
property is not among the sources): all sort items share one direction. -/
def PhysicalProperty.AllSameOrder (prop : PhysicalProperty) : Bool :=
  match prop.SortItems with
  | [] => true
  | it :: rest => rest.all (fun x => x.Desc == it.Desc)

/-- Modelled from the spec: `PhysicalProperty.AllColsFromSchema` (package property is
not among the sources): every sort column is found in the schema. -/
def PhysicalProperty.AllColsFromSchema (prop : PhysicalProperty) (schema : Schema) : Bool :=
  prop.SortItems.all (fun it => schema.Contains it.Col)

/-- Session variables read by the enumerators; those with a default take the
default of the variable. -/
structure SessionVars where
  UseHashJoinV2 : Bool
  DisableHashJoin : Bool
  EnhanceIndexJoinBuildV2 : Bool
  EnableIndexMergeJoin : Bool
  IsMPPAllowed : Bool
  OptOrderingIdxSelRatio : ℚ
  AllowCartesianBCJ : Int := 1
  MPPOuterJoinFixedBuildSide : Bool := false
  EnableSkewDistinctAgg : Bool := false
  AllowProjectionPushDown : Bool := false
  LimitPushDownThreshold : Int := 100
  EnableINLJoinInnerMultiPattern : Bool := false
  AllowDistinctAggPushDown : Bool := false
  deriving Repr

/-! ## Hint masks -/

/-- Modelled from the spec: the hint bits of package hint (not among the sources);
each is a distinct single bit of the `PreferJoinType` mask, and nothing below depends
on which bit it is. -/
def PreferHashJoin : Nat := 1 <<< 0
/-- Modelled from the spec: hint bit of package hint (not among the sources). -/
def PreferNoHashJoin : Nat := 1 <<< 1
/-- Modelled from the spec: hint bit of package hint (not among the sources). -/
def PreferMergeJoin : Nat := 1 <<< 2
/-- Modelled from the spec: hint bit of package hint (not among the sources). -/
def PreferNoIndexJoin : Nat := 1 <<< 3
/-- Modelled from the spec: hint bit of package hint (not among the sources). -/
def PreferNoIndexHashJoin : Nat := 1 <<< 4
/-- Modelled from the spec: hint bit of package hint (not among the sources). -/
def PreferNoIndexMergeJoin : Nat := 1 <<< 5
/-- Modelled from the spec: hint bit of package hint (not among the sources). -/
def PreferBCJoin : Nat := 1 <<< 6
/-- Modelled from the spec: hint bit of package hint (not among the sources). -/
def PreferShuffleJoin : Nat := 1 <<< 7
/-- Modelled from the spec: hint bit of package hint (not among the sources). -/
def PreferLeftAsINLJInner : Nat := 1 <<< 8
/-- Modelled from the spec: hint bit of package hint (not among the sources). -/
def PreferRightAsINLJInner : Nat := 1 <<< 9
/-- Modelled from the spec: hint bit of package hint (not among the sources). -/
def PreferLeftAsINLHJInner : Nat := 1 <<< 10
/-- Modelled from the spec: hint bit of package hint (not among the sources). -/
def PreferRightAsINLHJInner : Nat := 1 <<< 11
/-- Modelled from the spec: hint bit of package hint (not among the sources). -/
def PreferLeftAsINLMJInner : Nat := 1 <<< 12
/-- Modelled from the spec: hint bit of package hint (not among the sources). -/
def PreferRightAsINLMJInner : Nat := 1 <<< 13
/-- Modelled from the spec: hint bit of package hint (not among the sources). -/
def PreferLeftAsHJBuild : Nat := 1 <<< 14
/-- Modelled from the spec: hint bit of package hint (not among the sources). -/
def PreferRightAsHJBuild : Nat := 1 <<< 15
/-- Modelled from the spec: hint bit of package hint (not among the sources). -/
def PreferLeftAsHJProbe : Nat := 1 <<< 16
/-- Modelled from the spec: hint bit of package hint (not among the sources). -/
def PreferRightAsHJProbe : Nat := 1 <<< 17

/-- Modelled from the spec: hint name constant of package hint (not among the sources). -/
def HintINLJ : String := "inl_join"
/-- Modelled from the spec: hint name constant of package hint (not among the sources). -/
def TiDBIndexNestedLoopJoin : String := "tidb_inlj"
/-- Modelled from the spec: hint name constant of package hint (not among the sources). -/
def HintINLHJ : String := "inl_hash_join"
/-- Modelled from the spec: hint name constant of package hint (not among the sources). -/
def HintINLMJ : String := "inl_merge_join"

/-! ## Logical join -/

/-- Join type of package logicalop. -/
inductive JoinType where
  | InnerJoin
  | LeftOuterJoin
  | RightOuterJoin
  | SemiJoin
  | AntiSemiJoin
  | LeftOuterSemiJoin
  | AntiLeftOuterSemiJoin
  deriving DecidableEq, Repr

/-- Modelled from the spec: `JoinType.String` (package logicalop is not among the
sources), used by `%s` in warning texts. -/
def JoinType.String : JoinType → String
  | JoinType.InnerJoin => "inner join"
  | JoinType.LeftOuterJoin => "left outer join"
  | JoinType.RightOuterJoin => "right outer join"
  | JoinType.SemiJoin => "semi join"
  | JoinType.AntiSemiJoin => "anti semi join"
  | JoinType.LeftOuterSemiJoin => "left outer semi join"
  | JoinType.AntiLeftOuterSemiJoin => "anti left outer semi join"

/-- Tables named by the index-join hints (`HintInfo.IndexJoin`). -/
structure IndexJoinHints where
  INLJTables : List String
  INLHJTables : List String
  INLMJTables : List String
  deriving DecidableEq, Repr

/-- What the enumerators read of a child of a join: its statistics and schema. -/
structure LogicalProperty where
  Stats : StatsInfo
  Schema : Schema
  deriving DecidableEq, Repr

/-- Logical join of package logicalop: the fields the enumerators read. A join has
exactly two children. -/
structure LogicalJoin where
  JoinType : JoinType
  PreferJoinType : Nat
  EqualConditions : List EqualCondition
  NAEQConditions : List EqualCondition
  LeftConditions : List Expression
  RightConditions : List Expression
  OtherConditions : List Expression
  DefaultValues : List Int
  HintInfo : Option IndexJoinHints
  EqualCondOutCnt : ℚ
  stats : StatsInfo
  schema : Schema
  child0 : LogicalProperty
  child1 : LogicalProperty
  deriving Repr

/-- Group expression of the memo wrapping a logical join: its inputs' logical
properties and the wrapped operator. -/
structure GroupExpression where
  input0 : LogicalProperty
  input1 : LogicalProperty
  wrapped : LogicalJoin
  deriving Repr

/-- The `super` argument of the join enumerators: a bare logical join or a group
expression that wraps one. -/
inductive LogicalPlan where
  | join (p : LogicalJoin)
  | groupExpression (ge : GroupExpression)
  deriving Repr

/-- Transcribes `getGEAndLogicalJoin`. -/
def getGEAndLogicalJoin (super : LogicalPlan) : Option GroupExpression × LogicalJoin :=
  match super with
  | LogicalPlan.join x => (none, x)
  | LogicalPlan.groupExpression x => (some x, x.wrapped)

/-- Writes a field update of the join back through the `super` pointer (the Go
code mutates the shared object). -/
def LogicalPlan.withJoin (super : LogicalPlan) (p : LogicalJoin) : LogicalPlan :=
  match super with
  | LogicalPlan.join _ => LogicalPlan.join p
  | LogicalPlan.groupExpression x => LogicalPlan.groupExpression { x with wrapped := p }

/-- Transcribes `getJoinChildStatsAndSchema`. -/
def getJoinChildStatsAndSchema (ge : Option GroupExpression) (p : LogicalJoin) :
    StatsInfo × StatsInfo × Schema × Schema :=
  match ge with
  | some g => (g.input0.Stats, g.input1.Stats, g.input0.Schema, g.input1.Schema)
  | none => (p.child0.Stats, p.child1.Stats, p.child0.Schema, p.child1.Schema)

/-- Modelled from the spec: `LogicalJoin.PreferAny` (package logicalop is not among
the sources): some flag of the list is set in the hint mask. -/
def LogicalJoin.PreferAny (p : LogicalJoin) (joinFlags : List Nat) : Bool :=
  joinFlags.any (fun flag => decide (p.PreferJoinType &&& flag > 0))

/-- Modelled from the spec: `LogicalJoin.GetJoinKeys` (package logicalop is not among
the sources): the left and right columns of the equal conditions, which of them are
null-safe equalities, and whether any is. -/
def LogicalJoin.GetJoinKeys (p : LogicalJoin) :
    List Column × List Column × List Bool × Bool :=
  (p.EqualConditions.map (fun e => e.lhs),
   p.EqualConditions.map (fun e => e.rhs),
   p.EqualConditions.map (fun e => e.FuncName == ast.NullEQ),
   p.EqualConditions.any (fun e => e.FuncName == ast.NullEQ))

/-- Modelled from the spec: `LogicalJoin.GetNAJoinKeys` (package logicalop is not
among the sources): the columns of the null-aware equal conditions. -/
def LogicalJoin.GetNAJoinKeys (p : LogicalJoin) : List Column × List Column :=
  (p.NAEQConditions.map (fun e => e.lhs), p.NAEQConditions.map (fun e => e.rhs))

/-- Modelled from the spec: `LogicalJoin.IsNAAJ` (package logicalop is not among the
sources): the join is a null-aware anti join. -/
def LogicalJoin.IsNAAJ (p : LogicalJoin) : Bool :=
  decide (p.NAEQConditions.length > 0)

/-! ## Physical plans -/

/-- Range of package ranger, reduced to its bounds. -/
structure Range where
  LowVal : List Int
  HighVal : List Int
  deriving DecidableEq, Repr

/-- Compare-filter manager of an index join (`ColWithCmpFuncManager`), reduced to the
column it targets and its operator codes. -/
structure ColWithCmpFuncManager where
  TargetCol : Column
  OpType : List String
  deriving DecidableEq, Repr

/-- Storage engine a physical join runs on. -/
inductive StoreType where
  | TiKV
  | TiFlash
  deriving DecidableEq, Repr

/-- The fields shared by all physical joins (`physicalop.BasePhysicalJoin`), together
with what `Init` and `SetSchema` record: the statistics, the properties required of
the two children, and the output schema. -/
structure BasePhysicalJoin where
  InnerChildIdx : Nat
  JoinType : JoinType
  LeftConditions : List Expression
  RightConditions : List Expression
  OtherConditions : List Expression
  LeftJoinKeys : List Column := []
  RightJoinKeys : List Column := []
  LeftNAJoinKeys : List Column := []
  RightNAJoinKeys : List Column := []
  OuterJoinKeys : List Column := []
  InnerJoinKeys : List Column := []
  IsNullEQ : List Bool
  DefaultValues : List Int
  stats : StatsInfo
  childrenReqProps : List PhysicalProperty
  schema : Schema
  deriving Repr

/-- Physical hash join. -/
structure PhysicalHashJoin extends BasePhysicalJoin where
  EqualConditions : List EqualCondition
  NAEqualConditions : List EqualCondition
  UseOuterToBuild : Bool
  storeTp : StoreType := StoreType.TiKV
  mppShuffleJoin : Bool := false
  deriving Repr

/-- Physical index join. `Ranges` is an interface value and `CompareFilters` a
pointer: both may be nil; `InnerPlan` is the plan of the inner task, kept as a
handle. -/
structure PhysicalIndexJoin extends BasePhysicalJoin where
  EqualConditions : List EqualCondition := []
  KeyOff2IdxOff : List Int := []
  Ranges : Option (List Range) := none
  IdxColLens : List Int := []
  CompareFilters : Option ColWithCmpFuncManager := none
  OuterHashKeys : List Column := []
  InnerHashKeys : List Column := []
  InnerPlan : Option Nat := none
  deriving Repr

/-- Physical index hash join. -/
structure PhysicalIndexHashJoin where
  PhysicalIndexJoin : PhysicalIndexJoin
  KeepOuterOrder : Bool
  deriving Repr

/-- Physical index merge join. -/
structure PhysicalIndexMergeJoin where
  PhysicalIndexJoin : PhysicalIndexJoin
  KeyOff2KeyOffOrderByIdx : List Int
  NeedOuterSort : Bool
  Desc : Bool
  deriving Repr

/-! ### Aggregation, and the single-child operators -/

/-- Mode of an aggregate function (package aggregation). -/
inductive AggFunctionMode where
  | CompleteMode
  | FinalMode
  | Partial1Mode
  | Partial2Mode
  | DedupMode
  deriving DecidableEq, Repr

/-- Order-by item (`util.ByItems`): an expression and a direction. -/
structure ByItems where
  Expr : Expression
  Desc : Bool
  deriving Repr

/-- Aggregate function descriptor (package aggregation): name, arguments, mode, the
distinct mark, the code of the return type and the order-by items. A freshly built
descriptor is in complete mode. -/
structure AggFuncDesc where
  Name : String
  Args : List Expression
  Mode : AggFunctionMode := AggFunctionMode.CompleteMode
  HasDistinct : Bool := false
  RetTp : Nat := 0
  OrderByItems : List ByItems := []
  deriving Repr

/-- Modelled from the spec: the name `ast.AggFuncCount` (package ast is not among the
sources). -/
def ast.AggFuncCount : String := "count"

/-- Modelled from the spec: the name `ast.AggFuncSum` (package ast is not among the
sources). -/
def ast.AggFuncSum : String := "sum"

/-- How a hash aggregation runs under MPP (`physicalop.AggMppRunMode`). -/
inductive AggMppRunMode where
  | NoMpp
  | Mpp1Phase
  | Mpp2Phase
  | MppTiDB
  | MppScalar
  deriving DecidableEq, Repr

/-- Physical hash aggregation, with what `Init` and `SetSchema` record. -/
structure PhysicalHashAgg where
  AggFuncs : List AggFuncDesc
  GroupByItems : List Expression
  MppRunMode : AggMppRunMode := AggMppRunMode.NoMpp
  MppPartitionCols : List MPPPartitionColumn := []
  stats : StatsInfo
  childrenReqProps : List PhysicalProperty
  schema : Schema
  deriving Repr

/-- Physical selection. -/
structure PhysicalSelection where
  Conditions : List Expression
  stats : StatsInfo
  childrenReqProps : List PhysicalProperty
  deriving Repr

/-- Physical projection. -/
structure PhysicalProjection where
  Exprs : List Expression
  CalculateNoDelay : Bool
  stats : StatsInfo
  childrenReqProps : List PhysicalProperty
  schema : Schema
  deriving Repr

/-- Physical limit; `Offset` and `Count` are `uint64`. -/
structure PhysicalLimit where
  Offset : Nat
  Count : Nat
  PartitionBy : List SortItem
  stats : StatsInfo
  childrenReqProps : List PhysicalProperty
  schema : Schema
  deriving Repr

/-- Physical TopN; `Offset` and `Count` are `uint64`. -/
structure PhysicalTopN where
  ByItems : List ByItems
  PartitionBy : List SortItem
  Count : Nat
  Offset : Nat
  stats : StatsInfo
  childrenReqProps : List PhysicalProperty
  schema : Schema
  deriving Repr

/-- Physical sort. -/
structure PhysicalSort where
  ByItems : List ByItems
  stats : StatsInfo
  childrenReqProps : List PhysicalProperty
  deriving Repr

/-- Nominal sort: a sort that only passes its order down. -/
structure NominalSort where
  OnlyColumn : Bool
  ByItems : List ByItems
  stats : StatsInfo
  childrenReqProps : List PhysicalProperty
  deriving Repr

/-- Window function descriptor. -/
structure WindowFuncDesc where
  Name : String
  Args : List Expression
  deriving Repr

/-- Bound of a window frame. -/
structure FrameBound where
  CalcFuncs : List Expression
  deriving Repr

/-- Window frame; `FrameType` is the code of the field `Type`. -/
structure WindowFrame where
  FrameType : Nat
  Start : FrameBound
  End : FrameBound
  deriving Repr

/-- Modelled from the spec: the frame type `ast.Ranges` (package ast is not among the
sources). -/
def ast.Ranges : Nat := 1

/-- Physical window; the zero value of `StoreTp` is TiKV. -/
structure PhysicalWindow where
  WindowFuncDescs : List WindowFuncDesc
  PartitionBy : List SortItem
  OrderBy : List SortItem
  Frame : Option WindowFrame
  StoreTp : StoreType := StoreType.TiKV
  stats : StatsInfo
  childrenReqProps : List PhysicalProperty
  schema : Schema
  deriving Repr

/-- Physical union all. -/
structure PhysicalUnionAll where
  Mpp : Bool
  stats : StatsInfo
  childrenReqProps : List PhysicalProperty
  schema : Schema
  deriving Repr

/-- Physical union scan; `HandleCols` is kept as a handle. -/
structure PhysicalUnionScan where
  Conditions : List Expression
  HandleCols : Option Nat
  stats : StatsInfo
  childrenReqProps : List PhysicalProperty
  deriving Repr

/-- The dynamic types of `base.PhysicalPlan` that the enumerators produce or inspect;
every other operator is `other`. -/
inductive PhysicalPlan where
  | hashJoin (j : PhysicalHashJoin)
  | mergeJoin (j : BasePhysicalJoin)
  | indexJoin (j : PhysicalIndexJoin)
  | indexHashJoin (j : PhysicalIndexHashJoin)
  | indexMergeJoin (j : PhysicalIndexMergeJoin)
  | other (id : Nat)
  | hashAgg (a : PhysicalHashAgg)
  | selection (x : PhysicalSelection)
  | projection (x : PhysicalProjection)
  | limit (x : PhysicalLimit)
  | topN (x : PhysicalTopN)
  | sort (x : PhysicalSort)
  | nominalSort (x : NominalSort)
  | window (x : PhysicalWindow)
  | unionAll (x : PhysicalUnionAll)
  | unionScan (x : PhysicalUnionScan)
  deriving Repr

/-! ### Logical operators other than the join -/

/-- Logical aggregation of package logicalop: the fields the enumerators read. -/
structure LogicalAggregation where
  AggFuncs : List AggFuncDesc
  GroupByItems : List Expression
  PreferAggType : Nat
  stats : StatsInfo
  schema : Schema
  deriving Repr

/-- Logical selection. -/
structure LogicalSelection where
  Conditions : List Expression
  stats : StatsInfo
  deriving Repr

/-- Logical projection, with the logical property of its child. -/
structure LogicalProjection where
  Exprs : List Expression
  CalculateNoDelay : Bool
  stats : StatsInfo
  schema : Schema
  child : LogicalProperty
  deriving Repr

/-- Group expression of the memo wrapping a logical projection. -/
structure ProjectionGroupExpression where
  input0 : LogicalProperty
  wrapped : LogicalProjection
  deriving Repr

/-- The `super` argument of the projection enumerator. -/
inductive ProjectionPlan where
  | projection (p : LogicalProjection)
  | groupExpression (ge : ProjectionGroupExpression)
  deriving Repr

/-- Logical limit; `Count` and `Offset` are `uint64`. -/
structure LogicalLimit where
  Count : Nat
  Offset : Nat
  PartitionBy : List SortItem
  PreferLimitToCop : Bool
  stats : StatsInfo
  schema : Schema
  deriving Repr

/-- Data source, reduced to its pushed-down conditions and the mask of its preferred
storage engines. -/
structure DataSource where
  PushedDownConds : List Expression
  PreferStoreType : Nat := 0
  deriving Repr

/-- The child of a single-child operator, as far as its dynamic type is inspected. -/
inductive LogicalChild where
  | dataSource (ds : DataSource)
  | other
  deriving Repr

/-- Logical TopN; `Count` and `Offset` are `uint64`. -/
structure LogicalTopN where
  ByItems : List ByItems
  PartitionBy : List SortItem
  Count : Nat
  Offset : Nat
  PreferLimitToCop : Bool
  stats : StatsInfo
  schema : Schema
  child : LogicalChild
  deriving Repr

/-- Logical sort. -/
structure LogicalSort where
  ByItems : List ByItems
  stats : StatsInfo
  deriving Repr

/-- Logical window. -/
structure LogicalWindow where
  WindowFuncDescs : List WindowFuncDesc
  PartitionBy : List SortItem
  OrderBy : List SortItem
  Frame : Option WindowFrame
  stats : StatsInfo
  schema : Schema
  deriving Repr

/-- Logical union all, with the number of its children. -/
structure LogicalUnionAll where
  ChildLen : Nat
  stats : StatsInfo
  schema : Schema
  deriving Repr

/-- Inner task handed to the index-join constructors: whether it is the invalid task,
and its plan as a handle. -/
structure InnerTask where
  Invalid : Bool
  Plan : Nat
  deriving DecidableEq, Repr

/-- Access path, reduced to the lengths of its index columns. -/
structure AccessPath where
  IdxColLens : List Int
  deriving DecidableEq, Repr

/-- Logical union scan; `HandleCols` is kept as a handle. -/
structure LogicalUnionScan where
  Conditions : List Expression
  HandleCols : Option Nat
  deriving Repr

/-- A logical operator other than a data source, by its dynamic type: the four kinds an
index-join inner pattern admits, and every other kind as `other`. -/
inductive InnerOp where
  | projection (x : LogicalProjection)
  | selection (x : LogicalSelection)
  | aggregation (la : LogicalAggregation)
  | unionScan (us : LogicalUnionScan)
  | other (id : Nat)
  deriving Repr

/-- A logical plan tree as the walk down an inner child sees it: a data source, an
operator with exactly one child, or an operator whose `Children()` has another
length. -/
inductive LogicalTree where
  | dataSource (ds : DataSource)
  | unary (op : InnerOp) (child : LogicalTree)
  | nonUnary (op : InnerOp)
  deriving Repr

/-- The struct `indexJoinInnerChildWrapper` of the source; `ds` is a pointer that may be
nil. -/
structure indexJoinInnerChildWrapper where
  ds : Option DataSource := none
  hasDitryWrite : Bool := false
  zippedChildren : List InnerOp := []
  deriving Repr

/-- Dynamic type of a task. -/
inductive TaskKind where
  | RootTask
  | CopTask
  | MppTask
  deriving DecidableEq, Repr

/-- Task of package base as the construction of an index-join inner side sees it: its
dynamic type, what `Invalid()` answers, and its plan. -/
structure Task where
  kind : TaskKind
  invalid : Bool
  plan : PhysicalPlan
  deriving Repr

/-- The plan context and the functions of this repository that the transcribed code
calls but that are taken as given: functions of packages that are not among the
sources, and sub-enumerators whose results the theorems quantify over. The defaults
only serve the sample environments; every theorem holds for all values of the
fields. -/
structure Env where
  vars : SessionVars
  IsHashJoinV2Supported : Bool
  UseHashJoinV2ForNonGAJoin : Bool
  ScaleByExpectCnt : StatsInfo → ℚ → StatsInfo
  Restore2JoinHint : String → List String → String
  RaiseWarningWhenMPPEnforced : String → List String
  isJoinHintSupportedInMPPMode : Nat → Bool
  GetMergeJoin : LogicalJoin → PhysicalProperty → Schema → StatsInfo → StatsInfo → StatsInfo →
    List PhysicalPlan
  tryToGetMppHashJoin : LogicalPlan → PhysicalProperty → Bool → List PhysicalPlan
  preferMppBCJ : LogicalPlan → Bool
  getIndexJoinByOuterIdx : LogicalJoin → PhysicalProperty → Nat → List PhysicalPlan
  Count : StatsInfo → Int := fun s => Rat.floor s.RowCount
  GetAvgRowSize : StatsInfo → Schema → ℚ := fun _ _ => 8
  IsPushDownEnabled : String → StoreType → Bool := fun _ _ => true
  CanExprsPushDown : List Expression → StoreType → Bool := fun _ _ => true
  ContainVirtualColumn : List Expression → Bool := fun _ => false
  JoinPotentialPartitionKeys : LogicalJoin → List MPPPartitionColumn × List MPPPartitionColumn :=
    fun p => (p.EqualConditions.map (fun e => { Col := e.lhs, CollateID := 0 }),
      p.EqualConditions.map (fun e => { Col := e.rhs, CollateID := 0 }))
  GetCollateIDByNameForPartition : Column → Int := fun _ => 0
  TryToGetChildProp : LogicalProjection → PhysicalProperty → Option PhysicalProperty :=
    fun _ prop => some prop
  ProjectionBenefitsFromPushedDown : List Expression → Nat → Bool := fun _ _ => false
  InterpretVectorSearchExpr : Expression → Option Nat := fun _ => none
  GetPropByOrderByItemsContainScalarFunc : List ByItems → PhysicalProperty × Bool × Bool :=
    fun _ => ({}, false, false)
  WindowCanPushDownToTiFlash : WindowFuncDesc → Bool := fun _ => true
  ExpressionsToPBListErr : List Expression → Option String := fun _ => none
  CheckComparisonForTiFlash : LogicalWindow → FrameBound → Bool := fun _ _ => true
  WindowPartitionKeys : LogicalWindow → List MPPPartitionColumn :=
    fun lw => lw.PartitionBy.map (fun it => { Col := it.Col, CollateID := 0 })
  IsSortItemAllForPartition : PhysicalProperty → Bool := fun _ => true
  CloneEssentialFields : PhysicalProperty → PhysicalProperty :=
    fun p => { p with CanAddEnforcer := false, IndexJoinProp := none }
  IsPrefix : PhysicalProperty → PhysicalProperty → Bool :=
    fun p q => p.SortItems.isPrefixOf q.SortItems
  OtherPlanStats : Nat → StatsInfo := fun _ => { RowCount := 10 }
  Attach2Task : PhysicalPlan → Task → Task := fun pl t => { t with plan := pl }
  ConvertToRootTask : Task → Task := fun t => { t with kind := TaskKind.RootTask }
  buildInnerAggTask : LogicalJoin → PhysicalProperty → Task → DataSource → Option AccessPath →
      LogicalAggregation → Task :=
    fun _ _ t _ _ _ => { t with kind := TaskKind.RootTask }

/-! ## Hash joins -/

/-- Transcribes `IsGAForHashJoinV2`. -/
def IsGAForHashJoinV2 (joinType : JoinType) (leftJoinKeys : List Column) (isNullEQ : List Bool)
    (leftNAJoinKeys : List Column) : Bool :=
  if leftNAJoinKeys.length > 0 then false
  else if leftJoinKeys.length == 0 then false
  else if isNullEQ.any (fun value => value) then false
  else
    match joinType with
    | JoinType.LeftOuterJoin | JoinType.RightOuterJoin | JoinType.InnerJoin
    | JoinType.AntiSemiJoin | JoinType.SemiJoin => true
    | _ => false

/-- Transcribes `canUseHashJoinV2`. -/
def canUseHashJoinV2 (env : Env) (joinType : JoinType) (leftJoinKeys : List Column)
    (isNullEQ : List Bool) (leftNAJoinKeys : List Column) : Bool :=
  if !IsGAForHashJoinV2 joinType leftJoinKeys isNullEQ leftNAJoinKeys
      && !env.UseHashJoinV2ForNonGAJoin then false
  else
    match joinType with
    | JoinType.LeftOuterJoin | JoinType.RightOuterJoin | JoinType.InnerJoin
    | JoinType.LeftOuterSemiJoin | JoinType.SemiJoin | JoinType.AntiSemiJoin
    | JoinType.AntiLeftOuterSemiJoin =>
      if leftNAJoinKeys.length > 0 then false
      else if leftJoinKeys.length == 0 then false
      else if isNullEQ.any (fun value => value) then false
      else true

/-- Modelled from the spec: `NewPhysicalHashJoin` (file physical_plans.go of package
core is not among the sources): the hash join copies the logical join's conditions,
keys, type and default values, and records the inner child index, the build-side
switch, the statistics and the children's required properties. -/
def NewPhysicalHashJoin (p : LogicalJoin) (innerIdx : Nat) (useOuterToBuild : Bool)
    (newStats : StatsInfo) (prop : List PhysicalProperty) : PhysicalHashJoin :=
  { InnerChildIdx := innerIdx
    JoinType := p.JoinType
    LeftConditions := p.LeftConditions
    RightConditions := p.RightConditions
    OtherConditions := p.OtherConditions
    LeftJoinKeys := p.GetJoinKeys.1
    RightJoinKeys := p.GetJoinKeys.2.1
    LeftNAJoinKeys := p.GetNAJoinKeys.1
    RightNAJoinKeys := p.GetNAJoinKeys.2
    IsNullEQ := p.GetJoinKeys.2.2.1
    DefaultValues := p.DefaultValues
    stats := newStats
    childrenReqProps := prop
    schema := { Columns := [] }
    EqualConditions := p.EqualConditions
    NAEqualConditions := p.NAEQConditions
    UseOuterToBuild := useOuterToBuild }

/-- Modelled from the spec: `physicalop.ShouldSkipHashJoin` (package physicalop is not
among the sources): hash join is skipped under the NO_HASH_JOIN hint or when the
variable tidb_opt_enable_hash_join turns it off. -/
def ShouldSkipHashJoin (env : Env) (p : LogicalJoin) : Bool :=
  decide (p.PreferJoinType &&& PreferNoHashJoin > 0) || env.vars.DisableHashJoin

/-- Transcribes `getHashJoin`. `innerIdx` is 0 or 1 at every call site. -/
def getHashJoin (env : Env) (ge : Option GroupExpression) (p : LogicalJoin)
    (prop : PhysicalProperty) (innerIdx : Nat) (useOuterToBuild : Bool) : PhysicalHashJoin :=
  let st := getJoinChildStatsAndSchema ge p
  let stats0 := st.1
  let stats1 := st.2.1
  let innerProp : PhysicalProperty :=
    { ExpectedCnt := MaxFloat64, CTEProducerStatus := prop.CTEProducerStatus,
      NoCopPushDown := prop.NoCopPushDown }
  let outerProp0 : PhysicalProperty :=
    { ExpectedCnt := MaxFloat64, CTEProducerStatus := prop.CTEProducerStatus,
      NoCopPushDown := prop.NoCopPushDown }
  let outerStats := if 1 - innerIdx == 0 then stats0 else stats1
  let outerProp : PhysicalProperty :=
    if prop.ExpectedCnt < p.stats.RowCount then
      let expCntScale := prop.ExpectedCnt / p.stats.RowCount
      { outerProp0 with ExpectedCnt := outerStats.RowCount * expCntScale }
    else outerProp0
  let chReqProps := if innerIdx == 0 then [innerProp, outerProp] else [outerProp, innerProp]
  let hashJoin := NewPhysicalHashJoin p innerIdx useOuterToBuild
    (env.ScaleByExpectCnt p.stats prop.ExpectedCnt) chReqProps
  { hashJoin with schema := p.schema }

/-- Warning text of `getHashJoins` for conflicting build/probe hints. -/
def conflictingHJBuildProbeWarning : String :=
  "Conflicting HASH_JOIN_BUILD and HASH_JOIN_PROBE hints detected. " ++
    "Both sides cannot be specified to use the same table. Please review the hints"

/-- Warning text of `getHashJoins` for build/probe hints on a version-1 semi join. -/
def hashJoinV1BuildProbeWarning (jt : JoinType) : String :=
  "The HASH_JOIN_BUILD and HASH_JOIN_PROBE hints are not supported for " ++ jt.String ++
    " with hash join version 1. Please remove these hints"

/-- Warning text of `getHashJoins` for build/probe hints on a fixed-build-side join. -/
def fixedBuildSideWarning (jt : JoinType) : String :=
  "HASH_JOIN_BUILD and HASH_JOIN_PROBE hints are not supported for " ++ jt.String ++
    " because the build side is fixed. Please remove these hints"

/-- Warning text of `getHashJoins` when HASH_JOIN meets NO_HASH_JOIN. -/
def hashJoinPrecedenceWarning : String :=
  "A conflict between the HASH_JOIN hint and the NO_HASH_JOIN hint, " ++
    "or the tidb_opt_enable_hash_join system variable, the HASH_JOIN hint will take precedence."

/-- The `switch p.JoinType` of `getHashJoins`: from the two force flags (after the
conflict check) it yields the candidates, the flags as the branch leaves them, and
the warnings of the branch. -/
def getHashJoinsSwitch (env : Env) (ge : Option GroupExpression) (p : LogicalJoin)
    (prop : PhysicalProperty) (forceLeftToBuild forceRightToBuild : Bool) :
    List PhysicalHashJoin × Bool × Bool × List String :=
  match p.JoinType with
  | JoinType.SemiJoin | JoinType.AntiSemiJoin =>
    let leftJoinKeys := p.GetJoinKeys.1
    let isNullEQ := p.GetJoinKeys.2.2.1
    let leftNAJoinKeys := p.GetNAJoinKeys.1
    if env.vars.UseHashJoinV2 && env.IsHashJoinV2Supported
        && canUseHashJoinV2 env p.JoinType leftJoinKeys isNullEQ leftNAJoinKeys then
      ((if !forceLeftToBuild then [getHashJoin env ge p prop 1 false] else []) ++
       (if !forceRightToBuild then [getHashJoin env ge p prop 1 true] else []),
       forceLeftToBuild, forceRightToBuild, [])
    else if forceLeftToBuild || forceRightToBuild then
      ([getHashJoin env ge p prop 1 false], false, false, [hashJoinV1BuildProbeWarning p.JoinType])
    else
      ([getHashJoin env ge p prop 1 false], forceLeftToBuild, forceRightToBuild, [])
  | JoinType.LeftOuterSemiJoin | JoinType.AntiLeftOuterSemiJoin =>
    if forceLeftToBuild || forceRightToBuild then
      ([getHashJoin env ge p prop 1 false], false, false, [fixedBuildSideWarning p.JoinType])
    else
      ([getHashJoin env ge p prop 1 false], forceLeftToBuild, forceRightToBuild, [])
  | JoinType.LeftOuterJoin =>
    ((if !forceLeftToBuild then [getHashJoin env ge p prop 1 false] else []) ++
     (if !forceRightToBuild then [getHashJoin env ge p prop 1 true] else []),
     forceLeftToBuild, forceRightToBuild, [])
  | JoinType.RightOuterJoin =>
    ((if !forceLeftToBuild then [getHashJoin env ge p prop 0 true] else []) ++
     (if !forceRightToBuild then [getHashJoin env ge p prop 0 false] else []),
     forceLeftToBuild, forceRightToBuild, [])
  | JoinType.InnerJoin =>
    if forceLeftToBuild then
      ([getHashJoin env ge p prop 0 false], forceLeftToBuild, forceRightToBuild, [])
    else if forceRightToBuild then
      ([getHashJoin env ge p prop 1 false], forceLeftToBuild, forceRightToBuild, [])
    else
      ([getHashJoin env ge p prop 1 false, getHashJoin env ge p prop 0 false],
       forceLeftToBuild, forceRightToBuild, [])

/-- Transcribes `getHashJoins`: the candidates, the `forced` flag and the warnings
appended to the statement context. -/
def getHashJoins (env : Env) (super : LogicalPlan) (prop : PhysicalProperty) :
    List PhysicalPlan × Bool × List String :=
  let ge := (getGEAndLogicalJoin super).1
  let p := (getGEAndLogicalJoin super).2
  if !prop.IsSortItemEmpty then ([], false, [])
  else
    let forceLeftToBuild0 := decide (p.PreferJoinType &&& PreferLeftAsHJBuild > 0)
      || decide (p.PreferJoinType &&& PreferRightAsHJProbe > 0)
    let forceRightToBuild0 := decide (p.PreferJoinType &&& PreferRightAsHJBuild > 0)
      || decide (p.PreferJoinType &&& PreferLeftAsHJProbe > 0)
    let conflict := forceLeftToBuild0 && forceRightToBuild0
    let w1 := if conflict then [conflictingHJBuildProbeWarning] else []
    let forceLeftToBuild1 := if conflict then false else forceLeftToBuild0
    let forceRightToBuild1 := if conflict then false else forceRightToBuild0
    let sw := getHashJoinsSwitch env ge p prop forceLeftToBuild1 forceRightToBuild1
    let joins := sw.1.map PhysicalPlan.hashJoin
    let forceLeftToBuild := sw.2.1
    let forceRightToBuild := sw.2.2.1
    let w2 := sw.2.2.2
    let forced := decide (p.PreferJoinType &&& PreferHashJoin > 0)
      || forceLeftToBuild || forceRightToBuild
    let shouldSkipHashJoin := ShouldSkipHashJoin env p
    if !forced && shouldSkipHashJoin then ([], false, w1 ++ w2)
    else if forced && shouldSkipHashJoin then (joins, forced, w1 ++ w2 ++ [hashJoinPrecedenceWarning])
    else (joins, forced, w1 ++ w2)

/-- The child a hash join builds its hash table on: the inner child, or the outer
one when `UseOuterToBuild` is set. -/
def PhysicalHashJoin.buildChildIdx (j : PhysicalHashJoin) : Nat :=
  if j.UseOuterToBuild then 1 - j.InnerChildIdx else j.InnerChildIdx

/-- Clears the bits of `mask` in `x` (Go's `x &^ mask`). -/
def clearBits (x mask : Nat) : Nat := x ^^^ (x &&& mask)

/-- The four build/probe hint bits of a hash join. -/
def hashJoinBuildProbeMask : Nat :=
  PreferLeftAsHJBuild ||| PreferRightAsHJBuild ||| PreferLeftAsHJProbe ||| PreferRightAsHJProbe

/-- A build-left force: HASH_JOIN_BUILD on the left or HASH_JOIN_PROBE on the right. -/
def forcesLeftToBuild (p : LogicalJoin) : Bool :=
  decide (p.PreferJoinType &&& PreferLeftAsHJBuild > 0)
    || decide (p.PreferJoinType &&& PreferRightAsHJProbe > 0)

/-- A build-right force: HASH_JOIN_BUILD on the right or HASH_JOIN_PROBE on the left. -/
def forcesRightToBuild (p : LogicalJoin) : Bool :=
  decide (p.PreferJoinType &&& PreferRightAsHJBuild > 0)
    || decide (p.PreferJoinType &&& PreferLeftAsHJProbe > 0)

/-- The same `super` with its join's hint mask replaced. -/
def LogicalPlan.withPreferJoinType (super : LogicalPlan) (m : Nat) : LogicalPlan :=
  super.withJoin { (getGEAndLogicalJoin super).2 with PreferJoinType := m }

/-! ## Index-join hints -/

/-- Constant `joinLeft` of the source. -/
def joinLeft : Nat := 0
/-- Constant `joinRight` of the source. -/
def joinRight : Nat := 1
/-- Constant `indexJoinMethod` of the source. -/
def indexJoinMethod : Nat := 0
/-- Constant `indexHashJoinMethod` of the source. -/
def indexHashJoinMethod : Nat := 1
/-- Constant `indexMergeJoinMethod` of the source. -/
def indexMergeJoinMethod : Nat := 2

/-- Transcribes `getIndexJoinSideAndMethod`: inner side, join method, and whether the
plan belongs to the index-join family. -/
def getIndexJoinSideAndMethod (join : PhysicalPlan) : Nat × Nat × Bool :=
  match join with
  | PhysicalPlan.indexJoin ij =>
    (if ij.InnerChildIdx == 1 then joinRight else joinLeft, indexJoinMethod, true)
  | PhysicalPlan.indexHashJoin ij =>
    (if ij.PhysicalIndexJoin.InnerChildIdx == 1 then joinRight else joinLeft,
      indexHashJoinMethod, true)
  | PhysicalPlan.indexMergeJoin ij =>
    (if ij.PhysicalIndexJoin.InnerChildIdx == 1 then joinRight else joinLeft,
      indexMergeJoinMethod, true)
  | _ => (0, 0, false)

/-- Transcribes `handleFilterIndexJoinHints`. -/
def handleFilterIndexJoinHints (p : LogicalJoin) (candidates : List PhysicalPlan) :
    List PhysicalPlan :=
  if !p.PreferAny [PreferNoIndexJoin, PreferNoIndexHashJoin, PreferNoIndexMergeJoin] then
    candidates
  else
    candidates.filter (fun candidate =>
      let r := getIndexJoinSideAndMethod candidate
      let joinMethod := r.2.1
      let ok := r.2.2
      if !ok then false
      else if (p.PreferAny [PreferNoIndexJoin] && joinMethod == indexJoinMethod)
          || (p.PreferAny [PreferNoIndexHashJoin] && joinMethod == indexHashJoinMethod)
          || (p.PreferAny [PreferNoIndexMergeJoin] && joinMethod == indexMergeJoinMethod) then
        false
      else true)

/-- Transcribes `filterIndexJoinBySessionVars`. -/
def filterIndexJoinBySessionVars (env : Env) (indexJoins : List PhysicalPlan) :
    List PhysicalPlan :=
  if env.vars.EnableIndexMergeJoin then indexJoins
  else indexJoins.filter (fun indexJoin =>
    match indexJoin with
    | PhysicalPlan.indexMergeJoin _ => false
    | _ => true)

/-- The test both `handleForceIndexJoinHints` and `preferIndexJoinFamily` apply to an
index-join candidate: some force hint names its inner side and method. -/
def matchesForceIndexJoinHint (p : LogicalJoin) (innerSide joinMethod : Nat) : Bool :=
  (p.PreferAny [PreferLeftAsINLJInner] && innerSide == joinLeft
      && joinMethod == indexJoinMethod)
    || (p.PreferAny [PreferRightAsINLJInner] && innerSide == joinRight
      && joinMethod == indexJoinMethod)
    || (p.PreferAny [PreferLeftAsINLHJInner] && innerSide == joinLeft
      && joinMethod == indexHashJoinMethod)
    || (p.PreferAny [PreferRightAsINLHJInner] && innerSide == joinRight
      && joinMethod == indexHashJoinMethod)
    || (p.PreferAny [PreferLeftAsINLMJInner] && innerSide == joinLeft
      && joinMethod == indexMergeJoinMethod)
    || (p.PreferAny [PreferRightAsINLMJInner] && innerSide == joinRight
      && joinMethod == indexMergeJoinMethod)

/-- The six index-join-family force hints. -/
def forceIndexJoinFlags : List Nat :=
  [PreferRightAsINLJInner, PreferRightAsINLHJInner, PreferRightAsINLMJInner,
   PreferLeftAsINLJInner, PreferLeftAsINLHJInner, PreferLeftAsINLMJInner]

/-- The statement `if p.HintInfo != nil { ... }` of `handleForceIndexJoinHints` and
`recordIndexJoinHintWarnings`: the hinted tables, nil slices without hint info. -/
def hintedIndexJoinTables (p : LogicalJoin) : IndexJoinHints :=
  match p.HintInfo with
  | some t => t
  | none => { INLJTables := [], INLHJTables := [], INLMJTables := [] }

/-- The `switch` that builds the text "Optimizer Hint ... is inapplicable" in
`handleForceIndexJoinHints` and `recordIndexJoinHintWarnings`; `none` when no case
applies. -/
def forceHintInapplicableMsg (env : Env) (p : LogicalJoin) : Option String :=
  let t : IndexJoinHints := hintedIndexJoinTables p
  if p.PreferAny [PreferLeftAsINLJInner, PreferRightAsINLJInner] then
    some ("Optimizer Hint " ++ env.Restore2JoinHint HintINLJ t.INLJTables ++ " or " ++
      env.Restore2JoinHint TiDBIndexNestedLoopJoin t.INLJTables ++ " is inapplicable")
  else if p.PreferAny [PreferLeftAsINLHJInner, PreferRightAsINLHJInner] then
    some ("Optimizer Hint " ++ env.Restore2JoinHint HintINLHJ t.INLHJTables ++
      " is inapplicable")
  else if p.PreferAny [PreferLeftAsINLMJInner, PreferRightAsINLMJInner] then
    some ("Optimizer Hint " ++ env.Restore2JoinHint HintINLMJ t.INLMJTables ++
      " is inapplicable")
  else none

/-- The reason `handleForceIndexJoinHints` appends to the message. -/
def inapplicableReason (p : LogicalJoin) : String :=
  if p.EqualConditions.length == 0 then " without column equal ON condition" else ""

/-- The test of the loop of `handleForceIndexJoinHints`: the candidate is of the
index-join family and some force hint names its inner side and method. -/
def satisfiesForceHints (p : LogicalJoin) (candidate : PhysicalPlan) : Bool :=
  let r := getIndexJoinSideAndMethod candidate
  if !r.2.2 then false else matchesForceIndexJoinHint p r.1 r.2.1

/-- An index join (method `indexJoinMethod`) whose inner side is the side an INL_JOIN
hint names. -/
def matchesINLJHint (p : LogicalJoin) (candidate : PhysicalPlan) : Bool :=
  let r := getIndexJoinSideAndMethod candidate
  r.2.2 && r.2.1 == indexJoinMethod
    && ((p.PreferAny [PreferLeftAsINLJInner] && r.1 == joinLeft)
      || (p.PreferAny [PreferRightAsINLJInner] && r.1 == joinRight))

/-- Transcribes `handleForceIndexJoinHints`: the plans, `canForced`, and the warnings
appended. -/
def handleForceIndexJoinHints (env : Env) (p : LogicalJoin) (prop : PhysicalProperty)
    (candidates : List PhysicalPlan) : List PhysicalPlan × Bool × List String :=
  if !p.PreferAny forceIndexJoinFlags then (candidates, false, [])
  else
    let forced := candidates.filter (satisfiesForceHints p)
    if forced.length > 0 then (forced, true, [])
    else if prop.IsSortItemEmpty then
      (candidates, false, [(forceHintInapplicableMsg env p).getD "" ++ inapplicableReason p])
    else (candidates, false, [])

/-- Warning text for INL_JOIN against NO_INDEX_JOIN. -/
def inljConflictWarning : String :=
  "Some INL_JOIN and NO_INDEX_JOIN hints conflict, NO_INDEX_JOIN may be ignored"
/-- Warning text for INL_HASH_JOIN against NO_INDEX_HASH_JOIN. -/
def inlhjConflictWarning : String :=
  "Some INL_HASH_JOIN and NO_INDEX_HASH_JOIN hints conflict, NO_INDEX_HASH_JOIN may be ignored"
/-- Warning text for INL_MERGE_JOIN against NO_INDEX_MERGE_JOIN. -/
def inlmjConflictWarning : String :=
  "Some INL_MERGE_JOIN and NO_INDEX_MERGE_JOIN hints conflict, NO_INDEX_MERGE_JOIN may be ignored"

/-- The three conflict checks shared by `tryToGetIndexJoin` and
`tryToEnumerateIndexJoin`: the warnings they append. -/
def indexJoinConflictWarnings (p : LogicalJoin) : List String :=
  (if p.PreferAny [PreferLeftAsINLJInner, PreferRightAsINLJInner]
      && p.PreferAny [PreferNoIndexJoin] then [inljConflictWarning] else [])
  ++ (if p.PreferAny [PreferLeftAsINLHJInner, PreferRightAsINLHJInner]
      && p.PreferAny [PreferNoIndexHashJoin] then [inlhjConflictWarning] else [])
  ++ (if p.PreferAny [PreferLeftAsINLMJInner, PreferRightAsINLMJInner]
      && p.PreferAny [PreferNoIndexMergeJoin] then [inlmjConflictWarning] else [])

/-- The `switch p.JoinType` shared by the two index-join enumerators:
`supportLeftOuter` and `supportRightOuter`. -/
def supportOuterSides (jt : JoinType) : Bool × Bool :=
  match jt with
  | JoinType.SemiJoin | JoinType.AntiSemiJoin | JoinType.LeftOuterSemiJoin
  | JoinType.AntiLeftOuterSemiJoin | JoinType.LeftOuterJoin => (true, false)
  | JoinType.RightOuterJoin => (false, true)
  | JoinType.InnerJoin => (true, true)

/-- The candidates `tryToGetIndexJoin` enumerates before it looks at the hints. -/
def getIndexJoinCandidates (env : Env) (p : LogicalJoin) (prop : PhysicalProperty) :
    List PhysicalPlan :=
  (if (supportOuterSides p.JoinType).1 then env.getIndexJoinByOuterIdx p prop 0 else [])
  ++ (if (supportOuterSides p.JoinType).2 then env.getIndexJoinByOuterIdx p prop 1 else [])

/-- Transcribes `tryToGetIndexJoin`: the plans, `canForced`, and the warnings
appended. -/
def tryToGetIndexJoin (env : Env) (p : LogicalJoin) (prop : PhysicalProperty) :
    List PhysicalPlan × Bool × List String :=
  let candidates := getIndexJoinCandidates env p prop
  let w := indexJoinConflictWarnings p
  let r := handleForceIndexJoinHints env p prop candidates
  if r.2.1 then (r.1, r.2.1, w ++ r.2.2)
  else
    (filterIndexJoinBySessionVars env (handleFilterIndexJoinHints p r.1), false, w ++ r.2.2)

/-- Transcribes `recordIndexJoinHintWarnings`: the error it returns, `none` for nil. -/
def recordIndexJoinHintWarnings (env : Env) (p : LogicalJoin) (prop : PhysicalProperty)
    (inEnforce : Bool) : Option String :=
  if decide (p.PreferJoinType &&& PreferShuffleJoin > 0)
      || decide (p.PreferJoinType &&& PreferBCJoin > 0) then
    if p.PreferJoinType &&& PreferShuffleJoin > 0 then
      some "The join can not push down to the MPP side, the shuffle_join() hint is invalid"
    else
      some "The join can not push down to the MPP side, the broadcast_join() hint is invalid"
  else if !p.PreferAny forceIndexJoinFlags then none
  else if prop.IsSortItemEmpty || inEnforce then
    match forceHintInapplicableMsg env p with
    | some errMsg => some (errMsg ++ inapplicableReason p)
    | none => none
  else none

/-! ## Static enumeration of index joins -/

/-- Transcribes `constructIndexJoinStatic`; every plan it returns is a
`*physicalop.PhysicalIndexJoin`. `outerIdx` is 0 or 1 at every call site. -/
def constructIndexJoinStatic (env : Env) (p : LogicalJoin) (prop : PhysicalProperty)
    (outerIdx : Nat) (indexJoinProp : IndexJoinRuntimeProp) (outerStats : StatsInfo) :
    List PhysicalIndexJoin :=
  let joinType := p.JoinType
  let keys := p.GetJoinKeys
  let outerJoinKeys := if outerIdx == 0 then keys.1 else keys.2.1
  let innerJoinKeys := if outerIdx == 0 then keys.2.1 else keys.1
  let isNullEQ := keys.2.2.1
  let hasNullEQ := keys.2.2.2
  if hasNullEQ then []
  else
    let outerProp0 : PhysicalProperty :=
      { TaskTp := TaskType.RootTaskType, ExpectedCnt := MaxFloat64,
        SortItems := prop.SortItems, CTEProducerStatus := prop.CTEProducerStatus,
        NoCopPushDown := prop.NoCopPushDown }
    let orderRatio := env.vars.OptOrderingIdxSelRatio
    let outerRowCount := outerStats.RowCount
    let estimatedRowCount := p.stats.RowCount
    let outerProp : PhysicalProperty :=
      if decide (prop.ExpectedCnt < estimatedRowCount)
          || (decide (orderRatio > 0) && decide (outerRowCount > estimatedRowCount)
            && decide (prop.ExpectedCnt < outerRowCount) && decide (estimatedRowCount > 0)) then
        let rowsToMeetFirst := max 0 ((outerRowCount - estimatedRowCount) * orderRatio)
        let expCntScale := prop.ExpectedCnt / estimatedRowCount
        let expectedCnt := (outerRowCount * expCntScale) + rowsToMeetFirst
        { outerProp0 with ExpectedCnt := expectedCnt }
      else outerProp0
    let innerProp : PhysicalProperty :=
      { TaskTp := TaskType.RootTaskType, ExpectedCnt := MaxFloat64,
        CTEProducerStatus := prop.CTEProducerStatus, IndexJoinProp := some indexJoinProp,
        NoCopPushDown := prop.NoCopPushDown }
    let chReqProps := if outerIdx == 0 then [outerProp, innerProp] else [innerProp, outerProp]
    let join : PhysicalIndexJoin :=
      { InnerChildIdx := 1 - outerIdx
        LeftConditions := p.LeftConditions
        RightConditions := p.RightConditions
        OtherConditions := p.OtherConditions
        JoinType := joinType
        OuterJoinKeys := outerJoinKeys
        InnerJoinKeys := innerJoinKeys
        IsNullEQ := isNullEQ
        DefaultValues := p.DefaultValues
        EqualConditions := p.EqualConditions
        stats := env.ScaleByExpectCnt p.stats prop.ExpectedCnt
        childrenReqProps := chReqProps
        schema := p.schema }
    [join]

/-- Transcribes `constructIndexHashJoinStatic`. -/
def constructIndexHashJoinStatic (env : Env) (p : LogicalJoin) (prop : PhysicalProperty)
    (outerIdx : Nat) (indexJoinProp : IndexJoinRuntimeProp) (outerStats : StatsInfo) :
    List PhysicalIndexHashJoin :=
  let indexJoins := constructIndexJoinStatic env p prop outerIdx indexJoinProp outerStats
  indexJoins.map (fun join =>
    { PhysicalIndexJoin := join, KeepOuterOrder := !prop.IsSortItemEmpty })

/-- Transcribes `enumerateIndexJoinByOuterIdx`. -/
def enumerateIndexJoinByOuterIdx (env : Env) (super : LogicalPlan) (prop : PhysicalProperty)
    (outerIdx : Nat) : List PhysicalPlan :=
  let ge := (getGEAndLogicalJoin super).1
  let p := (getGEAndLogicalJoin super).2
  let st := getJoinChildStatsAndSchema ge p
  let outerSchema := if outerIdx == 0 then st.2.2.1 else st.2.2.2
  let outerStats := if outerIdx == 0 then st.1 else st.2.1
  let all := prop.AllSameOrder
  if !prop.AllColsFromSchema outerSchema || !all then []
  else
    let keys := p.GetJoinKeys
    let outerJoinKeys := if outerIdx == 0 then keys.1 else keys.2.1
    let innerJoinKeys := if outerIdx == 0 then keys.2.1 else keys.1
    let avgInnerRowCnt : ℚ :=
      if outerStats.RowCount > 0 then p.EqualCondOutCnt / outerStats.RowCount else 0
    let indexJoinPropTS : IndexJoinRuntimeProp :=
      { OtherConditions := p.OtherConditions, InnerJoinKeys := innerJoinKeys,
        OuterJoinKeys := outerJoinKeys, AvgInnerRowCnt := avgInnerRowCnt,
        TableRangeScan := true }
    let indexJoinPropIS : IndexJoinRuntimeProp :=
      { OtherConditions := p.OtherConditions, InnerJoinKeys := innerJoinKeys,
        OuterJoinKeys := outerJoinKeys, AvgInnerRowCnt := avgInnerRowCnt,
        TableRangeScan := false }
    (constructIndexJoinStatic env p prop outerIdx indexJoinPropTS outerStats).map
        PhysicalPlan.indexJoin
      ++ (constructIndexJoinStatic env p prop outerIdx indexJoinPropIS outerStats).map
        PhysicalPlan.indexJoin
      ++ (constructIndexHashJoinStatic env p prop outerIdx indexJoinPropTS outerStats).map
        PhysicalPlan.indexHashJoin
      ++ (constructIndexHashJoinStatic env p prop outerIdx indexJoinPropIS outerStats).map
        PhysicalPlan.indexHashJoin

/-- The candidates `tryToEnumerateIndexJoin` enumerates before it looks at the hints. -/
def enumerateIndexJoinCandidates (env : Env) (super : LogicalPlan) (prop : PhysicalProperty) :
    List PhysicalPlan :=
  let p := (getGEAndLogicalJoin super).2
  (if (supportOuterSides p.JoinType).1 then enumerateIndexJoinByOuterIdx env super prop 0
    else [])
  ++ (if (supportOuterSides p.JoinType).2 then enumerateIndexJoinByOuterIdx env super prop 1
    else [])

/-- Transcribes `tryToEnumerateIndexJoin`: the plans and the warnings appended. -/
def tryToEnumerateIndexJoin (env : Env) (super : LogicalPlan) (prop : PhysicalProperty) :
    List PhysicalPlan × List String :=
  let p := (getGEAndLogicalJoin super).2
  let candidates := enumerateIndexJoinCandidates env super prop
  (handleFilterIndexJoinHints p candidates, indexJoinConflictWarnings p)

/-! ## Completion of an index join -/

/-- Index-join information an inner task carries bottom-up; reached through a pointer
of the root task that may be nil. -/
structure IndexJoinInfo where
  KeyOff2IdxOff : List Int
  Ranges : Option (List Range)
  IdxColLens : List Int
  CompareFilters : Option ColWithCmpFuncManager
  deriving Repr

/-- Root task, reduced to its pending index-join completion state. -/
structure RootTask where
  IndexJoinInfo : Option IndexJoinInfo
  deriving Repr

/-- The five lists the first loop of `completePhysicalIndexJoin` grows. -/
structure KeyLoopState where
  newKeyOff : List Int
  newIsNullEQ : List Bool
  newInnerKeys : List Column
  newOuterKeys : List Column
  newOtherConds : List Expression
  deriving Repr

/-- The loop `for keyOff, idxOff := range info.KeyOff2IdxOff` of
`completePhysicalIndexJoin`, from position `keyOff` on; `none` is an index out of
range. -/
def completeKeyLoop (physic : PhysicalIndexJoin) :
    List Int → Nat → KeyLoopState → Option KeyLoopState
  | [], _, st => some st
  | idxOff :: rest, keyOff, st =>
    if idxOff < 0 then
      match physic.EqualConditions[keyOff]? with
      | none => none
      | some e =>
        completeKeyLoop physic rest (keyOff + 1)
          { st with newOtherConds := st.newOtherConds ++ [e.toExpression] }
    else
      match physic.InnerJoinKeys[keyOff]?, physic.OuterJoinKeys[keyOff]?,
          physic.IsNullEQ[keyOff]? with
      | some ik, some ok, some ne =>
        completeKeyLoop physic rest (keyOff + 1)
          { st with
            newInnerKeys := st.newInnerKeys ++ [ik]
            newOuterKeys := st.newOuterKeys ++ [ok]
            newIsNullEQ := st.newIsNullEQ ++ [ne]
            newKeyOff := st.newKeyOff ++ [idxOff] }
      | _, _, _ => none

/-- The three lists the second loop of `completePhysicalIndexJoin` updates. -/
structure HashKeyLoopState where
  newOtherConds : List Expression
  outerHashKeys : List Column
  innerHashKeys : List Column
  deriving Repr

/-- The loop `for i := len(newOtherConds) - 1; extractOtherEQ && i >= 0; i = i - 1` of
`completePhysicalIndexJoin` (with `extractOtherEQ` true); the first argument is
`i + 1`. `none` is an index out of range. -/
def extractOtherEQLoop (innerS outerS : Schema) : Nat → HashKeyLoopState → Option HashKeyLoopState
  | 0, st => some st
  | i + 1, st =>
    match st.newOtherConds[i]? with
    | none => none
    | some (Expression.scalarFunction FuncName args) =>
      if FuncName == ast.EQ then
        match args[0]?, args[1]? with
        | some a0, some a1 =>
          match a0, a1 with
          | Expression.column lhs, Expression.column rhs =>
            if lhs.InOperand || rhs.InOperand then extractOtherEQLoop innerS outerS i st
            else if outerS.Contains lhs && innerS.Contains rhs then
              extractOtherEQLoop innerS outerS i
                { newOtherConds := st.newOtherConds.eraseIdx i
                  outerHashKeys := st.outerHashKeys ++ [lhs]
                  innerHashKeys := st.innerHashKeys ++ [rhs] }
            else if innerS.Contains lhs && outerS.Contains rhs then
              extractOtherEQLoop innerS outerS i
                { newOtherConds := st.newOtherConds.eraseIdx i
                  outerHashKeys := st.outerHashKeys ++ [rhs]
                  innerHashKeys := st.innerHashKeys ++ [lhs] }
            else
              extractOtherEQLoop innerS outerS i
                { st with newOtherConds := st.newOtherConds.eraseIdx i }
          | _, _ => extractOtherEQLoop innerS outerS i st
        | _, _ => none
      else extractOtherEQLoop innerS outerS i st
    | some _ => extractOtherEQLoop innerS outerS i st

/-- Transcribes `completePhysicalIndexJoin`: the completed join and the root task
after the call; `none` when the Go code faults (nil `rt.IndexJoinInfo`, index out of
range). -/
def completePhysicalIndexJoin (physic : PhysicalIndexJoin) (rt : RootTask)
    (innerS outerS : Schema) (extractOtherEQ : Bool) : Option (PhysicalIndexJoin × RootTask) :=
  match rt.IndexJoinInfo with
  | none => none
  | some info0 =>
    let info : IndexJoinInfo :=
      if info0.Ranges.isNone then { info0 with Ranges := some [] } else info0
    match completeKeyLoop physic info.KeyOff2IdxOff 0
        { newKeyOff := [], newIsNullEQ := [], newInnerKeys := [], newOuterKeys := [],
          newOtherConds := physic.OtherConditions } with
    | none => none
    | some ks =>
      let st0 : HashKeyLoopState :=
        { newOtherConds := ks.newOtherConds
          outerHashKeys := ks.newOuterKeys
          innerHashKeys := ks.newInnerKeys }
      match (if extractOtherEQ then extractOtherEQLoop innerS outerS st0.newOtherConds.length st0
          else some st0) with
      | none => none
      | some hs =>
        some
          ({ physic with
              IsNullEQ := ks.newIsNullEQ
              InnerJoinKeys := ks.newInnerKeys
              OuterJoinKeys := ks.newOuterKeys
              OtherConditions := hs.newOtherConds
              KeyOff2IdxOff := ks.newKeyOff
              Ranges := info.Ranges
              IdxColLens := info.IdxColLens
              CompareFilters := info.CompareFilters
              OuterHashKeys := hs.outerHashKeys
              InnerHashKeys := hs.innerHashKeys
              EqualConditions := [] },
           { rt with IndexJoinInfo := none })

/-! ## The join enumerator -/

/-- Modelled from the spec: `hasMPPJoinHints` (its file of package core is not among
the sources): the broadcast_join or the shuffle_join hint is set. -/
def hasMPPJoinHints (preferJoinType : Nat) : Bool :=
  decide (preferJoinType &&& PreferBCJoin > 0) || decide (preferJoinType &&& PreferShuffleJoin > 0)

/-- Warning text of `exhaustPhysicalPlans4LogicalJoin` for conflicting MPP join hints. -/
def mppHintConflictWarning : String :=
  "The MPP join hints are in conflict, and you can only specify join method hints that are " ++
    "currently supported by MPP mode now"

/-- Warning text of `exhaustPhysicalPlans4LogicalJoin` when a hint blocks the MPP mode. -/
def mppBlockedWarning : String :=
  "MPP mode may be blocked because you have used hint to specify a join algorithm which is " ++
    "not supported by mpp now."

/-- The MPP part of `exhaustPhysicalPlans4LogicalJoin` (the `if IsMPPAllowed()`
statement): the MPP hash joins and the warnings appended. -/
def exhaustMppJoins (env : Env) (super : LogicalPlan) (prop : PhysicalProperty) :
    List PhysicalPlan × List String :=
  let p := (getGEAndLogicalJoin super).2
  if env.vars.IsMPPAllowed then
    if hasMPPJoinHints p.PreferJoinType then
      (env.tryToGetMppHashJoin super prop true ++ env.tryToGetMppHashJoin super prop false, [])
    else if env.preferMppBCJ super then (env.tryToGetMppHashJoin super prop true, [])
    else (env.tryToGetMppHashJoin super prop false, [])
  else
    let shuffle := decide (p.PreferJoinType &&& PreferShuffleJoin > 0)
    let bc := decide (p.PreferJoinType &&& PreferBCJoin > 0)
    let errMsg :=
      if bc then "The join can not push down to the MPP side, the broadcast_join() hint is invalid"
      else if shuffle then
        "The join can not push down to the MPP side, the shuffle_join() hint is invalid"
      else ""
    let hasMppHints := shuffle || bc
    ([], if hasMppHints then [errMsg] else [])

/-- The block `if !p.IsNAAJ() { ... }` of `exhaustPhysicalPlans4LogicalJoin`: either
it returns from the function (left: plans, flag, error, warnings appended) or it
falls through with the grown `joins` and the warnings appended (right). -/
def exhaustMergeAndIndexJoins (env : Env) (super : LogicalPlan) (prop : PhysicalProperty)
    (joins : List PhysicalPlan) :
    (List PhysicalPlan × Bool × Option String × List String) ⊕ (List PhysicalPlan × List String) :=
  let ge := (getGEAndLogicalJoin super).1
  let p := (getGEAndLogicalJoin super).2
  if !p.IsNAAJ then
    let st := getJoinChildStatsAndSchema ge p
    let mergeJoins := env.GetMergeJoin p prop p.schema p.stats st.1 st.2.1
    if decide (p.PreferJoinType &&& PreferMergeJoin > 0) && decide (mergeJoins.length > 0) then
      Sum.inl (mergeJoins, true, none, [])
    else
      let joins1 := joins ++ mergeJoins
      if env.vars.EnhanceIndexJoinBuildV2 then
        let r := tryToEnumerateIndexJoin env super prop
        Sum.inr (joins1 ++ r.1, r.2)
      else
        let r := tryToGetIndexJoin env p prop
        if r.2.1 then Sum.inl (r.1, true, none, r.2.2)
        else Sum.inr (joins1 ++ r.1, r.2.2)
  else Sum.inr (joins, [])

/-- The part of `exhaustPhysicalPlans4LogicalJoin` after the MPP statement, for a
property that is not a flash property. Returns the plans, the flag, the error (`none`
for nil) and the warnings appended. -/
def exhaustRootJoins (env : Env) (super : LogicalPlan) (prop : PhysicalProperty)
    (joins : List PhysicalPlan) : List PhysicalPlan × Bool × Option String × List String :=
  let p := (getGEAndLogicalJoin super).2
  match exhaustMergeAndIndexJoins env super prop joins with
  | Sum.inl ret => ret
  | Sum.inr (joins1, w1) =>
    let hj := getHashJoins env super prop
    let hashJoins := hj.1
    let forced := hj.2.1
    if forced && decide (hashJoins.length > 0) then (hashJoins, true, none, w1 ++ hj.2.2)
    else if p.PreferJoinType > 0 then (joins1 ++ hashJoins, false, none, w1 ++ hj.2.2)
    else (joins1 ++ hashJoins, true, none, w1 ++ hj.2.2)

/-- Transcribes `exhaustPhysicalPlans4LogicalJoin`: the plans, the flag, the error
(`none` for nil) and the warnings appended. The assignment `p.PreferJoinType = 0` is
visible through `super` in all later calls. -/
def exhaustPhysicalPlans4LogicalJoin (env : Env) (super0 : LogicalPlan)
    (prop : PhysicalProperty) : List PhysicalPlan × Bool × Option String × List String :=
  let p0 := (getGEAndLogicalJoin super0).2
  let supported := env.isJoinHintSupportedInMPPMode p0.PreferJoinType
  let hasHints := hasMPPJoinHints p0.PreferJoinType
  let w0 : List String :=
    if supported then []
    else if hasHints then [mppHintConflictWarning]
    else env.RaiseWarningWhenMPPEnforced mppBlockedWarning
  let super := if !supported && hasHints then super0.withPreferJoinType 0 else super0
  if !supported && !hasHints && prop.IsFlashProp then ([], false, none, w0)
  else if prop.MPPPartitionTp == MPPPartitionType.BroadcastType then ([], false, none, w0)
  else
    let mpp := exhaustMppJoins env super prop
    if prop.IsFlashProp then (mpp.1, true, none, w0 ++ mpp.2)
    else
      let r := exhaustRootJoins env super prop mpp.1
      (r.1, r.2.1, r.2.2.1, w0 ++ mpp.2 ++ r.2.2.2)

/-! ## Sample inputs -/

/-- Sample session: defaults, MPP off, the older index-join enumeration. -/
def sampleVars : SessionVars :=
  { UseHashJoinV2 := false, DisableHashJoin := false, EnhanceIndexJoinBuildV2 := false,
    EnableIndexMergeJoin := true, IsMPPAllowed := false, OptOrderingIdxSelRatio := 0 }

/-- Sample environment: no merge-join, MPP or index-join candidate is found. -/
def sampleEnv : Env :=
  { vars := sampleVars
    IsHashJoinV2Supported := true
    UseHashJoinV2ForNonGAJoin := false
    ScaleByExpectCnt := fun s _ => s
    Restore2JoinHint := fun name tables => name ++ "(" ++ ", ".intercalate tables ++ ")"
    RaiseWarningWhenMPPEnforced := fun _ => []
    isJoinHintSupportedInMPPMode := fun m =>
      decide (clearBits m (PreferHashJoin ||| PreferLeftAsHJBuild ||| PreferRightAsHJBuild
        ||| PreferLeftAsHJProbe ||| PreferRightAsHJProbe ||| PreferBCJoin
        ||| PreferShuffleJoin) = 0)
    GetMergeJoin := fun _ _ _ _ _ _ => []
    tryToGetMppHashJoin := fun _ _ _ => []
    preferMppBCJ := fun _ => false
    getIndexJoinByOuterIdx := fun _ _ _ => [] }

/-- Column `t1.a`. -/
def colT1A : Column := { UniqueID := 1, InOperand := false }
/-- Column `t2.a`. -/
def colT2A : Column := { UniqueID := 2, InOperand := false }

/-- Sample join `t1 JOIN t2 ON t1.a = t2.a` of the given type with the given hint
mask. -/
def sampleJoin (jt : JoinType) (prefer : Nat) : LogicalJoin :=
  { JoinType := jt
    PreferJoinType := prefer
    EqualConditions := [{ FuncName := ast.EQ, lhs := colT1A, rhs := colT2A }]
    NAEQConditions := []
    LeftConditions := []
    RightConditions := []
    OtherConditions := []
    DefaultValues := []
    HintInfo := none
    EqualCondOutCnt := 10
    stats := { RowCount := 10 }
    schema := { Columns := [colT1A, colT2A] }
    child0 := { Stats := { RowCount := 10 }, Schema := { Columns := [colT1A] } }
    child1 := { Stats := { RowCount := 5 }, Schema := { Columns := [colT2A] } } }

/-- Sample required property: root task, no order, no partition requirement. -/
def sampleProp : PhysicalProperty := {}

/-- A merge-join candidate for the sample join. -/
def sampleMergeJoin : PhysicalPlan :=
  PhysicalPlan.mergeJoin
    { InnerChildIdx := 1, JoinType := JoinType.InnerJoin, LeftConditions := [],
      RightConditions := [], OtherConditions := [], LeftJoinKeys := [colT1A],
      RightJoinKeys := [colT2A], IsNullEQ := [false], DefaultValues := [],
      stats := { RowCount := 10 }, childrenReqProps := [], schema := { Columns := [] } }

/-- Sample environment in which `GetMergeJoin` finds one merge join. -/
def sampleEnvMerge : Env :=
  { sampleEnv with GetMergeJoin := fun _ _ _ _ _ _ => [sampleMergeJoin] }

/-- The index joins `exhaustPhysicalPlans4LogicalJoin` adds for a join that is not
null-aware: those of `tryToEnumerateIndexJoin` under `EnhanceIndexJoinBuildV2`, those
of `tryToGetIndexJoin` otherwise. -/
def enumeratedIndexJoins (env : Env) (super : LogicalPlan) (prop : PhysicalProperty) :
    List PhysicalPlan :=
  if env.vars.EnhanceIndexJoinBuildV2 then (tryToEnumerateIndexJoin env super prop).1
  else (tryToGetIndexJoin env (getGEAndLogicalJoin super).2 prop).1

/-- The merge joins `exhaustPhysicalPlans4LogicalJoin` obtains from `GetMergeJoin`. -/
def enumeratedMergeJoins (env : Env) (super : LogicalPlan) (prop : PhysicalProperty) :
    List PhysicalPlan :=
  let ge := (getGEAndLogicalJoin super).1
  let p := (getGEAndLogicalJoin super).2
  let st := getJoinChildStatsAndSchema ge p
  env.GetMergeJoin p prop p.schema p.stats st.1 st.2.1

/-- Sample session with the index-join enumeration of `EnhanceIndexJoinBuildV2`. -/
def sampleEnvV2 : Env :=
  { sampleEnv with vars := { sampleVars with EnhanceIndexJoinBuildV2 := true } }

/-- An index join with inner child 1 (the right child) for the sample join. -/
def sampleIndexJoinInnerRight : PhysicalPlan :=
  PhysicalPlan.indexJoin
    { InnerChildIdx := 1, JoinType := JoinType.InnerJoin, LeftConditions := [],
      RightConditions := [], OtherConditions := [], OuterJoinKeys := [colT1A],
      InnerJoinKeys := [colT2A], IsNullEQ := [false], DefaultValues := [],
      stats := { RowCount := 10 }, childrenReqProps := [], schema := { Columns := [] },
      KeyOff2IdxOff := [0], Ranges := some [] }

/-- Sample environment in which `getIndexJoinByOuterIdx` finds one index join with the
right child as inner side when the left child is the outer side. -/
def sampleEnvIndexJoin : Env :=
  { sampleEnv with
    getIndexJoinByOuterIdx := fun _ _ outerIdx =>
      if outerIdx == 0 then [sampleIndexJoinInnerRight] else [] }

/-! ## Reading the completion of an index join -/

/-- The sub-sequence of `xs` at the positions `k` with `offs[k] >= 0`. -/
def keptAt {α : Type} (offs : List Int) (xs : List α) : List α :=
  offs.enum.filterMap (fun q => if 0 ≤ q.2 then xs[q.1]? else none)

/-- The sub-sequence of `xs` at the positions `k` with `offs[k] < 0`. -/
def demotedAt {α : Type} (offs : List Int) (xs : List α) : List α :=
  offs.enum.filterMap (fun q => if q.2 < 0 then xs[q.1]? else none)

/-- The residual conditions of an index join after the first loop of
`completePhysicalIndexJoin`: the original other conditions followed by the equal
conditions the index cannot use. -/
def residualConditions (physic : PhysicalIndexJoin) (offs : List Int) : List Expression :=
  physic.OtherConditions ++ (demotedAt offs physic.EqualConditions).map EqualCondition.toExpression

/-- No index of the first loop of `completePhysicalIndexJoin` is out of range. -/
def keyLoopInRange (physic : PhysicalIndexJoin) (offs : List Int) : Bool :=
  offs.enum.all (fun q =>
    if q.2 < 0 then decide (q.1 < physic.EqualConditions.length)
    else decide (q.1 < physic.InnerJoinKeys.length) && decide (q.1 < physic.OuterJoinKeys.length)
      && decide (q.1 < physic.IsNullEQ.length))

/-- The two columns of a residual condition that is an equality of two bare columns,
neither marked `InOperand`. -/
def extractableEQ : Expression → Option (Column × Column)
  | Expression.scalarFunction FuncName (Expression.column lhs :: Expression.column rhs :: _) =>
    if FuncName == ast.EQ && !(lhs.InOperand || rhs.InOperand) then some (lhs, rhs) else none
  | _ => none

/-- The hash-key pair (outer column, inner column) that a column equality yields:
none when its columns are not one of the outer and one of the inner schema. -/
def hashKeyPair (innerS outerS : Schema) (q : Column × Column) : Option (Column × Column) :=
  if outerS.Contains q.1 && innerS.Contains q.2 then some (q.1, q.2)
  else if innerS.Contains q.1 && outerS.Contains q.2 then some (q.2, q.1)
  else none

/-- The hash-key pairs the second loop of `completePhysicalIndexJoin` extracts from the
residual conditions, in the order it appends them (last condition first). -/
def extractedHashKeyPairs (innerS outerS : Schema) (conds : List Expression) :
    List (Column × Column) :=
  conds.reverse.filterMap (fun e => (extractableEQ e).bind (hashKeyPair innerS outerS))

/-- An `eq` function has the two arguments the second loop of
`completePhysicalIndexJoin` reads. -/
def hasEQArgs : Expression → Bool
  | Expression.scalarFunction FuncName args =>
    if FuncName == ast.EQ then decide (2 ≤ args.length) else true
  | _ => true

/-- Sample index join as the static enumeration leaves it, for
`t1 JOIN t2 ON t1.a = t2.a AND t1.b = t2.b` with inner child `t2`; the other condition
is `t1.c = t2.c`. -/
def sampleStaticIndexJoin : PhysicalIndexJoin :=
  { InnerChildIdx := 1, JoinType := JoinType.InnerJoin, LeftConditions := [],
    RightConditions := [],
    OtherConditions :=
      [Expression.scalarFunction ast.EQ
        [Expression.column { UniqueID := 5, InOperand := false },
         Expression.column { UniqueID := 6, InOperand := false }]],
    OuterJoinKeys := [colT1A, { UniqueID := 3, InOperand := false }],
    InnerJoinKeys := [colT2A, { UniqueID := 4, InOperand := false }],
    IsNullEQ := [false, false], DefaultValues := [],
    stats := { RowCount := 10 }, childrenReqProps := [], schema := { Columns := [] },
    EqualConditions :=
      [{ FuncName := ast.EQ, lhs := colT1A, rhs := colT2A },
       { FuncName := ast.EQ, lhs := { UniqueID := 3, InOperand := false },
         rhs := { UniqueID := 4, InOperand := false } }] }

/-- Sample index-join information of an inner side that uses an index on `t2.a` only:
the second join key is not used, and no range was built. -/
def sampleIndexJoinInfo : IndexJoinInfo :=
  { KeyOff2IdxOff := [0, -1], Ranges := none, IdxColLens := [], CompareFilters := none }

/-- Sample root task that carries the sample index-join information. -/
def sampleRootTask : RootTask :=
  { IndexJoinInfo := some sampleIndexJoinInfo }

/-- Schema of the inner child `t2` of the sample index join. -/
def sampleInnerSchema : Schema :=
  { Columns := [colT2A, { UniqueID := 4, InOperand := false },
      { UniqueID := 6, InOperand := false }] }

/-- Schema of the outer child `t1` of the sample index join. -/
def sampleOuterSchema : Schema :=
  { Columns := [colT1A, { UniqueID := 3, InOperand := false },
      { UniqueID := 5, InOperand := false }] }

/-- The index join `completePhysicalIndexJoin` leaves, written without loops: the
conditions and keys are read off the index-join information `info`. -/
def completedIndexJoin (physic : PhysicalIndexJoin) (info : IndexJoinInfo)
    (innerS outerS : Schema) (extractOtherEQ : Bool) : PhysicalIndexJoin :=
  let offs := info.KeyOff2IdxOff
  let residual := residualConditions physic offs
  let pairs := if extractOtherEQ then extractedHashKeyPairs innerS outerS residual else []
  { physic with
    IsNullEQ := keptAt offs physic.IsNullEQ
    InnerJoinKeys := keptAt offs physic.InnerJoinKeys
    OuterJoinKeys := keptAt offs physic.OuterJoinKeys
    OtherConditions :=
      if extractOtherEQ then residual.filter (fun e => (extractableEQ e).isNone) else residual
    KeyOff2IdxOff := offs.filter (fun o => decide (0 ≤ o))
    Ranges := some (info.Ranges.getD [])
    IdxColLens := info.IdxColLens
    CompareFilters := info.CompareFilters
    OuterHashKeys := keptAt offs physic.OuterJoinKeys ++ pairs.map Prod.fst
    InnerHashKeys := keptAt offs physic.InnerJoinKeys ++ pairs.map Prod.snd
    EqualConditions := [] }

/-- The condition under which `completePhysicalIndexJoin` runs without fault on a task
that carries `info`. -/
def completionInRange (physic : PhysicalIndexJoin) (info : IndexJoinInfo)
    (extractOtherEQ : Bool) : Bool :=
  keyLoopInRange physic info.KeyOff2IdxOff
    && (!extractOtherEQ || (residualConditions physic info.KeyOff2IdxOff).all hasEQArgs)

/-! ## MPP hash joins -/

/-- Modelled from the spec: `Column.EqualColumn` (package expression is not among the
sources): two columns are the same column when their identifiers agree. -/
def Column.EqualColumn (col other : Column) : Bool :=
  col.UniqueID == other.UniqueID

/-- Modelled from the spec: `MPPPartitionColumn.Equal` (package property is not among
the sources): the columns agree, and so do the collations when the collation of the
receiver is in force (a negative identifier). -/
def MPPPartitionColumn.Equal (partitionCol other : MPPPartitionColumn) : Bool :=
  if partitionCol.CollateID < 0 && partitionCol.CollateID != other.CollateID then false
  else partitionCol.Col.EqualColumn other.Col

/-- Modelled from the spec: inner loop of `PhysicalProperty.IsSubsetOf`: the offset of
the first key equal to the partition column, counted from `i`. -/
def firstMatchingKey (partCol : MPPPartitionColumn) : List MPPPartitionColumn → Nat → Option Nat
  | [], _ => none
  | key :: rest, i => if partCol.Equal key then some i else firstMatchingKey partCol rest (i + 1)

/-- Modelled from the spec: outer loop of `PhysicalProperty.IsSubsetOf`; `none` when a
partition column finds no key. -/
def isSubsetOfLoop (keys : List MPPPartitionColumn) : List MPPPartitionColumn → Option (List Nat)
  | [] => some []
  | partCol :: rest =>
    match firstMatchingKey partCol keys 0 with
    | none => none
    | some i => (isSubsetOfLoop keys rest).map (fun found => i :: found)

/-- Modelled from the spec: `PhysicalProperty.IsSubsetOf` (package property is not
among the sources): for each partition column of the property the offset of the first
key equal to it, or nil when there are more partition columns than keys or one of them
finds no key. -/
def PhysicalProperty.IsSubsetOf (p : PhysicalProperty) (keys : List MPPPartitionColumn) :
    List Nat :=
  if p.MPPPartitionCols.length > keys.length then []
  else (isSubsetOfLoop keys p.MPPPartitionCols).getD []

/-- Modelled from the spec: `JoinType.IsSemiJoin` (package logicalop is not among the
sources): the four semi-join variants. -/
def JoinType.IsSemiJoin : JoinType → Bool
  | JoinType.SemiJoin | JoinType.AntiSemiJoin | JoinType.LeftOuterSemiJoin
  | JoinType.AntiLeftOuterSemiJoin => true
  | _ => false

/-- Transcribes `canExprsInJoinPushdown`. -/
def canExprsInJoinPushdown (env : Env) (p : LogicalJoin) (storeType : StoreType) : Bool :=
  if p.EqualConditions.any (fun eqCondition => eqCondition.FuncName == ast.NullEQ) then false
  else if !env.CanExprsPushDown (p.EqualConditions.map EqualCondition.toExpression) storeType then
    false
  else if !env.CanExprsPushDown p.LeftConditions storeType then false
  else if !env.CanExprsPushDown p.RightConditions storeType then false
  else if !env.CanExprsPushDown p.OtherConditions storeType then false
  else true

/-- Transcribes `choosePartitionKeys`; `none` is the index fault of `keys[id]`. -/
def choosePartitionKeys (keys : List MPPPartitionColumn) :
    List Nat → Option (List MPPPartitionColumn)
  | [] => some []
  | id :: rest =>
    match keys[id]?, choosePartitionKeys keys rest with
    | some key, some newKeys => some (key :: newKeys)
    | _, _ => none

/-- Warning text of `tryToGetMppHashJoin` for a blacklisted join type. -/
def mppJoinTypeBlacklistedWarning (jt : JoinType) : String :=
  "MPP mode may be blocked because join type " ++ "\x60" ++ jt.String ++ "\x60" ++
    " is blocked by blacklist, check " ++ "\x60" ++ "table mysql.expr_pushdown_blacklist;" ++
    "\x60" ++ " for more information."

/-- Warning text of `tryToGetMppHashJoin` for an unsupported join type. -/
def mppJoinTypeUnsupportedWarning (jt : JoinType) : String :=
  "MPP mode may be blocked because join type " ++ "\x60" ++ jt.String ++ "\x60" ++
    " is not supported now."

/-- Warning text of `tryToGetMppHashJoin` for a cartesian product under shuffle. -/
def mppCartesianShuffleWarning : String :=
  "MPP mode may be blocked because " ++ "\x60" ++ "Cartesian Product" ++ "\x60" ++
    " is only supported by broadcast join, check value and documents of variables " ++
    "\x60" ++ "tidb_broadcast_join_threshold_size" ++ "\x60" ++ " and " ++
    "\x60" ++ "tidb_broadcast_join_threshold_count" ++ "\x60" ++ "."

/-- Warning text of `tryToGetMppHashJoin` for a cartesian product that the variable
tidb_opt_broadcast_cartesian_join forbids. -/
def mppCartesianDisabledWarning : String :=
  "MPP mode may be blocked because " ++ "\x60" ++ "Cartesian Product" ++ "\x60" ++
    " is only supported by broadcast join, check value and documents of variable " ++
    "\x60" ++ "tidb_opt_broadcast_cartesian_join" ++ "\x60" ++ "."

/-- Warning text of `tryToGetMppHashJoin` for left conditions on a join that is not a
left join. -/
def mppLeftConditionsWarning : String :=
  "MPP mode may be blocked because there is a join that is not " ++ "\x60" ++ "left join" ++
    "\x60" ++ " but has left conditions, which is not supported by mpp now, see " ++
    "github.com/pingcap/tidb/issues/26090 for more information."

/-- Warning text of `tryToGetMppHashJoin` for right conditions on a join that is not a
right join. -/
def mppRightConditionsWarning : String :=
  "MPP mode may be blocked because there is a join that is not " ++ "\x60" ++ "right join" ++
    "\x60" ++ " but has right conditions, which is not supported by mpp now."

/-- Warning text of `tryToGetMppHashJoin` for conflicting build/probe hints. -/
def mppHintsConflictWarning : String :=
  "Some HASH_JOIN_BUILD and HASH_JOIN_PROBE hints are conflicts, please check the hints"

/-- Warning text of `tryToGetMppHashJoin` for build/probe hints against a fixed build
side. -/
def mppHintsNotUtilizedWarning : String :=
  "Some HASH_JOIN_BUILD and HASH_JOIN_PROBE hints cannot be utilized for MPP joins, " ++
    "please check the hints"

/-- The build-side choice of `tryToGetMppHashJoin`, from the force flags to the end of
the hint handling (the failpoint is not injected): `preferredBuildIndex` and the hint
warnings. -/
def mppPreferredBuildIndex (env : Env) (ge : Option GroupExpression) (p : LogicalJoin)
    (useBCJ : Bool) : Nat × List String :=
  let forceLeftToBuild0 := decide (p.PreferJoinType &&& PreferLeftAsHJBuild > 0)
    || decide (p.PreferJoinType &&& PreferRightAsHJProbe > 0)
  let forceRightToBuild0 := decide (p.PreferJoinType &&& PreferRightAsHJBuild > 0)
    || decide (p.PreferJoinType &&& PreferLeftAsHJProbe > 0)
  let conflict := forceLeftToBuild0 && forceRightToBuild0
  let w1 := if conflict then [mppHintsConflictWarning] else []
  let forceLeftToBuild := if conflict then false else forceLeftToBuild0
  let forceRightToBuild := if conflict then false else forceRightToBuild0
  let st := getJoinChildStatsAndSchema ge p
  let stats0 := st.1
  let stats1 := st.2.1
  -- (preferredBuildIndex, fixedBuildSide) after the inner / semi branch
  let s1 : Nat × Bool :=
    if p.JoinType = JoinType.InnerJoin then
      if env.Count stats0 > env.Count stats1 then (1, false) else (0, false)
    else if p.JoinType.IsSemiJoin then
      if !useBCJ && !p.IsNAAJ && decide (p.EqualConditions.length > 0)
          && (decide (p.JoinType = JoinType.SemiJoin)
            || decide (p.JoinType = JoinType.AntiSemiJoin)) then
        if !env.vars.MPPOuterJoinFixedBuildSide && decide (env.Count stats1 > env.Count stats0)
        then (0, false) else (1, false)
      else (1, true)
    else (0, false)
  -- after the outer-join branch
  let s2 : Nat × Bool :=
    if p.JoinType = JoinType.LeftOuterJoin ∨ p.JoinType = JoinType.RightOuterJoin then
      if useBCJ || p.IsNAAJ || decide (p.EqualConditions.length = 0)
          || env.vars.MPPOuterJoinFixedBuildSide then
        (if p.JoinType = JoinType.LeftOuterJoin then 1 else s1.1,
         if !env.vars.MPPOuterJoinFixedBuildSide then true else s1.2)
      else if env.Count stats0 > env.Count stats1 then (1, s1.2)
      else s1
    else s1
  let preferredBuildIndex := s2.1
  let fixedBuildSide := s2.2
  if forceLeftToBuild || forceRightToBuild then
    let isMatch := (forceLeftToBuild && preferredBuildIndex == 0)
      || (forceRightToBuild && preferredBuildIndex == 1)
    if !isMatch then
      if fixedBuildSide then (preferredBuildIndex, w1 ++ [mppHintsNotUtilizedWarning])
      else (1 - preferredBuildIndex, w1)
    else (preferredBuildIndex, w1)
  else (preferredBuildIndex, w1)

/-- The properties `tryToGetMppHashJoin` requires of the two children: the outer
`none` is an index fault, the inner `none` is the `return nil` of an unmatched hash
partition. -/
def mppChildrenProps (env : Env) (p : LogicalJoin) (prop : PhysicalProperty) (useBCJ : Bool)
    (stats0 stats1 : StatsInfo) (preferredBuildIndex : Nat) :
    Option (Option (List PhysicalProperty)) :=
  if useBCJ then
    let buildProp : PhysicalProperty :=
      { TaskTp := TaskType.MppTaskType, ExpectedCnt := MaxFloat64,
        MPPPartitionTp := MPPPartitionType.BroadcastType, CanAddEnforcer := true,
        CTEProducerStatus := prop.CTEProducerStatus }
    let expCnt : ℚ :=
      if prop.ExpectedCnt < p.stats.RowCount then
        let expCntScale := prop.ExpectedCnt / p.stats.RowCount
        let targetStats := if 1 - preferredBuildIndex == 0 then stats0 else stats1
        targetStats.RowCount * expCntScale
      else MaxFloat64
    let place := fun (probeProp : PhysicalProperty) =>
      if preferredBuildIndex == 0 then [buildProp, probeProp] else [probeProp, buildProp]
    if prop.MPPPartitionTp = MPPPartitionType.HashType then
      let lPartitionKeys := (env.JoinPotentialPartitionKeys p).1
      let rPartitionKeys := (env.JoinPotentialPartitionKeys p).2
      let hashKeys := if preferredBuildIndex == 1 then lPartitionKeys else rPartitionKeys
      let found := prop.IsSubsetOf hashKeys
      if found.length == 0 then some none
      else
        some (some (place
          { TaskTp := TaskType.MppTaskType, ExpectedCnt := expCnt,
            MPPPartitionTp := MPPPartitionType.HashType,
            MPPPartitionCols := prop.MPPPartitionCols,
            CTEProducerStatus := prop.CTEProducerStatus }))
    else
      some (some (place
        { TaskTp := TaskType.MppTaskType, ExpectedCnt := expCnt,
          MPPPartitionTp := MPPPartitionType.AnyType,
          CTEProducerStatus := prop.CTEProducerStatus }))
  else
    let lPartitionKeys := (env.JoinPotentialPartitionKeys p).1
    let rPartitionKeys := (env.JoinPotentialPartitionKeys p).2
    let shuffled := fun (lKeys rKeys : List MPPPartitionColumn) =>
      ([{ TaskTp := TaskType.MppTaskType, ExpectedCnt := MaxFloat64,
          MPPPartitionTp := MPPPartitionType.HashType, MPPPartitionCols := lKeys,
          CanAddEnforcer := true, CTEProducerStatus := prop.CTEProducerStatus },
        { TaskTp := TaskType.MppTaskType, ExpectedCnt := MaxFloat64,
          MPPPartitionTp := MPPPartitionType.HashType, MPPPartitionCols := rKeys,
          CanAddEnforcer := true, CTEProducerStatus := prop.CTEProducerStatus }] :
        List PhysicalProperty)
    if prop.MPPPartitionTp = MPPPartitionType.HashType then
      let found :=
        match p.JoinType with
        | JoinType.InnerJoin =>
          if (prop.IsSubsetOf lPartitionKeys).length == 0 then prop.IsSubsetOf rPartitionKeys
          else prop.IsSubsetOf lPartitionKeys
        | JoinType.RightOuterJoin => prop.IsSubsetOf rPartitionKeys
        | _ => prop.IsSubsetOf lPartitionKeys
      if found.length == 0 then some none
      else
        match choosePartitionKeys lPartitionKeys found, choosePartitionKeys rPartitionKeys found with
        | some lKeys, some rKeys => some (some (shuffled lKeys rKeys))
        | _, _ => none
    else some (some (shuffled lPartitionKeys rPartitionKeys))

/-- The tail of `tryToGetMppHashJoin`, after its admission checks: the build side, the
children's properties and the hash join itself. `none` is an index fault. -/
def buildMppHashJoin (env : Env) (ge : Option GroupExpression) (p : LogicalJoin)
    (prop : PhysicalProperty) (useBCJ : Bool) : Option (List PhysicalPlan × List String) :=
  let lkeys := p.GetJoinKeys.1
  let rkeys := p.GetJoinKeys.2.1
  let lNAkeys := p.GetNAJoinKeys.1
  let rNAKeys := p.GetNAJoinKeys.2
  let build := mppPreferredBuildIndex env ge p useBCJ
  let preferredBuildIndex := build.1
  let warnings := build.2
  let st := getJoinChildStatsAndSchema ge p
  match mppChildrenProps env p prop useBCJ st.1 st.2.1 preferredBuildIndex with
  | none => none
  | some none => some ([], warnings)
  | some (some childrenProps) =>
    let join : PhysicalHashJoin :=
      { InnerChildIdx := preferredBuildIndex
        JoinType := p.JoinType
        LeftConditions := p.LeftConditions
        RightConditions := p.RightConditions
        OtherConditions := p.OtherConditions
        DefaultValues := p.DefaultValues
        LeftJoinKeys := lkeys
        RightJoinKeys := rkeys
        LeftNAJoinKeys := lNAkeys
        RightNAJoinKeys := rNAKeys
        IsNullEQ := []
        stats := p.stats
        childrenReqProps := childrenProps
        schema := p.schema
        EqualConditions := p.EqualConditions
        NAEqualConditions := p.NAEQConditions
        UseOuterToBuild := false
        storeTp := StoreType.TiFlash
        mppShuffleJoin := !useBCJ }
    some ([PhysicalPlan.hashJoin join], warnings)

/-- Transcribes `tryToGetMppHashJoin` (the failpoint is not injected): the candidates
and the warnings it raises; `none` is an index fault. The join enumerator above takes
its MPP candidates as the field `tryToGetMppHashJoin` of `Env`, so its theorems hold for
this function as for any other. -/
def tryToGetMppHashJoin (env : Env) (super : LogicalPlan) (prop : PhysicalProperty)
    (useBCJ : Bool) : Option (List PhysicalPlan × List String) :=
  let ge := (getGEAndLogicalJoin super).1
  let p := (getGEAndLogicalJoin super).2
  if !prop.IsSortItemEmpty then some ([], [])
  else if prop.TaskTp ≠ TaskType.RootTaskType ∧ prop.TaskTp ≠ TaskType.MppTaskType then
    some ([], [])
  else if !env.IsPushDownEnabled p.JoinType.String StoreType.TiFlash then
    some ([], env.RaiseWarningWhenMPPEnforced (mppJoinTypeBlacklistedWarning p.JoinType))
  else if p.JoinType ≠ JoinType.InnerJoin ∧ p.JoinType ≠ JoinType.LeftOuterJoin
      ∧ p.JoinType ≠ JoinType.RightOuterJoin ∧ p.JoinType ≠ JoinType.SemiJoin
      ∧ p.JoinType ≠ JoinType.AntiSemiJoin ∧ p.JoinType ≠ JoinType.LeftOuterSemiJoin
      ∧ p.JoinType ≠ JoinType.AntiLeftOuterSemiJoin then
    some ([], env.RaiseWarningWhenMPPEnforced (mppJoinTypeUnsupportedWarning p.JoinType))
  else if p.EqualConditions.length = 0 ∧ useBCJ = false then
    some ([], env.RaiseWarningWhenMPPEnforced mppCartesianShuffleWarning)
  else if p.EqualConditions.length = 0 ∧ env.vars.AllowCartesianBCJ = 0 then
    some ([], env.RaiseWarningWhenMPPEnforced mppCartesianDisabledWarning)
  else if p.LeftConditions.length ≠ 0 ∧ p.JoinType ≠ JoinType.LeftOuterJoin then
    some ([], env.RaiseWarningWhenMPPEnforced mppLeftConditionsWarning)
  else if p.RightConditions.length ≠ 0 ∧ p.JoinType ≠ JoinType.RightOuterJoin then
    some ([], env.RaiseWarningWhenMPPEnforced mppRightConditionsWarning)
  else if prop.MPPPartitionTp = MPPPartitionType.BroadcastType then some ([], [])
  else if !canExprsInJoinPushdown env p StoreType.TiFlash then some ([], [])
  else buildMppHashJoin env ge p prop useBCJ

/-- Result of the MPP enumeration for the sample inner join under broadcast. -/
def sampleMppInnerResult : List PhysicalPlan × List String :=
  (tryToGetMppHashJoin sampleEnv (LogicalPlan.join (sampleJoin JoinType.InnerJoin 0))
    sampleProp true).getD ([], [])

/-- Result of the MPP enumeration for the sample left-outer-semi join hinted to build
the left child, under broadcast. -/
def sampleMppSemiResult : List PhysicalPlan × List String :=
  (tryToGetMppHashJoin sampleEnv
    (LogicalPlan.join (sampleJoin JoinType.LeftOuterSemiJoin PreferLeftAsHJBuild))
    sampleProp true).getD ([], [])

/-- Sample cross join: the sample inner join without its equal condition. -/
def sampleCrossJoin : LogicalJoin :=
  { sampleJoin JoinType.InnerJoin 0 with EqualConditions := [] }

/-! ## Broadcast or shuffle exchange -/

/-- Transcribes `calcBroadcastExchangeSize`; the plan is given by its statistics and
schema, and `float64` arithmetic is exact. -/
def calcBroadcastExchangeSize (env : Env) (p : LogicalProperty) (mppStoreCnt : Int) :
    ℚ × ℚ × Bool :=
  let s := p.Stats
  let row : ℚ := (env.Count s : ℚ) * ((mppStoreCnt - 1 : Int) : ℚ)
  match s.HistColl with
  | none => (row, 0, false)
  | some _ =>
    let avg := env.GetAvgRowSize s p.Schema
    (row, avg * row, true)

/-- Transcribes `calcBroadcastExchangeSizeByChild`. -/
def calcBroadcastExchangeSizeByChild (env : Env) (p1 p2 : LogicalProperty) (mppStoreCnt : Int) :
    ℚ × ℚ × Bool :=
  let r1 := calcBroadcastExchangeSize env p1 mppStoreCnt
  let r2 := calcBroadcastExchangeSize env p2 mppStoreCnt
  if r1.2.2 && r2.2.2 then (min r1.1 r2.1, min r1.2.1 r2.2.1, true)
  else (min r1.1 r2.1, 0, false)

/-- Transcribes `calcHashExchangeSize`. -/
def calcHashExchangeSize (env : Env) (p : LogicalProperty) (mppStoreCnt : Int) :
    ℚ × ℚ × Bool :=
  let s := p.Stats
  let row : ℚ := (env.Count s : ℚ) * ((mppStoreCnt - 1 : Int) : ℚ) / (mppStoreCnt : ℚ)
  match s.HistColl with
  | none => (row, 0, false)
  | some _ =>
    let avg := env.GetAvgRowSize s p.Schema
    (row, avg * row, true)

/-- Transcribes `calcHashExchangeSizeByChild`. -/
def calcHashExchangeSizeByChild (env : Env) (p1 p2 : LogicalProperty) (mppStoreCnt : Int) :
    ℚ × ℚ × Bool :=
  let r1 := calcHashExchangeSize env p1 mppStoreCnt
  let r2 := calcHashExchangeSize env p2 mppStoreCnt
  if r1.2.2 && r2.2.2 then (r1.1 + r2.1, r1.2.1 + r2.2.1, true)
  else (r1.1 + r2.1, 0, false)

/-- Transcribes `isJoinFitMPPBCJ`. -/
def isJoinFitMPPBCJ (env : Env) (p : LogicalJoin) (mppStoreCnt : Int) : Bool :=
  let bc := calcBroadcastExchangeSizeByChild env p.child0 p.child1 mppStoreCnt
  let hash := calcHashExchangeSizeByChild env p.child0 p.child1 mppStoreCnt
  if bc.2.2 && hash.2.2 then decide (bc.2.1 * (mppStoreCnt : ℚ) ≤ hash.2.1)
  else decide (bc.1 * (mppStoreCnt : ℚ) ≤ hash.1)

/-- The sample inner join with the given row counts of its children, which carry no
histograms. -/
def sampleBCJJoin (r0 r1 : ℚ) : LogicalJoin :=
  { sampleJoin JoinType.InnerJoin 0 with
    child0 := { Stats := { RowCount := r0 }, Schema := { Columns := [colT1A] } }
    child1 := { Stats := { RowCount := r1 }, Schema := { Columns := [colT2A] } } }

/-! ## MPP hash aggregation -/

/-- Modelled from the spec: hint bit of package hint (not among the sources), a bit
of the `PreferAggType` mask. -/
def PreferMPP1PhaseAgg : Nat := 1 <<< 18
/-- Modelled from the spec: hint bit of package hint (not among the sources), a bit
of the `PreferAggType` mask. -/
def PreferMPP2PhaseAgg : Nat := 1 <<< 19

/-- Modelled from the spec: `LogicalAggregation.GetPotentialPartitionKeys` (package
logicalop is not among the sources): the group-by items that are bare columns, each
with the collation identifier of its type. -/
def LogicalAggregation.GetPotentialPartitionKeys (env : Env) (la : LogicalAggregation) :
    List MPPPartitionColumn :=
  la.GroupByItems.filterMap (fun item =>
    match item with
    | Expression.column col =>
      some { Col := col, CollateID := env.GetCollateIDByNameForPartition col }
    | _ => none)

/-- Modelled from the spec: `LogicalAggregation.HasDistinct` (package logicalop is not
among the sources): some aggregate function is distinct. -/
def LogicalAggregation.HasDistinct (la : LogicalAggregation) : Bool :=
  la.AggFuncs.any (fun aggFunc => aggFunc.HasDistinct)

/-- Modelled from the spec: `LogicalAggregation.HasOrderBy` (package logicalop is not
among the sources): some aggregate function has order-by items. -/
def LogicalAggregation.HasOrderBy (la : LogicalAggregation) : Bool :=
  la.AggFuncs.any (fun aggFunc => decide (aggFunc.OrderByItems.length > 0))

/-- Modelled from the spec: `NewPhysicalHashAgg` (file physical_plans.go of package
core is not among the sources): the hash aggregation takes copies of the aggregate
functions and group-by items of the logical aggregation, and records the statistics
and the property required of its child. -/
def NewPhysicalHashAgg (la : LogicalAggregation) (newStats : StatsInfo)
    (prop : PhysicalProperty) : PhysicalHashAgg :=
  { AggFuncs := la.AggFuncs
    GroupByItems := la.GroupByItems
    stats := newStats
    childrenReqProps := [prop]
    schema := { Columns := [] } }

/-- Modelled from the spec: `aggregation.NewAggFuncDesc` (package aggregation is not
among the sources): a fresh descriptor, in complete mode, of the named function over
the arguments. -/
def NewAggFuncDesc (name : String) (args : List Expression) (hasDistinct : Bool) : AggFuncDesc :=
  { Name := name, Args := args, HasDistinct := hasDistinct }

/-- Modelled from the spec: `AggFuncDesc.TypeInfer4FinalCount` (package aggregation is
not among the sources): the descriptor takes the return type of the count it
replaces. -/
def AggFuncDesc.TypeInfer4FinalCount (a : AggFuncDesc) (finalCountRetType : Nat) : AggFuncDesc :=
  { a with RetTp := finalCountRetType }

/-- Closure `finalAggAdjust` of `tryToGetMppHashAggs`: every final-mode count of the
slice is replaced by a sum over the same arguments. -/
def finalAggAdjust (aggFuncs : List AggFuncDesc) : List AggFuncDesc :=
  aggFuncs.map (fun agg =>
    if agg.Mode = AggFunctionMode.FinalMode ∧ agg.Name = ast.AggFuncCount then
      (NewAggFuncDesc ast.AggFuncSum agg.Args false).TypeInfer4FinalCount agg.RetTp
    else agg)

/-- Closure `validMppAgg` of `tryToGetMppHashAggs`; `none` is the index fault of
`AggFuncs[0]` on an aggregation without aggregate functions. -/
def validMppAgg (mppAgg : PhysicalHashAgg) : Option Bool :=
  match mppAgg.AggFuncs with
  | [] => none
  | first :: rest =>
    let isFinalAgg :=
      if first.Mode ≠ AggFunctionMode.FinalMode ∧ first.Mode ≠ AggFunctionMode.CompleteMode
      then false else true
    some (rest.all (fun one =>
      let otherIsFinalAgg := decide (one.Mode = AggFunctionMode.FinalMode)
        || decide (one.Mode = AggFunctionMode.CompleteMode)
      isFinalAgg == otherIsFinalAgg))

/-- The flag `hasFinalAgg` of `tryToGetMppHashAggs`: the first aggregate function is in
final mode. -/
def hasFinalAgg (la : LogicalAggregation) : Bool :=
  match la.AggFuncs with
  | [] => false
  | first :: _ => decide (first.Mode = AggFunctionMode.FinalMode)

/-- The partition columns `tryToGetMppHashAggs` settles on for a grouped aggregation.
The outer `none` is an index fault, the inner `none` the `return nil` of a partition
requirement that cannot be met. -/
def mppAggPartitionCols (env : Env) (la : LogicalAggregation) (prop : PhysicalProperty) :
    Option (Option (List MPPPartitionColumn)) :=
  let partitionCols := la.GetPotentialPartitionKeys env
  if prop.MPPPartitionTp = MPPPartitionType.HashType then
    let found := prop.IsSubsetOf partitionCols
    if found.length = 0 then some none
    else (choosePartitionKeys partitionCols found).map some
  else if prop.MPPPartitionTp ≠ MPPPartitionType.AnyType then some none
  else some (some partitionCols)

/-- The 1-phase candidate of `tryToGetMppHashAggs`, before the validity check. -/
def mpp1PhaseAgg (env : Env) (la : LogicalAggregation) (prop : PhysicalProperty)
    (partitionCols : List MPPPartitionColumn) : PhysicalHashAgg :=
  let childProp : PhysicalProperty :=
    { TaskTp := TaskType.MppTaskType, ExpectedCnt := MaxFloat64,
      MPPPartitionTp := MPPPartitionType.HashType, MPPPartitionCols := partitionCols,
      CanAddEnforcer := true, CTEProducerStatus := prop.CTEProducerStatus,
      NoCopPushDown := prop.NoCopPushDown }
  let agg := NewPhysicalHashAgg la (env.ScaleByExpectCnt la.stats prop.ExpectedCnt) childProp
  { agg with
    schema := la.schema
    MppRunMode := AggMppRunMode.Mpp1Phase
    AggFuncs := finalAggAdjust agg.AggFuncs }

/-- The 2-phase candidate of `tryToGetMppHashAggs`, before the validity check. -/
def mpp2PhaseAgg (env : Env) (la : LogicalAggregation) (prop : PhysicalProperty)
    (partitionCols : List MPPPartitionColumn) : PhysicalHashAgg :=
  let childProp : PhysicalProperty :=
    { TaskTp := TaskType.MppTaskType, ExpectedCnt := MaxFloat64,
      MPPPartitionTp := MPPPartitionType.AnyType,
      CTEProducerStatus := prop.CTEProducerStatus, NoCopPushDown := prop.NoCopPushDown }
  let agg := NewPhysicalHashAgg la (env.ScaleByExpectCnt la.stats prop.ExpectedCnt) childProp
  { agg with
    schema := la.schema
    MppRunMode := AggMppRunMode.Mpp2Phase
    MppPartitionCols := partitionCols }

/-- The candidate of `tryToGetMppHashAggs` whose final aggregation runs on TiDB, and,
with the scalar run mode, its candidate for an aggregation without group-by items. -/
def mppRootAgg (env : Env) (la : LogicalAggregation) (prop : PhysicalProperty)
    (mode : AggMppRunMode) : PhysicalHashAgg :=
  let childProp : PhysicalProperty :=
    { TaskTp := TaskType.MppTaskType, ExpectedCnt := MaxFloat64,
      CTEProducerStatus := prop.CTEProducerStatus, NoCopPushDown := prop.NoCopPushDown }
  let agg := NewPhysicalHashAgg la (env.ScaleByExpectCnt la.stats prop.ExpectedCnt) childProp
  { agg with schema := la.schema, MppRunMode := mode }

/-- The candidates of `tryToGetMppHashAggs` for a grouped aggregation once the
partition columns are settled. `Sum.inl` is a return that leaves the function at once,
`Sum.inr` the list handed to the hint handling; `none` is an index fault. -/
def mppGroupedAggs (env : Env) (la : LogicalAggregation) (prop : PhysicalProperty)
    (partitionCols : List MPPPartitionColumn) :
    Option (Sum (List PhysicalPlan) (List PhysicalPlan)) :=
  let onePhase : Option (List PhysicalPlan) :=
    if partitionCols.length ≠ 0 ∧ env.vars.EnableSkewDistinctAgg = false then
      let agg := mpp1PhaseAgg env la prop partitionCols
      (validMppAgg agg).map (fun ok => if ok then [PhysicalPlan.hashAgg agg] else [])
    else some []
  match onePhase with
  | none => none
  | some hashAggs1 =>
    if hasFinalAgg la then some (Sum.inl hashAggs1)
    else
      let agg := mpp2PhaseAgg env la prop partitionCols
      match validMppAgg agg with
      | none => none
      | some ok =>
        let hashAggs2 := if ok then hashAggs1 ++ [PhysicalPlan.hashAgg agg] else hashAggs1
        if prop.TaskTp = TaskType.RootTaskType then
          some (Sum.inr (hashAggs2 ++
            [PhysicalPlan.hashAgg (mppRootAgg env la prop AggMppRunMode.MppTiDB)]))
        else some (Sum.inr hashAggs2)

/-- The candidates of `tryToGetMppHashAggs` before the hint handling. `Sum.inl` is a
return that leaves the function at once, `Sum.inr` the list handed to the hint
handling; `none` is an index fault. -/
def mppHashAggCandidates (env : Env) (la : LogicalAggregation) (prop : PhysicalProperty) :
    Option (Sum (List PhysicalPlan) (List PhysicalPlan)) :=
  if la.GroupByItems.length > 0 then
    match mppAggPartitionCols env la prop with
    | none => none
    | some none => some (Sum.inl [])
    | some (some partitionCols) => mppGroupedAggs env la prop partitionCols
  else if !hasFinalAgg la then
    if la.HasDistinct || la.HasOrderBy then
      some (Sum.inr [PhysicalPlan.hashAgg (mppRootAgg env la prop AggMppRunMode.MppScalar)])
    else
      some (Sum.inr [PhysicalPlan.hashAgg (mppRootAgg env la prop AggMppRunMode.MppTiDB)])
  else some (Sum.inr [])

/-- The test of the hint handling of `tryToGetMppHashAggs`: the plan is a hash
aggregation of the preferred run mode. -/
def isHashAggOfMode (preferMode : AggMppRunMode) : PhysicalPlan → Bool
  | PhysicalPlan.hashAgg hg => decide (hg.MppRunMode = preferMode)
  | _ => false

/-- The hint handling at the end of `tryToGetMppHashAggs`: under MPP_1PHASE_AGG, or
else under MPP_2PHASE_AGG, only the hash aggregations of the preferred run mode are
kept. -/
def handleMppAggHints (la : LogicalAggregation) (hashAggs : List PhysicalPlan) :
    List PhysicalPlan :=
  if la.PreferAggType &&& PreferMPP1PhaseAgg > 0 then
    hashAggs.filter (isHashAggOfMode AggMppRunMode.Mpp1Phase)
  else if la.PreferAggType &&& PreferMPP2PhaseAgg > 0 then
    hashAggs.filter (isHashAggOfMode AggMppRunMode.Mpp2Phase)
  else hashAggs

/-- Transcribes `tryToGetMppHashAggs`; `none` is an index fault. -/
def tryToGetMppHashAggs (env : Env) (la : LogicalAggregation) (prop : PhysicalProperty) :
    Option (List PhysicalPlan) :=
  if !prop.IsSortItemEmpty then some []
  else if prop.TaskTp ≠ TaskType.RootTaskType ∧ prop.TaskTp ≠ TaskType.MppTaskType then some []
  else if prop.MPPPartitionTp = MPPPartitionType.BroadcastType then some []
  else
    match mppHashAggCandidates env la prop with
    | none => none
    | some (Sum.inl hashAggs) => some hashAggs
    | some (Sum.inr hashAggs) => some (handleMppAggHints la hashAggs)

/-- The run mode of a plan that is a hash aggregation. -/
def PhysicalPlan.mppRunMode (pl : PhysicalPlan) : Option AggMppRunMode :=
  match pl with
  | PhysicalPlan.hashAgg a => some a.MppRunMode
  | _ => none

/-- A final-mode count. -/
def AggFuncDesc.isFinalCount (f : AggFuncDesc) : Bool :=
  decide (f.Mode = AggFunctionMode.FinalMode) && decide (f.Name = ast.AggFuncCount)

/-- Whether a plan is a hash aggregation that carries a final-mode count. -/
def PhysicalPlan.carriesFinalCount (pl : PhysicalPlan) : Bool :=
  match pl with
  | PhysicalPlan.hashAgg a => a.AggFuncs.any AggFuncDesc.isFinalCount
  | _ => false

/-- An aggregate function in final or complete mode. -/
def AggFuncDesc.isFinalOrComplete (f : AggFuncDesc) : Bool :=
  decide (f.Mode = AggFunctionMode.FinalMode) || decide (f.Mode = AggFunctionMode.CompleteMode)

/-- The aggregate functions agree with the first of them on being in final or
complete mode. -/
def aggModesAgree (aggFuncs : List AggFuncDesc) : Bool :=
  match aggFuncs with
  | [] => true
  | first :: rest => rest.all (fun one => one.isFinalOrComplete == first.isFinalOrComplete)

/-- Sample aggregation `SELECT count(a) ... GROUP BY a` over `t1` whose count is in
the given mode, with the given hint mask. -/
def sampleAgg (mode : AggFunctionMode) (prefer : Nat) : LogicalAggregation :=
  { AggFuncs := [{ Name := ast.AggFuncCount, Args := [Expression.column colT1A], Mode := mode }]
    GroupByItems := [Expression.column colT1A]
    PreferAggType := prefer
    stats := { RowCount := 10 }
    schema := { Columns := [colT1A] } }

/-- Sample aggregation grouped by `t1.a` with a complete-mode sum followed by a
function of the given name and mode. -/
def sampleAggTwo (name : String) (mode : AggFunctionMode) : LogicalAggregation :=
  { AggFuncs :=
      [{ Name := ast.AggFuncSum, Args := [Expression.column colT1A] },
       { Name := name, Args := [Expression.column colT1A], Mode := mode }]
    GroupByItems := [Expression.column colT1A]
    PreferAggType := 0
    stats := { RowCount := 10 }
    schema := { Columns := [colT1A] } }

/-! ## Index joins built from a completed inner task -/

/-- The loop `for keyOff, idxOff := range keyOff2IdxOff` of `constructIndexJoin`, from
position `keyOff` on; `none` is an index out of range. -/
def constructKeyLoop (p : LogicalJoin) (innerJoinKeys outerJoinKeys : List Column)
    (isNullEQ : List Bool) : List Int → Nat → KeyLoopState → Option KeyLoopState
  | [], _, st => some st
  | idxOff :: rest, keyOff, st =>
    if idxOff < 0 then
      match p.EqualConditions[keyOff]? with
      | none => none
      | some e =>
        constructKeyLoop p innerJoinKeys outerJoinKeys isNullEQ rest (keyOff + 1)
          { st with newOtherConds := st.newOtherConds ++ [e.toExpression] }
    else
      match innerJoinKeys[keyOff]?, outerJoinKeys[keyOff]?, isNullEQ[keyOff]? with
      | some ik, some ok, some ne =>
        constructKeyLoop p innerJoinKeys outerJoinKeys isNullEQ rest (keyOff + 1)
          { st with
            newInnerKeys := st.newInnerKeys ++ [ik]
            newOuterKeys := st.newOuterKeys ++ [ok]
            newIsNullEQ := st.newIsNullEQ ++ [ne]
            newKeyOff := st.newKeyOff ++ [idxOff] }
      | _, _, _ => none

/-- The index join `constructIndexJoin` builds once its two loops have run: the
composite literal, `Init`, the index column lengths of the path when there is one, and
`SetSchema`. The source leaves the inner slot of the children's properties nil; the
list records the property of the outer child alone. -/
def buildIndexJoin (env : Env) (p : LogicalJoin) (prop : PhysicalProperty) (outerIdx : Nat)
    (innerTask : InnerTask) (ranges : Option (List Range)) (path : Option AccessPath)
    (compareFilters : Option ColWithCmpFuncManager) (ks : KeyLoopState)
    (hs : HashKeyLoopState) : PhysicalIndexJoin :=
  let ranges1 : List Range := match ranges with
    | none => []
    | some r => r
  let outerChild := if outerIdx == 0 then p.child0 else p.child1
  let outerProp0 : PhysicalProperty :=
    { TaskTp := TaskType.RootTaskType, ExpectedCnt := MaxFloat64,
      SortItems := prop.SortItems, CTEProducerStatus := prop.CTEProducerStatus,
      NoCopPushDown := prop.NoCopPushDown }
  let outerProp : PhysicalProperty :=
    if prop.ExpectedCnt < p.stats.RowCount then
      let expCntScale := prop.ExpectedCnt / p.stats.RowCount
      { outerProp0 with ExpectedCnt := outerChild.Stats.RowCount * expCntScale }
    else outerProp0
  { InnerChildIdx := 1 - outerIdx
    LeftConditions := p.LeftConditions
    RightConditions := p.RightConditions
    OtherConditions := hs.newOtherConds
    JoinType := p.JoinType
    OuterJoinKeys := ks.newOuterKeys
    InnerJoinKeys := ks.newInnerKeys
    IsNullEQ := ks.newIsNullEQ
    DefaultValues := p.DefaultValues
    InnerPlan := some innerTask.Plan
    KeyOff2IdxOff := ks.newKeyOff
    Ranges := some ranges1
    CompareFilters := compareFilters
    OuterHashKeys := hs.outerHashKeys
    InnerHashKeys := hs.innerHashKeys
    IdxColLens := match path with
      | some pa => pa.IdxColLens
      | none => []
    stats := env.ScaleByExpectCnt p.stats prop.ExpectedCnt
    childrenReqProps := [outerProp]
    schema := p.schema }

/-- Transcribes `constructIndexJoin`; every plan it returns is a
`*physicalop.PhysicalIndexJoin`. `outerIdx` is 0 or 1 at every call site. `none` is
an index out of range. -/
def constructIndexJoin (env : Env) (p : LogicalJoin) (prop : PhysicalProperty) (outerIdx : Nat)
    (innerTask : InnerTask) (ranges : Option (List Range)) (keyOff2IdxOff : List Int)
    (path : Option AccessPath) (compareFilters : Option ColWithCmpFuncManager)
    (extractOtherEQ : Bool) : Option (List PhysicalIndexJoin) :=
  if innerTask.Invalid then some []
  else
    let keys := p.GetJoinKeys
    let outerJoinKeys := if outerIdx == 0 then keys.1 else keys.2.1
    let innerJoinKeys := if outerIdx == 0 then keys.2.1 else keys.1
    let isNullEQ := keys.2.2.1
    let hasNullEQ := keys.2.2.2
    if hasNullEQ then some []
    else
      let outerChild := if outerIdx == 0 then p.child0 else p.child1
      let innerChild := if 1 - outerIdx == 0 then p.child0 else p.child1
      match constructKeyLoop p innerJoinKeys outerJoinKeys isNullEQ keyOff2IdxOff 0
          { newKeyOff := [], newIsNullEQ := [], newInnerKeys := [], newOuterKeys := [],
            newOtherConds := p.OtherConditions } with
      | none => none
      | some ks =>
        let st0 : HashKeyLoopState :=
          { newOtherConds := ks.newOtherConds
            outerHashKeys := ks.newOuterKeys
            innerHashKeys := ks.newInnerKeys }
        match (if extractOtherEQ then
            extractOtherEQLoop innerChild.Schema outerChild.Schema st0.newOtherConds.length st0
          else some st0) with
        | none => none
        | some hs =>
          some [buildIndexJoin env p prop outerIdx innerTask ranges path compareFilters ks hs]

/-- The map `keyOffMap` of `constructIndexMergeJoin`, built by `keyOffMap[idxOff] = i`
over the list: the last position of `idxOff`, and Go's zero value when it is absent. -/
def keyOffMap (keyOffMapList : List Int) (idxOff : Int) : Nat :=
  match (keyOffMapList.enum.filter (fun q => q.2 == idxOff)).getLast? with
  | some q => q.1
  | none => 0

/-- The loop `for keyOff, idxOff := range keyOffMapList` of `constructIndexMergeJoin`
over the sorted list, from position `keyOff` on: the flag `keyIsIndexPrefix` and the
slice `keyOff2KeyOffOrderByIdx`. `none` is an index out of range. -/
def keyOffOrderLoop (lookup : Int → Nat) : List Int → Nat → List Int → Option (Bool × List Int)
  | [], _, order => some (true, order)
  | idxOff :: rest, keyOff, order =>
    if (keyOff : Int) ≠ idxOff then some (false, order)
    else if lookup idxOff < order.length then
      keyOffOrderLoop lookup rest (keyOff + 1) (order.set (lookup idxOff) (keyOff : Int))
    else none

/-- The outer join key `join.OuterJoinKeys[keyOff2KeyOffOrderByIdx[i]]`; `none` is an
index out of range. -/
def outerKeyByIdxOrder (join : PhysicalIndexJoin) (order : List Int) (i : Nat) : Option Column :=
  match order[i]? with
  | none => none
  | some k => if k < 0 then none else join.OuterJoinKeys[k.toNat]?

/-- One round of the loop `for i := range join.KeyOff2IdxOff` of
`constructIndexMergeJoin` on the flag `isOuterKeysPrefix`; `none` is an index out of
range, also of the keys the compare functions are built from. -/
def isOuterKeysPrefixStep (prop : PhysicalProperty) (join : PhysicalIndexJoin) (order : List Int)
    (acc : Option Bool) (i : Nat) : Option Bool :=
  match acc with
  | none => none
  | some isOuterKeysPrefix =>
    let flag : Option Bool :=
      if isOuterKeysPrefix then
        match prop.SortItems[i]?, outerKeyByIdxOrder join order i with
        | some item, some key => some (item.Col.EqualColumn key)
        | _, _ => none
      else some false
    match flag, join.OuterJoinKeys[i]?, join.InnerJoinKeys[i]? with
    | some b, some _, some _ => some b
    | _, _, _ => none

/-- The loop `for i := 0; canKeepOuterOrder && i < len(prop.SortItems); i++` of
`constructIndexMergeJoin`, from position `i` on with the flag true; `none` is an index
out of range. -/
def canKeepOuterOrderLoop (join : PhysicalIndexJoin) (order : List Int) :
    List SortItem → Nat → Option Bool
  | [], _ => some true
  | item :: rest, i =>
    match outerKeyByIdxOrder join order i with
    | none => none
    | some key =>
      if !item.Col.EqualColumn key then some false
      else canKeepOuterOrderLoop join order rest (i + 1)

/-- The body of the loop of `constructIndexMergeJoin` once a join has passed the
checks on hash keys, key types and prefix columns. The outer `none` is an index out of
range, the inner `none` a `continue` without a candidate. -/
def indexMergeJoinOf (prop : PhysicalProperty) (join : PhysicalIndexJoin) :
    Option (Option PhysicalIndexMergeJoin) :=
  let keyOff2KeyOffOrderByIdx0 : List Int := List.replicate join.OuterJoinKeys.length 0
  let keyOffMapList := join.KeyOff2IdxOff
  let sorted := keyOffMapList.insertionSort (fun a b => a ≤ b)
  match keyOffOrderLoop (keyOffMap keyOffMapList) sorted 0 keyOff2KeyOffOrderByIdx0 with
  | none => none
  | some (false, _) => some none
  | some (true, keyOff2KeyOffOrderByIdx) =>
    match (List.range join.KeyOff2IdxOff.length).foldl
        (isOuterKeysPrefixStep prop join keyOff2KeyOffOrderByIdx)
        (some (decide (join.OuterJoinKeys.length ≤ prop.SortItems.length))) with
    | none => none
    | some isOuterKeysPrefix =>
      match (if prop.SortItems.length ≤ join.OuterJoinKeys.length then
          canKeepOuterOrderLoop join keyOff2KeyOffOrderByIdx prop.SortItems 0
        else some false) with
      | none => none
      | some canKeepOuterOrder =>
        if canKeepOuterOrder || isOuterKeysPrefix then
          some (some
            { PhysicalIndexJoin := join
              KeyOff2KeyOffOrderByIdx := keyOff2KeyOffOrderByIdx
              NeedOuterSort := !isOuterKeysPrefix
              Desc := match prop.SortItems with
                | [] => false
                | item :: _ => item.Desc })
        else some none

/-- The loop `for _, plan := range indexJoins` of `constructIndexMergeJoin`, with the
candidates gathered so far; `none` is an index out of range. -/
def constructIndexMergeJoinLoop (prop : PhysicalProperty) :
    List PhysicalIndexJoin → List PhysicalPlan → Option (List PhysicalPlan)
  | [], indexMergeJoins => some indexMergeJoins
  | join :: rest, indexMergeJoins =>
    if join.InnerHashKeys.length > join.InnerJoinKeys.length then some []
    else if join.InnerJoinKeys.any (fun innerKey =>
        innerKey.RetType == mysql.TypeEnum || innerKey.RetType == mysql.TypeSet) then some []
    else if join.OuterJoinKeys.any (fun outerKey =>
        outerKey.RetType == mysql.TypeEnum || outerKey.RetType == mysql.TypeSet) then some []
    else if join.IdxColLens.any (fun l => l != types.UnspecifiedLength) then
      constructIndexMergeJoinLoop prop rest indexMergeJoins
    else
      match indexMergeJoinOf prop join with
      | none => none
      | some none => constructIndexMergeJoinLoop prop rest indexMergeJoins
      | some (some indexMergeJoin) =>
        constructIndexMergeJoinLoop prop rest
          (indexMergeJoins ++ [PhysicalPlan.indexMergeJoin indexMergeJoin])

/-- The flag `hintExists` of `constructIndexMergeJoin`: the INL_MERGE_JOIN hint names
the inner side. -/
def indexMergeJoinHintExists (p : LogicalJoin) (outerIdx : Nat) : Bool :=
  (outerIdx == 1 && decide (p.PreferJoinType &&& PreferLeftAsINLMJInner > 0))
    || (outerIdx == 0 && decide (p.PreferJoinType &&& PreferRightAsINLMJInner > 0))

/-- Transcribes `constructIndexMergeJoin`; `none` is an index out of range. -/
def constructIndexMergeJoin (env : Env) (p : LogicalJoin) (prop : PhysicalProperty)
    (outerIdx : Nat) (innerTask : InnerTask) (ranges : Option (List Range))
    (keyOff2IdxOff : List Int) (path : Option AccessPath)
    (compareFilters : Option ColWithCmpFuncManager) : Option (List PhysicalPlan) :=
  let hintExists := indexMergeJoinHintExists p outerIdx
  match constructIndexJoin env p prop outerIdx innerTask ranges keyOff2IdxOff path
      compareFilters (!hintExists) with
  | none => none
  | some indexJoins => constructIndexMergeJoinLoop prop indexJoins []

/-- Column `t1.e`, of type ENUM. -/
def colT1E : Column := { UniqueID := 3, InOperand := false, RetType := mysql.TypeEnum }

/-- Sample join `t1 JOIN t2 ON t1.e = t2.a` whose left key is of type ENUM. -/
def sampleEnumJoin : LogicalJoin :=
  { sampleJoin JoinType.InnerJoin 0 with
    EqualConditions := [{ FuncName := ast.EQ, lhs := colT1E, rhs := colT2A }]
    child0 := { Stats := { RowCount := 10 }, Schema := { Columns := [colT1E] } } }

/-- A valid inner task. -/
def sampleInnerTask : InnerTask := { Invalid := false, Plan := 7 }

/-- The index joins `constructIndexJoin` builds for the sample join with the ENUM key,
with the left child as the outer side. -/
def sampleEnumIndexJoins : List PhysicalIndexJoin :=
  (constructIndexJoin sampleEnv sampleEnumJoin sampleProp 0 sampleInnerTask none [0] none none
    (!indexMergeJoinHintExists sampleEnumJoin 0)).getD []

/-! ## Enumerators of the single-child operators and of union all

Each enumerator returns its candidates, the flag and the error (`none` is the nil
error). -/

/-- Transcribes `admitIndexJoinProps`. -/
def admitIndexJoinProps (children : List PhysicalProperty) (prop : PhysicalProperty) :
    List PhysicalProperty :=
  if prop.TaskTp = TaskType.MppTaskType then children
  else
    match prop.IndexJoinProp with
    | some ijp =>
      (children.filter (fun child => decide (child.TaskTp ≠ TaskType.MppTaskType))).map
        (fun child => { child with IndexJoinProp := some ijp })
    | none => children

/-- Transcribes `exhaustPhysicalPlans4LogicalSelection`. -/
def exhaustPhysicalPlans4LogicalSelection (env : Env) (p : LogicalSelection)
    (prop : PhysicalProperty) : List PhysicalPlan × Bool × Option String :=
  let childProp := env.CloneEssentialFields prop
  let canPushDownToTiFlash := !env.ContainVirtualColumn p.Conditions
    && env.CanExprsPushDown p.Conditions StoreType.TiFlash
  let newProps0 :=
    if decide (prop.TaskTp ≠ TaskType.MppTaskType) && env.vars.IsMPPAllowed
        && canPushDownToTiFlash then
      [childProp, { env.CloneEssentialFields prop with TaskTp := TaskType.MppTaskType }]
    else [childProp]
  let newProps := admitIndexJoinProps newProps0 prop
  let ret := newProps.map (fun newProp =>
    PhysicalPlan.selection
      { Conditions := p.Conditions
        stats := env.ScaleByExpectCnt p.stats prop.ExpectedCnt
        childrenReqProps := [newProp] })
  (ret, true, none)

/-- Transcribes `getGEAndLogicalProjection`. -/
def getGEAndLogicalProjection (super : ProjectionPlan) :
    Option ProjectionGroupExpression × LogicalProjection :=
  match super with
  | ProjectionPlan.projection x => (none, x)
  | ProjectionPlan.groupExpression x => (some x, x.wrapped)

/-- Transcribes `getChildStatsAndSchema` for a projection. -/
def getChildStatsAndSchema (ge : Option ProjectionGroupExpression) (p : LogicalProjection) :
    StatsInfo × Schema :=
  match ge with
  | some g => (g.input0.Stats, g.input0.Schema)
  | none => (p.child.Stats, p.child.Schema)

/-- Transcribes `exhaustPhysicalPlans4LogicalProjection`. -/
def exhaustPhysicalPlans4LogicalProjection (env : Env) (super : ProjectionPlan)
    (prop : PhysicalProperty) : List PhysicalPlan × Bool × Option String :=
  let ge := (getGEAndLogicalProjection super).1
  let p := (getGEAndLogicalProjection super).2
  match env.TryToGetChildProp p prop with
  | none => ([], true, none)
  | some newProp =>
    let childSchema := (getChildStatsAndSchema ge p).2
    let mppProps :=
      if decide (newProp.TaskTp ≠ TaskType.MppTaskType) && env.vars.IsMPPAllowed
          && env.CanExprsPushDown p.Exprs StoreType.TiFlash then
        [{ env.CloneEssentialFields newProp with TaskTp := TaskType.MppTaskType }]
      else []
    let copProps :=
      if decide (newProp.TaskTp ≠ TaskType.CopSingleReadTaskType)
          && env.vars.AllowProjectionPushDown
          && env.CanExprsPushDown p.Exprs StoreType.TiKV && !env.ContainVirtualColumn p.Exprs
          && env.ProjectionBenefitsFromPushedDown p.Exprs childSchema.Columns.length then
        [{ env.CloneEssentialFields newProp with TaskTp := TaskType.CopSingleReadTaskType }]
      else []
    let newProps := admitIndexJoinProps ([newProp] ++ mppProps ++ copProps) prop
    let ret := newProps.map (fun newProp =>
      PhysicalPlan.projection
        { Exprs := p.Exprs
          CalculateNoDelay := p.CalculateNoDelay
          stats := env.ScaleByExpectCnt p.stats prop.ExpectedCnt
          childrenReqProps := [newProp]
          schema := p.schema })
    (ret, true, none)

/-- Modelled from the spec: `LogicalLimit.GetPartitionBy` (package logicalop is not
among the sources): the partition-by items of the limit. -/
def LogicalLimit.GetPartitionBy (p : LogicalLimit) : List SortItem := p.PartitionBy

/-- Modelled from the spec: `LogicalTopN.GetPartitionBy` (package logicalop is not
among the sources): the partition-by items of the TopN. -/
def LogicalTopN.GetPartitionBy (lt : LogicalTopN) : List SortItem := lt.PartitionBy

/-- Transcribes `getLimitPhysicalPlans`; `Count + Offset` is a `uint64` sum. -/
def getLimitPhysicalPlans (env : Env) (p : LogicalLimit) (prop : PhysicalProperty) :
    List PhysicalPlan × Bool × Option String :=
  if !prop.IsSortItemEmpty then ([], true, none)
  else
    let allTaskTypes0 := [TaskType.CopSingleReadTaskType, TaskType.CopMultiReadTaskType,
      TaskType.RootTaskType]
    let allTaskTypes :=
      if env.vars.IsMPPAllowed then allTaskTypes0 ++ [TaskType.MppTaskType] else allTaskTypes0
    let ret := allTaskTypes.map (fun tp =>
      let resultProp : PhysicalProperty :=
        { TaskTp := tp, ExpectedCnt := (((p.Count + p.Offset) % 2 ^ 64 : Nat) : ℚ),
          CTEProducerStatus := prop.CTEProducerStatus, NoCopPushDown := prop.NoCopPushDown }
      PhysicalPlan.limit
        { Offset := p.Offset
          Count := p.Count
          PartitionBy := p.GetPartitionBy
          stats := p.stats
          childrenReqProps := [resultProp]
          schema := p.schema })
    (ret, true, none)

/-- Transcribes `exhaustPhysicalPlans4LogicalLimit`. -/
def exhaustPhysicalPlans4LogicalLimit (env : Env) (p : LogicalLimit) (prop : PhysicalProperty) :
    List PhysicalPlan × Bool × Option String :=
  getLimitPhysicalPlans env p prop

/-- The TopN `getPhysTopN` builds over a property of its child. -/
def newPhysicalTopN (lt : LogicalTopN) (resultProp : PhysicalProperty) : PhysicalPlan :=
  PhysicalPlan.topN
    { ByItems := lt.ByItems
      PartitionBy := lt.PartitionBy
      Count := lt.Count
      Offset := lt.Offset
      stats := lt.stats
      childrenReqProps := [resultProp]
      schema := lt.schema }

/-- Transcribes `getPhysTopN`; `uint32(lt.Count + lt.Offset)` truncates the `uint64`
sum. -/
def getPhysTopN (env : Env) (lt : LogicalTopN) (prop : PhysicalProperty) : List PhysicalPlan :=
  let allTaskTypes0 := [TaskType.CopSingleReadTaskType, TaskType.CopMultiReadTaskType,
    TaskType.RootTaskType]
  let mppAllowed := env.vars.IsMPPAllowed
  let allTaskTypes := if mppAllowed then allTaskTypes0 ++ [TaskType.MppTaskType] else allTaskTypes0
  let ret := allTaskTypes.map (fun tp =>
    newPhysicalTopN lt
      { TaskTp := tp, ExpectedCnt := MaxFloat64, CTEProducerStatus := prop.CTEProducerStatus,
        NoCopPushDown := prop.NoCopPushDown })
  if mppAllowed then
    match lt.ByItems with
    | [item] =>
      match env.InterpretVectorSearchExpr item.Expr with
      | none => ret
      | some vs =>
        if item.Desc then ret
        else
          match lt.child with
          | LogicalChild.dataSource ds =>
            if ds.PushedDownConds.length > 0 then ret
            else
              ret ++ [newPhysicalTopN lt
                { TaskTp := TaskType.MppTaskType, ExpectedCnt := MaxFloat64,
                  CTEProducerStatus := prop.CTEProducerStatus,
                  VectorProp :=
                    { VSInfo := some vs, TopK := (lt.Count + lt.Offset) % 2 ^ 64 % 2 ^ 32 } }]
          | LogicalChild.other => ret
    | _ => ret
  else ret

/-- Modelled from the spec: `GetPropByOrderByItems` (its file of package core is not
among the sources): the property whose sort items are the by-items, which all have to
be bare columns. -/
def GetPropByOrderByItems : List ByItems → Option PhysicalProperty
  | [] => some {}
  | item :: rest =>
    match item.Expr, GetPropByOrderByItems rest with
    | Expression.column col, some p =>
      some { p with SortItems := { Col := col, Desc := item.Desc } :: p.SortItems }
    | _, _ => none

/-- Transcribes `getPhysLimits`. -/
def getPhysLimits (lt : LogicalTopN) (prop : PhysicalProperty) : List PhysicalPlan :=
  match GetPropByOrderByItems lt.ByItems with
  | none => []
  | some p =>
    let allTaskTypes := [TaskType.CopSingleReadTaskType, TaskType.CopMultiReadTaskType,
      TaskType.RootTaskType]
    allTaskTypes.map (fun tp =>
      let resultProp : PhysicalProperty :=
        { TaskTp := tp, ExpectedCnt := (((lt.Count + lt.Offset) % 2 ^ 64 : Nat) : ℚ),
          SortItems := p.SortItems, CTEProducerStatus := prop.CTEProducerStatus,
          NoCopPushDown := prop.NoCopPushDown }
      PhysicalPlan.limit
        { Count := lt.Count
          Offset := lt.Offset
          PartitionBy := lt.GetPartitionBy
          stats := lt.stats
          childrenReqProps := [resultProp]
          schema := lt.schema })

/-- Modelled from the spec: `Column.EqualColumn` on an expression (package expression
is not among the sources): the expression is the same column. -/
def Column.EqualColumnExpr (col : Column) (expr : Expression) : Bool :=
  match expr with
  | Expression.column other => col.EqualColumn other
  | _ => false

/-- The loop of `MatchItems` over the sort items of the property; the items are known
to be at least as many. -/
def matchItemsLoop : List SortItem → List ByItems → Bool
  | [], _ => true
  | _ :: _, [] => false
  | col :: cols, sortItem :: items =>
    if sortItem.Desc != col.Desc || !col.Col.EqualColumnExpr sortItem.Expr then false
    else matchItemsLoop cols items

/-- Transcribes `MatchItems`. -/
def MatchItems (p : PhysicalProperty) (items : List ByItems) : Bool :=
  if items.length < p.SortItems.length then false
  else matchItemsLoop p.SortItems items

/-- Transcribes `exhaustPhysicalPlans4LogicalTopN`. -/
def exhaustPhysicalPlans4LogicalTopN (env : Env) (lt : LogicalTopN) (prop : PhysicalProperty) :
    List PhysicalPlan × Bool × Option String :=
  if MatchItems prop lt.ByItems then
    (getPhysTopN env lt prop ++ getPhysLimits lt prop, true, none)
  else ([], true, none)

/-- Transcribes `getPhysicalSort`. -/
def getPhysicalSort (env : Env) (ls : LogicalSort) (prop : PhysicalProperty) : PhysicalPlan :=
  PhysicalPlan.sort
    { ByItems := ls.ByItems
      stats := env.ScaleByExpectCnt ls.stats prop.ExpectedCnt
      childrenReqProps :=
        [{ TaskTp := prop.TaskTp, ExpectedCnt := MaxFloat64,
           CTEProducerStatus := prop.CTEProducerStatus, NoCopPushDown := prop.NoCopPushDown }] }

/-- Transcribes `getNominalSort`; `none` is the nil result. -/
def getNominalSort (env : Env) (ls : LogicalSort) (reqProp : PhysicalProperty) :
    Option NominalSort :=
  let r := env.GetPropByOrderByItemsContainScalarFunc ls.ByItems
  let canPass := r.2.1
  let onlyColumn := r.2.2
  if !canPass then none
  else
    let prop : PhysicalProperty :=
      { r.1 with ExpectedCnt := reqProp.ExpectedCnt, NoCopPushDown := reqProp.NoCopPushDown }
    some
      { OnlyColumn := onlyColumn
        ByItems := ls.ByItems
        stats := env.ScaleByExpectCnt ls.stats prop.ExpectedCnt
        childrenReqProps := [prop] }

/-- Transcribes `getNominalSortSimple`; `none` is the nil result. -/
def getNominalSortSimple (env : Env) (ls : LogicalSort) (reqProp : PhysicalProperty) :
    Option NominalSort :=
  let r := env.GetPropByOrderByItemsContainScalarFunc ls.ByItems
  let canPass := r.2.1
  let onlyColumn := r.2.2
  if !canPass || !onlyColumn then none
  else
    let newProp : PhysicalProperty :=
      { env.CloneEssentialFields reqProp with SortItems := r.1.SortItems }
    some
      { OnlyColumn := true
        ByItems := ls.ByItems
        stats := env.ScaleByExpectCnt ls.stats reqProp.ExpectedCnt
        childrenReqProps := [newProp] }

/-- Transcribes `exhaustPhysicalPlans4LogicalSort`. -/
def exhaustPhysicalPlans4LogicalSort (env : Env) (ls : LogicalSort) (prop : PhysicalProperty) :
    List PhysicalPlan × Bool × Option String :=
  match prop.TaskTp with
  | TaskType.RootTaskType =>
    if MatchItems prop ls.ByItems then
      match getNominalSort env ls prop with
      | some ns => ([getPhysicalSort env ls prop, PhysicalPlan.nominalSort ns], true, none)
      | none => ([getPhysicalSort env ls prop], true, none)
    else ([], true, none)
  | TaskType.MppTaskType =>
    match getNominalSortSimple env ls prop with
    | some ps => ([PhysicalPlan.nominalSort ps], true, none)
    | none => ([], true, none)
  | _ => ([], true, none)

/-- Warning text of `tryToGetMppWindows` for an unsupported window function. -/
def mppWindowFuncUnsupportedWarning (name : String) : String :=
  "MPP mode may be blocked because window function " ++ "\x60" ++ name ++ "\x60" ++
    " or its arguments are not supported now."

/-- Warning text of `tryToGetMppWindows` for a blacklisted window function. -/
def mppWindowFuncBlacklistedWarning (name : String) : String :=
  "MPP mode may be blocked because window function " ++ "\x60" ++ name ++ "\x60" ++
    " is blocked by blacklist, check " ++ "\x60" ++ "table mysql.expr_pushdown_blacklist;" ++
    "\x60" ++ " for more information."

/-- Warning text of `tryToGetMppWindows` for a frame that cannot be converted. -/
def mppWindowFrameErrorWarning (err : String) : String :=
  "MPP mode may be blocked because window function frame can't be pushed down, because " ++ err

/-- Warning text of `tryToGetMppWindows` for a frame that cannot be pushed down. -/
def mppWindowFrameWarning : String :=
  "MPP mode may be blocked because window function frame can't be pushed down"

/-- Warning text of `tryToGetMppWindows` for a frame comparing Duration with
Datetime. -/
def mppWindowFrameComparisonWarning : String :=
  "MPP mode may be blocked because window function frame can't be pushed down, because " ++
    "Duration vs Datetime is invalid comparison as TiFlash can't handle it so far."

/-- The loop of `tryToGetMppWindows` over the window functions: the flag
`allSupported`, or `none` when the loop returns nil, with the warnings raised. -/
def mppWindowFuncsLoop (env : Env) :
    List WindowFuncDesc → Bool → List String → Option Bool × List String
  | [], allSupported, w => (some allSupported, w)
  | windowFunc :: rest, allSupported, w =>
    if !env.WindowCanPushDownToTiFlash windowFunc then
      mppWindowFuncsLoop env rest false
        (w ++ env.RaiseWarningWhenMPPEnforced (mppWindowFuncUnsupportedWarning windowFunc.Name))
    else if !env.IsPushDownEnabled windowFunc.Name StoreType.TiFlash then
      (none,
        w ++ env.RaiseWarningWhenMPPEnforced (mppWindowFuncBlacklistedWarning windowFunc.Name))
    else mppWindowFuncsLoop env rest allSupported w

/-- The checks of `tryToGetMppWindows` on a frame of type `Ranges`: the warnings of the
check that fails, or `none` when all pass. -/
def mppWindowFrameRejection (env : Env) (lw : LogicalWindow) (frame : WindowFrame) :
    Option (List String) :=
  match env.ExpressionsToPBListErr frame.Start.CalcFuncs with
  | some err => some (env.RaiseWarningWhenMPPEnforced (mppWindowFrameErrorWarning err))
  | none =>
    if !env.CanExprsPushDown frame.Start.CalcFuncs StoreType.TiFlash then
      some (env.RaiseWarningWhenMPPEnforced mppWindowFrameWarning)
    else
      match env.ExpressionsToPBListErr frame.End.CalcFuncs with
      | some err => some (env.RaiseWarningWhenMPPEnforced (mppWindowFrameErrorWarning err))
      | none =>
        if !env.CanExprsPushDown frame.End.CalcFuncs StoreType.TiFlash then
          some (env.RaiseWarningWhenMPPEnforced mppWindowFrameWarning)
        else if !env.CheckComparisonForTiFlash lw frame.Start
            || !env.CheckComparisonForTiFlash lw frame.End then
          some (env.RaiseWarningWhenMPPEnforced mppWindowFrameComparisonWarning)
        else none

/-- The tail of `tryToGetMppWindows`, after the checks on the window functions and the
frame: the candidates; `none` is an index fault. -/
def buildMppWindow (env : Env) (lw : LogicalWindow) (prop : PhysicalProperty) :
    Option (List PhysicalPlan) :=
  let byItems := lw.PartitionBy ++ lw.OrderBy
  let childProperty0 : PhysicalProperty :=
    { ExpectedCnt := MaxFloat64, CanAddEnforcer := true, SortItems := byItems,
      TaskTp := TaskType.MppTaskType, SortItemsForPartition := byItems,
      CTEProducerStatus := prop.CTEProducerStatus }
  if !env.IsPrefix prop childProperty0 then some []
  else
    let settled : Option (Option PhysicalProperty) :=
      if lw.PartitionBy.length > 0 then
        let partitionCols := env.WindowPartitionKeys lw
        if prop.MPPPartitionTp = MPPPartitionType.HashType then
          let found := prop.IsSubsetOf partitionCols
          if found.length = 0 then some none
          else
            match choosePartitionKeys partitionCols found with
            | none => none
            | some chosen =>
              some (some { childProperty0 with
                MPPPartitionTp := MPPPartitionType.HashType, MPPPartitionCols := chosen })
        else
          some (some { childProperty0 with
            MPPPartitionTp := MPPPartitionType.HashType, MPPPartitionCols := partitionCols })
      else some (some { childProperty0 with MPPPartitionTp := MPPPartitionType.SinglePartitionType })
    match settled with
    | none => none
    | some none => some []
    | some (some childProperty) =>
      if prop.MPPPartitionTp = MPPPartitionType.SinglePartitionType
          ∧ childProperty.MPPPartitionTp ≠ MPPPartitionType.SinglePartitionType then some []
      else
        some [PhysicalPlan.window
          { WindowFuncDescs := lw.WindowFuncDescs
            PartitionBy := lw.PartitionBy
            OrderBy := lw.OrderBy
            Frame := lw.Frame
            StoreTp := StoreType.TiFlash
            stats := env.ScaleByExpectCnt lw.stats prop.ExpectedCnt
            childrenReqProps := [childProperty]
            schema := lw.schema }]

/-- Transcribes `tryToGetMppWindows`: the candidates and the warnings raised; `none` is
an index fault. -/
def tryToGetMppWindows (env : Env) (lw : LogicalWindow) (prop : PhysicalProperty) :
    Option (List PhysicalPlan × List String) :=
  if !env.IsSortItemAllForPartition prop then some ([], [])
  else if prop.TaskTp ≠ TaskType.RootTaskType ∧ prop.TaskTp ≠ TaskType.MppTaskType then
    some ([], [])
  else if prop.MPPPartitionTp = MPPPartitionType.BroadcastType then some ([], [])
  else
    let funcs := mppWindowFuncsLoop env lw.WindowFuncDescs true []
    match funcs.1 with
    | none => some ([], funcs.2)
    | some false => some ([], funcs.2)
    | some true =>
      let rejection : Option (List String) :=
        match lw.Frame with
        | some frame =>
          if frame.FrameType = ast.Ranges then mppWindowFrameRejection env lw frame else none
        | none => none
      match rejection with
      | some w => some ([], funcs.2 ++ w)
      | none => (buildMppWindow env lw prop).map (fun windows => (windows, funcs.2))

/-- Transcribes `exhaustPhysicalPlans4LogicalWindow`: the candidates, the flag, the
error and the warnings raised; `none` is an index fault. -/
def exhaustPhysicalPlans4LogicalWindow (env : Env) (lw : LogicalWindow)
    (prop : PhysicalProperty) : Option ((List PhysicalPlan × Bool × Option String) × List String) :=
  let mpp : Option (List PhysicalPlan × List String) :=
    if env.vars.IsMPPAllowed then tryToGetMppWindows env lw prop else some ([], [])
  match mpp with
  | none => none
  | some (windows, w) =>
    if prop.TaskTp = TaskType.MppTaskType then some ((windows, true, none), w)
    else
      let byItems := lw.PartitionBy ++ lw.OrderBy
      let childProperty : PhysicalProperty :=
        { ExpectedCnt := MaxFloat64, SortItems := byItems, CanAddEnforcer := true,
          CTEProducerStatus := prop.CTEProducerStatus, NoCopPushDown := prop.NoCopPushDown }
      if !env.IsPrefix prop childProperty then some (([], true, none), w)
      else
        let window := PhysicalPlan.window
          { WindowFuncDescs := lw.WindowFuncDescs
            PartitionBy := lw.PartitionBy
            OrderBy := lw.OrderBy
            Frame := lw.Frame
            stats := env.ScaleByExpectCnt lw.stats prop.ExpectedCnt
            childrenReqProps := [childProperty]
            schema := lw.schema }
        some ((windows ++ [window], true, none), w)

/-- Transcribes `exhaustPhysicalPlans4LogicalUnionAll`. -/
def exhaustPhysicalPlans4LogicalUnionAll (env : Env) (p : LogicalUnionAll)
    (prop : PhysicalProperty) : List PhysicalPlan × Bool × Option String :=
  if !prop.IsSortItemEmpty || (prop.IsFlashProp && decide (prop.TaskTp ≠ TaskType.MppTaskType))
  then ([], true, none)
  else if prop.TaskTp = TaskType.MppTaskType ∧ prop.MPPPartitionTp ≠ MPPPartitionType.AnyType then
    ([], true, none)
  else
    let canUseMpp := env.vars.IsMPPAllowed
    let mppChildProp : PhysicalProperty :=
      { ExpectedCnt := prop.ExpectedCnt, TaskTp := TaskType.MppTaskType,
        CTEProducerStatus := prop.CTEProducerStatus, NoCopPushDown := prop.NoCopPushDown }
    let rootChildProp : PhysicalProperty :=
      { ExpectedCnt := prop.ExpectedCnt, CTEProducerStatus := prop.CTEProducerStatus,
        NoCopPushDown := prop.NoCopPushDown }
    let chReqProps := List.replicate p.ChildLen
      (if canUseMpp && decide (prop.TaskTp = TaskType.MppTaskType) then mppChildProp
       else rootChildProp)
    let ua := PhysicalPlan.unionAll
      { Mpp := canUseMpp && decide (prop.TaskTp = TaskType.MppTaskType)
        stats := env.ScaleByExpectCnt p.stats prop.ExpectedCnt
        childrenReqProps := chReqProps
        schema := p.schema }
    if canUseMpp && decide (prop.TaskTp = TaskType.RootTaskType) then
      let mppUA := PhysicalPlan.unionAll
        { Mpp := true
          stats := env.ScaleByExpectCnt p.stats prop.ExpectedCnt
          childrenReqProps := List.replicate p.ChildLen mppChildProp
          schema := p.schema }
      ([ua, mppUA], true, none)
    else ([ua], true, none)

/-- Sample selection `WHERE t1.a = 1` over `t1`. -/
def sampleSelection : LogicalSelection :=
  { Conditions := [Expression.scalarFunction ast.EQ
      [Expression.column colT1A, Expression.constant 1]]
    stats := { RowCount := 10 } }

/-- Sample required property that asks for the order of `t1.a`. -/
def samplePropSorted : PhysicalProperty :=
  { SortItems := [{ Col := colT1A, Desc := false }] }

/-- Sample limit of 10 rows. -/
def sampleLimit : LogicalLimit :=
  { Count := 10, Offset := 0, PartitionBy := [], PreferLimitToCop := false,
    stats := { RowCount := 10 }, schema := { Columns := [colT1A] } }

/-! ## Limit and TopN at attach time -/

/-- The dynamic types `pushLimitOrTopNForcibly` switches on. -/
inductive LimitOrTopN where
  | topN (lp : LogicalTopN)
  | limit (lp : LogicalLimit)
  | other
  deriving Repr

/-- Transcribes `pushLimitOrTopNForcibly`: the pair in the order of its return
statements, `preferPushDown` first and `meetThreshold` second. `Count + Offset` is a
`uint64` sum and the threshold, an `int64`, is converted to `uint64`. -/
def pushLimitOrTopNForcibly (env : Env) (p : LimitOrTopN) : Bool × Bool :=
  match p with
  | LimitOrTopN.topN lp =>
    let preferPushDown := lp.PreferLimitToCop
    let meetThreshold := decide ((lp.Count + lp.Offset) % 2 ^ 64
      ≤ (env.vars.LimitPushDownThreshold % 2 ^ 64).toNat)
    (preferPushDown, meetThreshold)
  | LimitOrTopN.limit lp =>
    let preferPushDown := lp.PreferLimitToCop
    let meetThreshold := true
    (preferPushDown, meetThreshold)
  | LimitOrTopN.other => (false, false)

/-- The task type the child property of a TopN asks for. -/
def PhysicalPlan.topNChildTaskTp (pl : PhysicalPlan) : Option TaskType :=
  match pl with
  | PhysicalPlan.topN x => x.childrenReqProps.head?.map (fun cp => cp.TaskTp)
  | _ => none

/-- Sample environment in which MPP is allowed. -/
def sampleEnvMppAllowed : Env :=
  { sampleEnv with vars := { sampleVars with IsMPPAllowed := true } }

/-- Sample TopN `ORDER BY t1.a LIMIT count OFFSET offset` over another operator. -/
def sampleTopN (count offset : Nat) : LogicalTopN :=
  { ByItems := [{ Expr := Expression.column colT1A, Desc := false }]
    PartitionBy := []
    Count := count
    Offset := offset
    PreferLimitToCop := false
    stats := { RowCount := 10 }
    schema := { Columns := [colT1A] }
    child := LogicalChild.other }

/-! ## Hint arbitration at attach time -/

/-- Transcribes `preferHashJoin`; a plan that is not a logical join is the group
expression, and `none` is the nil physical plan. -/
def preferHashJoin (lp : LogicalPlan) (physicPlan : Option PhysicalPlan) : Bool :=
  match lp with
  | LogicalPlan.groupExpression _ => false
  | LogicalPlan.join p =>
    match physicPlan with
    | none => false
    | some plan =>
      let forceLeftToBuild0 := decide (p.PreferJoinType &&& PreferLeftAsHJBuild > 0)
        || decide (p.PreferJoinType &&& PreferRightAsHJProbe > 0)
      let forceRightToBuild0 := decide (p.PreferJoinType &&& PreferRightAsHJBuild > 0)
        || decide (p.PreferJoinType &&& PreferLeftAsHJProbe > 0)
      let conflict := forceLeftToBuild0 && forceRightToBuild0
      let forceLeftToBuild := if conflict then false else forceLeftToBuild0
      let forceRightToBuild := if conflict then false else forceRightToBuild0
      match plan with
      | PhysicalPlan.hashJoin physicalHashJoin =>
        let preferShuffle := decide (p.PreferJoinType &&& PreferShuffleJoin > 0)
        let preferBCJ := decide (p.PreferJoinType &&& PreferBCJoin > 0)
        if preferShuffle then
          if physicalHashJoin.storeTp = StoreType.TiFlash ∧ physicalHashJoin.mppShuffleJoin = true
          then true else false
        else if preferBCJ then
          if physicalHashJoin.storeTp = StoreType.TiFlash ∧ physicalHashJoin.mppShuffleJoin = false
          then true else false
        else if p.PreferJoinType &&& PreferHashJoin > 0 then
          if forceLeftToBuild || forceRightToBuild then
            (forceRightToBuild && decide (physicalHashJoin.InnerChildIdx = 1))
              || (forceLeftToBuild && decide (physicalHashJoin.InnerChildIdx = 0))
          else true
        else
          (forceRightToBuild && decide (physicalHashJoin.InnerChildIdx = 1))
            || (forceLeftToBuild && decide (physicalHashJoin.InnerChildIdx = 0))
      | _ => false

/-- The child a hash-join plan builds its hash table on. -/
def PhysicalPlan.hashJoinBuildChildIdx (pl : PhysicalPlan) : Option Nat :=
  match pl with
  | PhysicalPlan.hashJoin j => some j.buildChildIdx
  | _ => none

/-! ## One-shot and two-phase construction of an index join -/

/-- The fields of an index join that both constructions settle: join type, inner child
index, the three condition lists, the join keys with their null-safe marks, the key
offsets, ranges, compare filters and the hash keys. -/
def PhysicalIndexJoin.settledFields (j : PhysicalIndexJoin) :
    JoinType × Nat × List Expression × List Expression × List Expression × List Column
      × List Column × List Bool × List Int × Option (List Range)
      × Option ColWithCmpFuncManager × List Column × List Column :=
  (j.JoinType, j.InnerChildIdx, j.LeftConditions, j.RightConditions, j.OtherConditions,
    j.OuterJoinKeys, j.InnerJoinKeys, j.IsNullEQ, j.KeyOff2IdxOff, j.Ranges, j.CompareFilters,
    j.OuterHashKeys, j.InnerHashKeys)

/-- The schema of the outer child of a join. -/
def outerChildSchema (p : LogicalJoin) (outerIdx : Nat) : Schema :=
  (if outerIdx == 0 then p.child0 else p.child1).Schema

/-- The schema of the inner child of a join. -/
def innerChildSchema (p : LogicalJoin) (outerIdx : Nat) : Schema :=
  (if 1 - outerIdx == 0 then p.child0 else p.child1).Schema

/-- Column `t1.b`. -/
def colT1B : Column := { UniqueID := 3, InOperand := false }
/-- Column `t1.c`. -/
def colT1C : Column := { UniqueID := 5, InOperand := false }

/-- The sample static index join whose other condition is `t1.c = t1.b`, an equality
of two columns of the outer child. -/
def sampleOuterOnlyEQJoin : PhysicalIndexJoin :=
  { sampleStaticIndexJoin with
    OtherConditions :=
      [Expression.scalarFunction ast.EQ [Expression.column colT1C, Expression.column colT1B]] }

/-- Sample index-join property for the static enumeration. -/
def sampleIndexJoinProp : IndexJoinRuntimeProp :=
  { OtherConditions := [], InnerJoinKeys := [colT2A], OuterJoinKeys := [colT1A],
    AvgInnerRowCnt := 1, TableRangeScan := false }

/-! ## Reading an index merge join -/

/-- Column `t2.b`. -/
def colT2B : Column := { UniqueID := 4, InOperand := false }
/-- Column `t2.c`. -/
def colT2C : Column := { UniqueID := 6, InOperand := false }

/-- Sample join `t1 JOIN t2 ON t1.a = t2.a AND t1.b = t2.b AND t1.c = t2.c`. -/
def sampleThreeKeyJoin : LogicalJoin :=
  { sampleJoin JoinType.InnerJoin 0 with
    EqualConditions :=
      [{ FuncName := ast.EQ, lhs := colT1A, rhs := colT2A },
       { FuncName := ast.EQ, lhs := colT1B, rhs := colT2B },
       { FuncName := ast.EQ, lhs := colT1C, rhs := colT2C }]
    schema := { Columns := [colT1A, colT1B, colT1C, colT2A, colT2B, colT2C] }
    child0 := { Stats := { RowCount := 10 }, Schema := { Columns := [colT1A, colT1B, colT1C] } }
    child1 := { Stats := { RowCount := 5 }, Schema := { Columns := [colT2A, colT2B, colT2C] } } }

/-- Sample required property that asks for the order of `t1.b, t1.c, t1.a`. -/
def samplePropThreeKeys : PhysicalProperty :=
  { SortItems := [{ Col := colT1B, Desc := false }, { Col := colT1C, Desc := false },
      { Col := colT1A, Desc := false }] }

/-- The outer join keys of an index join listed in the order of their columns in the
inner index: position `j` holds the outer key `k` with `KeyOff2IdxOff[k] = j`. -/
def outerKeysInIndexOrder (join : PhysicalIndexJoin) : List Column :=
  (List.range join.KeyOff2IdxOff.length).filterMap
    (fun j => join.OuterJoinKeys[join.KeyOff2IdxOff.indexOf (j : Int)]?)

/-- The index merge join behind a plan, when it is one. -/
def PhysicalPlan.asIndexMergeJoin (pl : PhysicalPlan) : Option PhysicalIndexMergeJoin :=
  match pl with
  | PhysicalPlan.indexMergeJoin j => some j
  | _ => none

/-- The index merge joins `constructIndexMergeJoin` emits for the sample join with
three keys, the left child as the outer side, and an inner index that holds the
columns of the keys in the order `t2.c, t2.a, t2.b`. -/
def sampleThreeKeyMergeJoins : List PhysicalIndexMergeJoin :=
  ((constructIndexMergeJoin sampleEnv sampleThreeKeyJoin samplePropThreeKeys 0 sampleInnerTask
    none [1, 2, 0] none none).getD []).filterMap PhysicalPlan.asIndexMergeJoin

/-! ## The inner side of an index join -/

/-- Modelled from the spec: the bit `PreferTiFlash` of the storage-engine mask (package
hint is not among the sources); nothing below depends on which bit it is. -/
def PreferTiFlash : Nat := 1 <<< 1

/-- The arms of the type switch of `extractIndexJoinInnerChildPattern` for an operator
that is not a data source: the wrapper after the arm, `none` for `return nil`. -/
def visitInnerChild (env : Env) (child : InnerOp) (wrapper : indexJoinInnerChildWrapper) :
    Option indexJoinInnerChildWrapper :=
  match child with
  | InnerOp.projection _ | InnerOp.selection _ | InnerOp.aggregation _ =>
    if !env.vars.EnableINLJoinInnerMultiPattern then none
    else some { wrapper with zippedChildren := wrapper.zippedChildren ++ [child] }
  | InnerOp.unionScan _ =>
    some { wrapper with
      hasDitryWrite := true
      zippedChildren := wrapper.zippedChildren ++ [child] }
  | InnerOp.other _ => none

/-- The loop `childLoop` of `extractIndexJoinInnerChildPattern` from `curChild` on: the
wrapper when the loop ends, `none` for `return nil`. -/
def childLoop (env : Env) :
    LogicalTree → indexJoinInnerChildWrapper → Option indexJoinInnerChildWrapper
  | LogicalTree.dataSource child, wrapper => some { wrapper with ds := some child }
  | LogicalTree.unary child next, wrapper =>
    match visitInnerChild env child wrapper with
    | none => none
    | some wrapper2 => childLoop env next wrapper2
  | LogicalTree.nonUnary child, wrapper => visitInnerChild env child wrapper

/-- The last test of `extractIndexJoinInnerChildPattern`: nil when the wrapper holds no
data source or one that prefers TiFlash, the wrapper otherwise. -/
def wrapperOrNil (wrapper : indexJoinInnerChildWrapper) : Option indexJoinInnerChildWrapper :=
  match wrapper.ds with
  | none => none
  | some ds => if ds.PreferStoreType &&& PreferTiFlash != 0 then none else some wrapper

/-- Transcribes `extractIndexJoinInnerChildPattern`; the join is read for its session
only, which is `env`. `none` is the nil wrapper. -/
def extractIndexJoinInnerChildPattern (env : Env) (innerChild : LogicalTree) :
    Option indexJoinInnerChildWrapper :=
  match childLoop env innerChild {} with
  | none => none
  | some wrapper => wrapperOrNil wrapper

/-- The operator is a selection, a projection, an aggregation or a union scan. -/
def InnerOp.isWrappingKind : InnerOp → Bool
  | InnerOp.other _ => false
  | _ => true

/-- The operator is a union scan. -/
def InnerOp.isUnionScan : InnerOp → Bool
  | InnerOp.unionScan _ => true
  | _ => false

/-- The operator is an aggregation. -/
def InnerOp.isAggregation : InnerOp → Bool
  | InnerOp.aggregation _ => true
  | _ => false

/-- The reading of an inner child as a single-child chain of selections, projections,
aggregations and union scans that ends in a data source: the wrapping operators
top-down and the data source, `none` when the child is no such chain. -/
def innerChain : LogicalTree → Option (List InnerOp × DataSource)
  | LogicalTree.dataSource ds => some ([], ds)
  | LogicalTree.unary op child =>
    if op.isWrappingKind then
      match innerChain child with
      | none => none
      | some r => some (op :: r.1, r.2)
    else none
  | LogicalTree.nonUnary _ => none

/-- Modelled from the spec: `StatsInfo()` of a physical plan (package physicalop is
not among the sources): the statistics its `Init` recorded. -/
def PhysicalPlan.StatsInfo (env : Env) : PhysicalPlan → StatsInfo
  | PhysicalPlan.hashJoin j => j.stats
  | PhysicalPlan.mergeJoin j => j.stats
  | PhysicalPlan.indexJoin j => j.stats
  | PhysicalPlan.indexHashJoin j => j.PhysicalIndexJoin.stats
  | PhysicalPlan.indexMergeJoin j => j.PhysicalIndexJoin.stats
  | PhysicalPlan.other id => env.OtherPlanStats id
  | PhysicalPlan.hashAgg a => a.stats
  | PhysicalPlan.selection x => x.stats
  | PhysicalPlan.projection x => x.stats
  | PhysicalPlan.limit x => x.stats
  | PhysicalPlan.topN x => x.stats
  | PhysicalPlan.sort x => x.stats
  | PhysicalPlan.nominalSort x => x.stats
  | PhysicalPlan.window x => x.stats
  | PhysicalPlan.unionAll x => x.stats
  | PhysicalPlan.unionScan x => x.stats

/-- Transcribes `constructInnerAgg` for a non-nil aggregation. -/
def constructInnerAgg (prop : PhysicalProperty) (logicalAgg : LogicalAggregation) :
    PhysicalPlan :=
  PhysicalPlan.hashAgg
    { NewPhysicalHashAgg logicalAgg logicalAgg.stats prop with schema := logicalAgg.schema }

/-- Transcribes `constructInnerSel` for a non-nil selection. -/
def constructInnerSel (prop : PhysicalProperty) (sel : LogicalSelection) : PhysicalPlan :=
  PhysicalPlan.selection
    { Conditions := sel.Conditions, stats := sel.stats, childrenReqProps := [prop] }

/-- Transcribes `constructInnerProj` for a non-nil projection. -/
def constructInnerProj (prop : PhysicalProperty) (proj : LogicalProjection) : PhysicalPlan :=
  PhysicalPlan.projection
    { Exprs := proj.Exprs, CalculateNoDelay := proj.CalculateNoDelay, stats := proj.stats,
      childrenReqProps := [prop], schema := proj.schema }

/-- Transcribes `constructInnerUnionScan` for a non-nil union scan. -/
def constructInnerUnionScan (env : Env) (prop : PhysicalProperty) (us : LogicalUnionScan)
    (childPlan : PhysicalPlan) : PhysicalPlan :=
  PhysicalPlan.unionScan
    { Conditions := us.Conditions, HandleCols := us.HandleCols,
      stats := childPlan.StatsInfo env, childrenReqProps := [prop] }

/-- The loop of `constructIndexJoinInnerSideTask` over the zipped children it has yet
to visit, bottom-most first; `none` is the nil task. -/
def innerSideTaskLoop (env : Env) (prop : PhysicalProperty) (skipAgg : Bool) :
    List InnerOp → Task → Option Task
  | [], curTask => some curTask
  | x :: rest, curTask =>
    match x with
    | InnerOp.unionScan us =>
      let curTask2 := env.Attach2Task (constructInnerUnionScan env prop us curTask.plan) curTask
      if curTask2.invalid then none else innerSideTaskLoop env prop skipAgg rest curTask2
    | InnerOp.projection proj =>
      let curTask2 := env.Attach2Task (constructInnerProj prop proj) curTask
      if curTask2.invalid then none else innerSideTaskLoop env prop skipAgg rest curTask2
    | InnerOp.selection sel =>
      let curTask2 := env.Attach2Task (constructInnerSel prop sel) curTask
      if curTask2.invalid then none else innerSideTaskLoop env prop skipAgg rest curTask2
    | InnerOp.aggregation la =>
      if skipAgg then innerSideTaskLoop env prop skipAgg rest curTask
      else
        let curTask2 := env.Attach2Task (constructInnerAgg prop la) curTask
        if curTask2.invalid then none else innerSideTaskLoop env prop skipAgg rest curTask2
    | InnerOp.other _ =>
      if curTask.invalid then none else innerSideTaskLoop env prop skipAgg rest curTask

/-- Transcribes `constructIndexJoinInnerSideTask`: the loop runs from the last zipped
child to the first. `none` is the nil task. -/
def constructIndexJoinInnerSideTask (env : Env) (curTask : Task) (prop : PhysicalProperty)
    (zippedChildren : List InnerOp) (skipAgg : Bool) : Option Task :=
  innerSideTaskLoop env prop skipAgg zippedChildren.reverse curTask

/-- Modelled from the spec: `base.InvalidTask` (package base is not among the sources):
a root task without a plan, for which `Invalid()` answers true; the plan is a
placeholder. -/
def InvalidTask : Task :=
  { kind := TaskKind.RootTask, invalid := true, plan := PhysicalPlan.other 0 }

/-- The flag `canPushAggToCop` of `constructIndexJoinInnerSideTaskWithAggCheck` when
the function reaches its first test. -/
def canPushAggToCop (env : Env) (zippedChildren : List InnerOp) : Bool :=
  match zippedChildren.getLast? with
  | some (InnerOp.aggregation la) =>
    if la.HasDistinct && !env.vars.AllowDistinctAggPushDown then false else true
  | _ => false

/-- Transcribes `constructIndexJoinInnerSideTaskWithAggCheck`; the construction of the
stream or hash aggregation over the coprocessor task is `env.buildInnerAggTask`.
`none` is the nil task. -/
def constructIndexJoinInnerSideTaskWithAggCheck (env : Env) (p : LogicalJoin)
    (prop : PhysicalProperty) (dsCopTask : Task) (ds : DataSource) (path : Option AccessPath)
    (wrapper : indexJoinInnerChildWrapper) : Option Task :=
  if !canPushAggToCop env wrapper.zippedChildren then
    let result := env.ConvertToRootTask dsCopTask
    constructIndexJoinInnerSideTask env result prop wrapper.zippedChildren false
  else
    let numAgg := (wrapper.zippedChildren.filter InnerOp.isAggregation).length
    if numAgg > 1 then some InvalidTask
    else
      match wrapper.zippedChildren.getLast? with
      | some (InnerOp.aggregation la) =>
        let aggTask := env.buildInnerAggTask p prop dsCopTask ds path la
        if aggTask.kind = TaskKind.RootTask then
          constructIndexJoinInnerSideTask env aggTask prop wrapper.zippedChildren true
        else none
      | _ => none

/-- Sample data source that reads TiKV. -/
def sampleDataSource : DataSource := { PushedDownConds := [] }

/-- Sample inner child: a union scan over the sample data source. -/
def sampleUnionScanTree : LogicalTree :=
  LogicalTree.unary (InnerOp.unionScan { Conditions := [], HandleCols := none })
    (LogicalTree.dataSource sampleDataSource)

/-- Sample inner child: a selection over the sample data source. -/
def sampleSelectionTree : LogicalTree :=
  LogicalTree.unary (InnerOp.selection sampleSelection) (LogicalTree.dataSource sampleDataSource)

/-- Sample environment in which `EnableINLJoinInnerMultiPattern` is on. -/
def sampleEnvMultiPattern : Env :=
  { sampleEnv with vars := { sampleEnv.vars with EnableINLJoinInnerMultiPattern := true } }

/-- Sample coprocessor task over the data source. -/
def sampleCopTask : Task :=
  { kind := TaskKind.CopTask, invalid := false, plan := PhysicalPlan.other 7 }

/-- Sample inner pattern with two aggregations over a selection: the bottom-most
operator is the selection. -/
def sampleWrapperAggAggSel : indexJoinInnerChildWrapper :=
  { ds := some sampleDataSource
    zippedChildren :=
      [InnerOp.aggregation (sampleAgg AggFunctionMode.CompleteMode 0),
       InnerOp.aggregation (sampleAgg AggFunctionMode.CompleteMode 0),
       InnerOp.selection sampleSelection] }

/-- Sample inner pattern with an aggregation over an aggregation: the bottom-most
operator is an aggregation. -/
def sampleWrapperAggAgg : indexJoinInnerChildWrapper :=
  { ds := some sampleDataSource
    zippedChildren :=
      [InnerOp.aggregation (sampleAgg AggFunctionMode.CompleteMode 0),
       InnerOp.aggregation (sampleAgg AggFunctionMode.CompleteMode 0)] }

/-! # Theorems -/

/-! ## Hint-mask arithmetic -/

theorem land_bit_pos (x k : Nat) : decide (x &&& (1 <<< k) > 0) = x.testBit k := by
  rw [Nat.one_shiftLeft, Nat.and_two_pow]
  cases x.testBit k <;> simp

theorem testBit_clearBits (x m k : Nat) :
    (clearBits x m).testBit k = (x.testBit k && !m.testBit k) := by
  unfold clearBits
  rw [Nat.testBit_xor, Nat.testBit_and]
  cases x.testBit k <;> cases m.testBit k <;> rfl

theorem clearBits_bit_of_not_mem (x m k : Nat) (h : m.testBit k = false) :
    decide (clearBits x m &&& (1 <<< k) > 0) = decide (x &&& (1 <<< k) > 0) := by
  rw [land_bit_pos, land_bit_pos, testBit_clearBits, h]
  simp

theorem clearBits_bit_of_mem (x m k : Nat) (h : m.testBit k = true) :
    decide (clearBits x m &&& (1 <<< k) > 0) = false := by
  rw [land_bit_pos, testBit_clearBits, h]
  simp

/-! ## Hash-join enumeration -/

theorem getHashJoin_withPreferJoinType (env : Env) (super : LogicalPlan) (m : Nat)
    (prop : PhysicalProperty) (i : Nat) (b : Bool) :
    getHashJoin env (getGEAndLogicalJoin (super.withPreferJoinType m)).1
        (getGEAndLogicalJoin (super.withPreferJoinType m)).2 prop i b
      = getHashJoin env (getGEAndLogicalJoin super).1 (getGEAndLogicalJoin super).2 prop i b := by
  cases super <;> rfl

theorem getHashJoinsSwitch_withPreferJoinType (env : Env) (super : LogicalPlan) (m : Nat)
    (prop : PhysicalProperty) (l r : Bool) :
    getHashJoinsSwitch env (getGEAndLogicalJoin (super.withPreferJoinType m)).1
        (getGEAndLogicalJoin (super.withPreferJoinType m)).2 prop l r
      = getHashJoinsSwitch env (getGEAndLogicalJoin super).1 (getGEAndLogicalJoin super).2
          prop l r := by
  have hg := getHashJoin_withPreferJoinType env super m prop
  have hj : (getGEAndLogicalJoin (super.withPreferJoinType m)).2.JoinType
      = (getGEAndLogicalJoin super).2.JoinType := by cases super <;> rfl
  have hk : (getGEAndLogicalJoin (super.withPreferJoinType m)).2.GetJoinKeys
      = (getGEAndLogicalJoin super).2.GetJoinKeys := by cases super <;> rfl
  have hn : (getGEAndLogicalJoin (super.withPreferJoinType m)).2.GetNAJoinKeys
      = (getGEAndLogicalJoin super).2.GetNAJoinKeys := by cases super <;> rfl
  unfold getHashJoinsSwitch
  simp only [hg, hj, hk, hn]

theorem preferJoinType_withPreferJoinType (super : LogicalPlan) (m : Nat) :
    (getGEAndLogicalJoin (super.withPreferJoinType m)).2.PreferJoinType = m := by
  cases super <;> rfl

/-- C3: when a build-left force and a build-right force are both set, `getHashJoins`
appends the conflicting-hints warning first and then returns the candidates, the
forced flag and the remaining warnings that it returns for the same join with the four
build/probe hint bits cleared. -/
theorem getHashJoins_conflict_neutralized (env : Env) (super : LogicalPlan)
    (prop : PhysicalProperty)
    (hsort : prop.SortItems = [])
    (hl : forcesLeftToBuild (getGEAndLogicalJoin super).2 = true)
    (hr : forcesRightToBuild (getGEAndLogicalJoin super).2 = true) :
    (getHashJoins env super prop).2.2
        = conflictingHJBuildProbeWarning ::
          (getHashJoins env (super.withPreferJoinType
            (clearBits (getGEAndLogicalJoin super).2.PreferJoinType hashJoinBuildProbeMask))
            prop).2.2
      ∧ (getHashJoins env super prop).1
        = (getHashJoins env (super.withPreferJoinType
            (clearBits (getGEAndLogicalJoin super).2.PreferJoinType hashJoinBuildProbeMask))
            prop).1
      ∧ (getHashJoins env super prop).2.1
        = (getHashJoins env (super.withPreferJoinType
            (clearBits (getGEAndLogicalJoin super).2.PreferJoinType hashJoinBuildProbeMask))
            prop).2.1 := by
  have hempty : prop.IsSortItemEmpty = true := by
    simp [PhysicalProperty.IsSortItemEmpty, hsort]
  have hl0 : (decide ((getGEAndLogicalJoin super).2.PreferJoinType &&& PreferLeftAsHJBuild > 0)
      || decide ((getGEAndLogicalJoin super).2.PreferJoinType &&& PreferRightAsHJProbe > 0))
      = true := hl
  have hr0 : (decide ((getGEAndLogicalJoin super).2.PreferJoinType &&& PreferRightAsHJBuild > 0)
      || decide ((getGEAndLogicalJoin super).2.PreferJoinType &&& PreferLeftAsHJProbe > 0))
      = true := hr
  have c1 := clearBits_bit_of_mem (getGEAndLogicalJoin super).2.PreferJoinType
    hashJoinBuildProbeMask 14 (by decide)
  have c2 := clearBits_bit_of_mem (getGEAndLogicalJoin super).2.PreferJoinType
    hashJoinBuildProbeMask 15 (by decide)
  have c3 := clearBits_bit_of_mem (getGEAndLogicalJoin super).2.PreferJoinType
    hashJoinBuildProbeMask 16 (by decide)
  have c4 := clearBits_bit_of_mem (getGEAndLogicalJoin super).2.PreferJoinType
    hashJoinBuildProbeMask 17 (by decide)
  have c5 := clearBits_bit_of_not_mem (getGEAndLogicalJoin super).2.PreferJoinType
    hashJoinBuildProbeMask 0 (by decide)
  have c6 := clearBits_bit_of_not_mem (getGEAndLogicalJoin super).2.PreferJoinType
    hashJoinBuildProbeMask 1 (by decide)
  have hskip : ShouldSkipHashJoin env (getGEAndLogicalJoin (super.withPreferJoinType
      (clearBits (getGEAndLogicalJoin super).2.PreferJoinType hashJoinBuildProbeMask))).2
      = ShouldSkipHashJoin env (getGEAndLogicalJoin super).2 := by
    unfold ShouldSkipHashJoin
    rw [preferJoinType_withPreferJoinType]
    unfold PreferNoHashJoin
    rw [c6]
  unfold getHashJoins
  simp only [hempty, hl0, hr0, hskip, getHashJoinsSwitch_withPreferJoinType,
    preferJoinType_withPreferJoinType]
  unfold PreferLeftAsHJBuild PreferRightAsHJBuild PreferLeftAsHJProbe PreferRightAsHJProbe
    PreferHashJoin
  simp only [c1, c2, c3, c4, c5]
  simp only [Bool.not_true, Bool.and_self, Bool.or_self, Bool.false_eq_true, if_true, if_false,
    Bool.and_true, Bool.or_false, Bool.and_false]
  split_ifs <;> simp

/-- C4: for an inner, left outer or right outer join and a property without sort
items, when exactly one build side is forced by hint, `getHashJoins` returns
`forced = true` and exactly one hash-join candidate, and that candidate builds on the
hinted child (child 0 for a build-left force, child 1 for a build-right force). -/
theorem getHashJoins_single_build_hint (env : Env) (super : LogicalPlan)
    (prop : PhysicalProperty)
    (hsort : prop.SortItems = [])
    (hjt : (getGEAndLogicalJoin super).2.JoinType = JoinType.InnerJoin
      ∨ (getGEAndLogicalJoin super).2.JoinType = JoinType.LeftOuterJoin
      ∨ (getGEAndLogicalJoin super).2.JoinType = JoinType.RightOuterJoin)
    (hone : forcesLeftToBuild (getGEAndLogicalJoin super).2
      ≠ forcesRightToBuild (getGEAndLogicalJoin super).2) :
    ∃ j : PhysicalHashJoin,
      (getHashJoins env super prop).1 = [PhysicalPlan.hashJoin j]
      ∧ (getHashJoins env super prop).2.1 = true
      ∧ j.buildChildIdx
        = (if forcesLeftToBuild (getGEAndLogicalJoin super).2 = true then 0 else 1) := by
  have hempty : prop.IsSortItemEmpty = true := by
    simp [PhysicalProperty.IsSortItemEmpty, hsort]
  unfold forcesLeftToBuild forcesRightToBuild at hone
  unfold getHashJoins forcesLeftToBuild
  simp only [hempty]
  generalize (decide ((getGEAndLogicalJoin super).2.PreferJoinType &&& PreferLeftAsHJBuild > 0)
      || decide ((getGEAndLogicalJoin super).2.PreferJoinType &&& PreferRightAsHJProbe > 0))
      = fl at hone ⊢
  generalize (decide ((getGEAndLogicalJoin super).2.PreferJoinType &&& PreferRightAsHJBuild > 0)
      || decide ((getGEAndLogicalJoin super).2.PreferJoinType &&& PreferLeftAsHJProbe > 0))
      = fr at hone ⊢
  generalize decide ((getGEAndLogicalJoin super).2.PreferJoinType &&& PreferHashJoin > 0) = fh
  generalize ShouldSkipHashJoin env (getGEAndLogicalJoin super).2 = sk
  unfold getHashJoinsSwitch
  rcases hjt with h | h | h <;> rw [h] <;>
    cases fl <;> cases fr <;> first
      | exact absurd rfl hone
      | (cases fh <;> cases sk <;>
          simp [PhysicalHashJoin.buildChildIdx, getHashJoin, NewPhysicalHashJoin])

/-! ## The join enumerator -/

theorem preferAny_of_zero (p : LogicalJoin) (h : p.PreferJoinType = 0) (flags : List Nat) :
    p.PreferAny flags = false := by
  unfold LogicalJoin.PreferAny
  simp [h]

theorem getHashJoinsSwitch_flags_false (env : Env) (ge : Option GroupExpression)
    (p : LogicalJoin) (prop : PhysicalProperty) :
    (getHashJoinsSwitch env ge p prop false false).2.1 = false
      ∧ (getHashJoinsSwitch env ge p prop false false).2.2.1 = false := by
  unfold getHashJoinsSwitch
  cases p.JoinType <;> simp <;> split_ifs <;> simp

theorem getHashJoins_forced_of_zero (env : Env) (super : LogicalPlan) (prop : PhysicalProperty)
    (h : (getGEAndLogicalJoin super).2.PreferJoinType = 0) :
    (getHashJoins env super prop).2.1 = false := by
  have hf := getHashJoinsSwitch_flags_false env (getGEAndLogicalJoin super).1
    (getGEAndLogicalJoin super).2 prop
  unfold getHashJoins
  simp only [h, Nat.zero_and, gt_iff_lt, lt_self_iff_false, decide_False, Bool.or_self,
    Bool.and_self, Bool.false_eq_true, if_false, hf.1, hf.2]
  split_ifs <;> simp

/-- C1, amended: for a logical join with no join hint and a required property that is
neither an MPP/TiFlash property nor broadcast-partitioned,
`exhaustPhysicalPlans4LogicalJoin` returns the MPP hash joins it enumerated, then (for
a join that is not null-aware) the merge-join and index-join-family candidates, then
the hash-join candidates, with the flag true and a nil error. -/
theorem exhaustPhysicalPlans4LogicalJoin_no_hint (env : Env) (super : LogicalPlan)
    (prop : PhysicalProperty)
    (h0 : (getGEAndLogicalJoin super).2.PreferJoinType = 0)
    (hflash : prop.IsFlashProp = false)
    (hbc : prop.MPPPartitionTp ≠ MPPPartitionType.BroadcastType) :
    (exhaustPhysicalPlans4LogicalJoin env super prop).1
        = (exhaustMppJoins env super prop).1
          ++ (if (getGEAndLogicalJoin super).2.IsNAAJ then []
              else enumeratedMergeJoins env super prop ++ enumeratedIndexJoins env super prop)
          ++ (getHashJoins env super prop).1
      ∧ (exhaustPhysicalPlans4LogicalJoin env super prop).2.1 = true
      ∧ (exhaustPhysicalPlans4LogicalJoin env super prop).2.2.1 = none := by
  have hh : hasMPPJoinHints (getGEAndLogicalJoin super).2.PreferJoinType = false := by
    simp [hasMPPJoinHints, h0]
  have hforced := getHashJoins_forced_of_zero env super prop h0
  have hpa := preferAny_of_zero (getGEAndLogicalJoin super).2 h0
  have hbc2 : (prop.MPPPartitionTp == MPPPartitionType.BroadcastType) = false := by
    simpa using hbc
  have hij : (tryToGetIndexJoin env (getGEAndLogicalJoin super).2 prop).2.1 = false := by
    unfold tryToGetIndexJoin handleForceIndexJoinHints
    simp [hpa]
  unfold exhaustPhysicalPlans4LogicalJoin
  simp only [hh, hflash, hbc2, Bool.and_false, Bool.false_eq_true, if_false]
  unfold exhaustRootJoins exhaustMergeAndIndexJoins enumeratedMergeJoins enumeratedIndexJoins
  simp only [h0, Nat.zero_and, gt_iff_lt, lt_self_iff_false, decide_False, Bool.false_and,
    Bool.false_eq_true, if_false, hij, hforced]
  cases hn : (getGEAndLogicalJoin super).2.IsNAAJ <;> cases hv : env.vars.EnhanceIndexJoinBuildV2 <;>
    simp

/-- C1, witness of the amended statement on the sample inner join without hints. -/
theorem exhaustPhysicalPlans4LogicalJoin_no_hint_witness :
    (getGEAndLogicalJoin (LogicalPlan.join (sampleJoin JoinType.InnerJoin 0))).2.PreferJoinType = 0
      ∧ sampleProp.IsFlashProp = false
      ∧ sampleProp.MPPPartitionTp ≠ MPPPartitionType.BroadcastType
      ∧ ((exhaustPhysicalPlans4LogicalJoin sampleEnv
            (LogicalPlan.join (sampleJoin JoinType.InnerJoin 0)) sampleProp).1
          = (exhaustMppJoins sampleEnv (LogicalPlan.join (sampleJoin JoinType.InnerJoin 0))
              sampleProp).1
            ++ (if (getGEAndLogicalJoin
                  (LogicalPlan.join (sampleJoin JoinType.InnerJoin 0))).2.IsNAAJ then []
                else enumeratedMergeJoins sampleEnv
                    (LogicalPlan.join (sampleJoin JoinType.InnerJoin 0)) sampleProp
                  ++ enumeratedIndexJoins sampleEnv
                    (LogicalPlan.join (sampleJoin JoinType.InnerJoin 0)) sampleProp)
            ++ (getHashJoins sampleEnv (LogicalPlan.join (sampleJoin JoinType.InnerJoin 0))
                sampleProp).1
        ∧ (exhaustPhysicalPlans4LogicalJoin sampleEnv
            (LogicalPlan.join (sampleJoin JoinType.InnerJoin 0)) sampleProp).2.1 = true
        ∧ (exhaustPhysicalPlans4LogicalJoin sampleEnv
            (LogicalPlan.join (sampleJoin JoinType.InnerJoin 0)) sampleProp).2.2.1 = none) :=
  ⟨rfl, rfl, by decide,
    exhaustPhysicalPlans4LogicalJoin_no_hint sampleEnv
      (LogicalPlan.join (sampleJoin JoinType.InnerJoin 0)) sampleProp rfl rfl (by decide)⟩

/-- C1, counterexample to the claim as stated: the sample inner join carries no join
hint, the sample property is neither a flash property nor broadcast-partitioned, and
`exhaustPhysicalPlans4LogicalJoin` returns the flag true, not false. -/
theorem exhaustPhysicalPlans4LogicalJoin_no_hint_flag_counterexample :
    (sampleJoin JoinType.InnerJoin 0).PreferJoinType = 0
      ∧ sampleProp.IsFlashProp = false
      ∧ sampleProp.MPPPartitionTp ≠ MPPPartitionType.BroadcastType
      ∧ ¬ ((exhaustPhysicalPlans4LogicalJoin sampleEnv
            (LogicalPlan.join (sampleJoin JoinType.InnerJoin 0)) sampleProp).2.1 = false) := by
  decide

/-- C2: for a join that is not null-aware, with the merge-join hint set and no MPP join
hint, and a property that is neither a flash property nor broadcast-partitioned: if
`GetMergeJoin` yields at least one candidate, `exhaustPhysicalPlans4LogicalJoin`
returns exactly that merge-join list, with the flag true and a nil error. -/
theorem exhaustPhysicalPlans4LogicalJoin_forced_merge (env : Env) (super : LogicalPlan)
    (prop : PhysicalProperty)
    (hnaaj : (getGEAndLogicalJoin super).2.IsNAAJ = false)
    (hmerge : (getGEAndLogicalJoin super).2.PreferJoinType &&& PreferMergeJoin > 0)
    (hmpp : hasMPPJoinHints (getGEAndLogicalJoin super).2.PreferJoinType = false)
    (hflash : prop.IsFlashProp = false)
    (hbc : prop.MPPPartitionTp ≠ MPPPartitionType.BroadcastType)
    (hne : enumeratedMergeJoins env super prop ≠ []) :
    (exhaustPhysicalPlans4LogicalJoin env super prop).1 = enumeratedMergeJoins env super prop
      ∧ (exhaustPhysicalPlans4LogicalJoin env super prop).2.1 = true
      ∧ (exhaustPhysicalPlans4LogicalJoin env super prop).2.2.1 = none := by
  have hbc2 : (prop.MPPPartitionTp == MPPPartitionType.BroadcastType) = false := by
    simpa using hbc
  have hlen : decide ((enumeratedMergeJoins env super prop).length > 0) = true := by
    simpa [List.length_pos] using hne
  have hm : decide ((getGEAndLogicalJoin super).2.PreferJoinType &&& PreferMergeJoin > 0)
      = true := by simpa using hmerge
  unfold enumeratedMergeJoins at hlen
  unfold exhaustPhysicalPlans4LogicalJoin
  simp only [hmpp, hflash, hbc2, Bool.and_false, Bool.false_eq_true, if_false]
  unfold exhaustRootJoins exhaustMergeAndIndexJoins enumeratedMergeJoins
  simp only [hnaaj, hm, hlen, Bool.not_false, Bool.and_self, if_true]
  simp

/-- C2, witness: the sample inner join with the merge-join hint, in an environment
where `GetMergeJoin` finds one merge join. -/
theorem exhaustPhysicalPlans4LogicalJoin_forced_merge_witness :
    (exhaustPhysicalPlans4LogicalJoin sampleEnvMerge
        (LogicalPlan.join (sampleJoin JoinType.InnerJoin PreferMergeJoin)) sampleProp).1
        = enumeratedMergeJoins sampleEnvMerge
          (LogicalPlan.join (sampleJoin JoinType.InnerJoin PreferMergeJoin)) sampleProp
      ∧ (exhaustPhysicalPlans4LogicalJoin sampleEnvMerge
        (LogicalPlan.join (sampleJoin JoinType.InnerJoin PreferMergeJoin)) sampleProp).2.1 = true
      ∧ (exhaustPhysicalPlans4LogicalJoin sampleEnvMerge
        (LogicalPlan.join (sampleJoin JoinType.InnerJoin PreferMergeJoin)) sampleProp).2.2.1
        = none :=
  exhaustPhysicalPlans4LogicalJoin_forced_merge sampleEnvMerge
    (LogicalPlan.join (sampleJoin JoinType.InnerJoin PreferMergeJoin)) sampleProp
    (by decide) (by decide) (by decide) (by decide) (by decide)
    (by simp [enumeratedMergeJoins, sampleEnvMerge])

/-- C3, witness: the sample inner join with HASH_JOIN_BUILD on both sides. -/
theorem getHashJoins_conflict_neutralized_witness :
    (getHashJoins sampleEnv
        (LogicalPlan.join (sampleJoin JoinType.InnerJoin
          (PreferLeftAsHJBuild ||| PreferRightAsHJBuild))) sampleProp).2.2
        = conflictingHJBuildProbeWarning ::
          (getHashJoins sampleEnv ((LogicalPlan.join (sampleJoin JoinType.InnerJoin
              (PreferLeftAsHJBuild ||| PreferRightAsHJBuild))).withPreferJoinType
            (clearBits (getGEAndLogicalJoin (LogicalPlan.join (sampleJoin JoinType.InnerJoin
              (PreferLeftAsHJBuild ||| PreferRightAsHJBuild)))).2.PreferJoinType
              hashJoinBuildProbeMask)) sampleProp).2.2
      ∧ (getHashJoins sampleEnv
        (LogicalPlan.join (sampleJoin JoinType.InnerJoin
          (PreferLeftAsHJBuild ||| PreferRightAsHJBuild))) sampleProp).1
        = (getHashJoins sampleEnv ((LogicalPlan.join (sampleJoin JoinType.InnerJoin
              (PreferLeftAsHJBuild ||| PreferRightAsHJBuild))).withPreferJoinType
            (clearBits (getGEAndLogicalJoin (LogicalPlan.join (sampleJoin JoinType.InnerJoin
              (PreferLeftAsHJBuild ||| PreferRightAsHJBuild)))).2.PreferJoinType
              hashJoinBuildProbeMask)) sampleProp).1
      ∧ (getHashJoins sampleEnv
        (LogicalPlan.join (sampleJoin JoinType.InnerJoin
          (PreferLeftAsHJBuild ||| PreferRightAsHJBuild))) sampleProp).2.1
        = (getHashJoins sampleEnv ((LogicalPlan.join (sampleJoin JoinType.InnerJoin
              (PreferLeftAsHJBuild ||| PreferRightAsHJBuild))).withPreferJoinType
            (clearBits (getGEAndLogicalJoin (LogicalPlan.join (sampleJoin JoinType.InnerJoin
              (PreferLeftAsHJBuild ||| PreferRightAsHJBuild)))).2.PreferJoinType
              hashJoinBuildProbeMask)) sampleProp).2.1 :=
  getHashJoins_conflict_neutralized sampleEnv
    (LogicalPlan.join (sampleJoin JoinType.InnerJoin
      (PreferLeftAsHJBuild ||| PreferRightAsHJBuild))) sampleProp rfl (by decide) (by decide)

/-- C4, witness: the sample left outer join with HASH_JOIN_BUILD on the left; the
single candidate has inner child 1 and builds on the outer child 0. -/
theorem getHashJoins_single_build_hint_witness :
    ∃ j : PhysicalHashJoin,
      (getHashJoins sampleEnv
          (LogicalPlan.join (sampleJoin JoinType.LeftOuterJoin PreferLeftAsHJBuild))
          sampleProp).1 = [PhysicalPlan.hashJoin j]
      ∧ (getHashJoins sampleEnv
          (LogicalPlan.join (sampleJoin JoinType.LeftOuterJoin PreferLeftAsHJBuild))
          sampleProp).2.1 = true
      ∧ j.buildChildIdx
        = (if forcesLeftToBuild (getGEAndLogicalJoin
            (LogicalPlan.join (sampleJoin JoinType.LeftOuterJoin PreferLeftAsHJBuild))).2 = true
          then 0 else 1) :=
  getHashJoins_single_build_hint sampleEnv
    (LogicalPlan.join (sampleJoin JoinType.LeftOuterJoin PreferLeftAsHJBuild)) sampleProp
    rfl (by decide) (by decide)

/-! ## Index-join hints -/

theorem matchesINLJHint_satisfiesForceHints (p : LogicalJoin) (c : PhysicalPlan)
    (h : matchesINLJHint p c = true) : satisfiesForceHints p c = true := by
  unfold matchesINLJHint at h
  unfold satisfiesForceHints matchesForceIndexJoinHint
  simp only [Bool.and_eq_true, Bool.or_eq_true, beq_iff_eq] at h
  obtain ⟨⟨hok, hm⟩, hside⟩ := h
  simp only [hok, hm, Bool.not_true, Bool.false_eq_true, if_false]
  rcases hside with ⟨hp, hs⟩ | ⟨hp, hs⟩ <;> simp [hp, hs]

theorem preferAny_force_of_inlj (p : LogicalJoin)
    (h : p.PreferAny [PreferLeftAsINLJInner, PreferRightAsINLJInner] = true) :
    p.PreferAny forceIndexJoinFlags = true := by
  unfold LogicalJoin.PreferAny forceIndexJoinFlags at *
  simp only [List.any_cons, List.any_nil, Bool.or_false, Bool.or_eq_true] at h ⊢
  rcases h with h | h <;> simp [h]

/-- C5: when an INL_JOIN force hint and NO_INDEX_JOIN are both set, `tryToGetIndexJoin`
records the conflict warning; and whenever some enumerated candidate is an index join
whose inner side is the hinted side, it returns exactly the candidates that satisfy the
force hints, with `canForced = true`, every such hinted index join among them. -/
theorem tryToGetIndexJoin_force_beats_filter (env : Env) (p : LogicalJoin)
    (prop : PhysicalProperty)
    (hforce : p.PreferAny [PreferLeftAsINLJInner, PreferRightAsINLJInner] = true)
    (hno : p.PreferAny [PreferNoIndexJoin] = true) :
    inljConflictWarning ∈ (tryToGetIndexJoin env p prop).2.2
      ∧ ((∃ c ∈ getIndexJoinCandidates env p prop, matchesINLJHint p c = true) →
          (tryToGetIndexJoin env p prop).1
              = (getIndexJoinCandidates env p prop).filter (satisfiesForceHints p)
            ∧ (tryToGetIndexJoin env p prop).2.1 = true
            ∧ ∀ c ∈ getIndexJoinCandidates env p prop, matchesINLJHint p c = true →
                c ∈ (tryToGetIndexJoin env p prop).1) := by
  have hany := preferAny_force_of_inlj p hforce
  constructor
  · unfold tryToGetIndexJoin indexJoinConflictWarnings
    simp only [hforce, hno, Bool.and_self, if_true]
    split_ifs <;> simp
  · rintro ⟨c, hc, hm⟩
    have hmem : c ∈ (getIndexJoinCandidates env p prop).filter (satisfiesForceHints p) :=
      List.mem_filter.mpr ⟨hc, matchesINLJHint_satisfiesForceHints p c hm⟩
    have hlen : decide (((getIndexJoinCandidates env p prop).filter
        (satisfiesForceHints p)).length > 0) = true := by
      simpa using List.length_pos_of_mem hmem
    have hr : handleForceIndexJoinHints env p prop (getIndexJoinCandidates env p prop)
        = ((getIndexJoinCandidates env p prop).filter (satisfiesForceHints p), true, []) := by
      unfold handleForceIndexJoinHints
      simp only [hany, Bool.not_true, Bool.false_eq_true, if_false]
      simp only [decide_eq_true_eq] at hlen
      simp only [hlen, if_true]
    unfold tryToGetIndexJoin
    simp only [hr, if_true]
    refine ⟨trivial, trivial, ?_⟩
    intro d hd hdm
    exact List.mem_filter.mpr ⟨hd, matchesINLJHint_satisfiesForceHints p d hdm⟩

/-- C5, witness: the sample inner join with INL_JOIN on the right table and
NO_INDEX_JOIN, where one index join with the right child as inner side is enumerated. -/
theorem tryToGetIndexJoin_force_beats_filter_witness :
    inljConflictWarning ∈ (tryToGetIndexJoin sampleEnvIndexJoin
        (sampleJoin JoinType.InnerJoin (PreferRightAsINLJInner ||| PreferNoIndexJoin))
        sampleProp).2.2
      ∧ (tryToGetIndexJoin sampleEnvIndexJoin
        (sampleJoin JoinType.InnerJoin (PreferRightAsINLJInner ||| PreferNoIndexJoin))
        sampleProp).2.1 = true
      ∧ sampleIndexJoinInnerRight ∈ (tryToGetIndexJoin sampleEnvIndexJoin
        (sampleJoin JoinType.InnerJoin (PreferRightAsINLJInner ||| PreferNoIndexJoin))
        sampleProp).1 :=
  have h := tryToGetIndexJoin_force_beats_filter sampleEnvIndexJoin
    (sampleJoin JoinType.InnerJoin (PreferRightAsINLJInner ||| PreferNoIndexJoin)) sampleProp
    (by decide) (by decide)
  have hc : sampleIndexJoinInnerRight ∈ getIndexJoinCandidates sampleEnvIndexJoin
      (sampleJoin JoinType.InnerJoin (PreferRightAsINLJInner ||| PreferNoIndexJoin))
      sampleProp := by
    simp [getIndexJoinCandidates, sampleEnvIndexJoin, supportOuterSides, sampleJoin]
  have hm : matchesINLJHint
      (sampleJoin JoinType.InnerJoin (PreferRightAsINLJInner ||| PreferNoIndexJoin))
      sampleIndexJoinInnerRight = true := by decide
  ⟨h.1, (h.2 ⟨_, hc, hm⟩).2.1, (h.2 ⟨_, hc, hm⟩).2.2 _ hc hm⟩

theorem handleFilterIndexJoinHints_drops_index_join (p : LogicalJoin)
    (candidates : List PhysicalPlan) (hno : p.PreferAny [PreferNoIndexJoin] = true) :
    ∀ c ∈ handleFilterIndexJoinHints p candidates, matchesINLJHint p c = false := by
  intro c hc
  have hany : p.PreferAny [PreferNoIndexJoin, PreferNoIndexHashJoin, PreferNoIndexMergeJoin]
      = true := by
    unfold LogicalJoin.PreferAny at *
    simp only [List.any_cons, List.any_nil, Bool.or_false] at hno
    simp [hno]
  unfold handleFilterIndexJoinHints at hc
  simp only [hany, hno, Bool.not_true, Bool.false_eq_true, if_false, Bool.true_and] at hc
  have hk := (List.mem_filter.mp hc).2
  unfold matchesINLJHint
  show ((getIndexJoinSideAndMethod c).2.2 && (getIndexJoinSideAndMethod c).2.1 == indexJoinMethod
    && ((p.PreferAny [PreferLeftAsINLJInner] && (getIndexJoinSideAndMethod c).1 == joinLeft)
      || (p.PreferAny [PreferRightAsINLJInner] && (getIndexJoinSideAndMethod c).1 == joinRight)))
    = false
  cases hok : (getIndexJoinSideAndMethod c).2.2
  · rfl
  · cases hm : ((getIndexJoinSideAndMethod c).2.1 == indexJoinMethod)
    · rfl
    · rw [hok, hm] at hk
      simp at hk

/-- C6, the code at the failing input: for the sample inner join with INL_JOIN on the
right table and NO_INDEX_JOIN, `tryToEnumerateIndexJoin` enumerates two index joins
whose inner side is the hinted right child, records the conflict warning alone, and
returns a list from which both of them have been filtered out. -/
theorem tryToEnumerateIndexJoin_drops_forced_index_join :
    (sampleJoin JoinType.InnerJoin (PreferRightAsINLJInner ||| PreferNoIndexJoin)).PreferAny
        [PreferLeftAsINLJInner, PreferRightAsINLJInner] = true
      ∧ (sampleJoin JoinType.InnerJoin (PreferRightAsINLJInner ||| PreferNoIndexJoin)).PreferAny
        [PreferNoIndexJoin] = true
      ∧ ((enumerateIndexJoinCandidates sampleEnvV2
          (LogicalPlan.join
            (sampleJoin JoinType.InnerJoin (PreferRightAsINLJInner ||| PreferNoIndexJoin)))
          sampleProp).filter (matchesINLJHint
            (sampleJoin JoinType.InnerJoin
              (PreferRightAsINLJInner ||| PreferNoIndexJoin)))).length = 2
      ∧ ((tryToEnumerateIndexJoin sampleEnvV2
          (LogicalPlan.join
            (sampleJoin JoinType.InnerJoin (PreferRightAsINLJInner ||| PreferNoIndexJoin)))
          sampleProp).1.filter (matchesINLJHint
            (sampleJoin JoinType.InnerJoin
              (PreferRightAsINLJInner ||| PreferNoIndexJoin)))).length = 0
      ∧ (tryToEnumerateIndexJoin sampleEnvV2
          (LogicalPlan.join
            (sampleJoin JoinType.InnerJoin (PreferRightAsINLJInner ||| PreferNoIndexJoin)))
          sampleProp).2 = [inljConflictWarning] := by
  decide

theorem preferAny_force_split (p : LogicalJoin) :
    p.PreferAny forceIndexJoinFlags
      = (p.PreferAny [PreferLeftAsINLJInner, PreferRightAsINLJInner]
        || p.PreferAny [PreferLeftAsINLHJInner, PreferRightAsINLHJInner]
        || p.PreferAny [PreferLeftAsINLMJInner, PreferRightAsINLMJInner]) := by
  unfold LogicalJoin.PreferAny forceIndexJoinFlags
  simp only [List.any_cons, List.any_nil, Bool.or_false]
  generalize decide (p.PreferJoinType &&& PreferRightAsINLJInner > 0) = a
  generalize decide (p.PreferJoinType &&& PreferRightAsINLHJInner > 0) = b
  generalize decide (p.PreferJoinType &&& PreferRightAsINLMJInner > 0) = c
  generalize decide (p.PreferJoinType &&& PreferLeftAsINLJInner > 0) = d
  generalize decide (p.PreferJoinType &&& PreferLeftAsINLHJInner > 0) = e
  generalize decide (p.PreferJoinType &&& PreferLeftAsINLMJInner > 0) = f
  cases a <;> cases b <;> cases c <;> cases d <;> cases e <;> cases f <;> rfl

theorem forceHintInapplicableMsg_isSome (env : Env) (p : LogicalJoin) :
    (forceHintInapplicableMsg env p).isSome = p.PreferAny forceIndexJoinFlags := by
  rw [preferAny_force_split]
  unfold forceHintInapplicableMsg
  cases p.PreferAny [PreferLeftAsINLJInner, PreferRightAsINLJInner] <;>
    cases p.PreferAny [PreferLeftAsINLHJInner, PreferRightAsINLHJInner] <;>
    cases p.PreferAny [PreferLeftAsINLMJInner, PreferRightAsINLMJInner] <;> rfl

theorem forceHintInapplicableMsg_shape (env : Env) (p : LogicalJoin) (m : String)
    (h : forceHintInapplicableMsg env p = some m) :
    ∃ hint : String, m = "Optimizer Hint " ++ hint ++ " is inapplicable" := by
  unfold forceHintInapplicableMsg at h
  generalize hintedIndexJoinTables p = t at h
  dsimp only at h
  split_ifs at h
  · refine ⟨env.Restore2JoinHint HintINLJ t.INLJTables ++ " or " ++
      env.Restore2JoinHint TiDBIndexNestedLoopJoin t.INLJTables, ?_⟩
    rw [← Option.some.inj h]
    simp only [String.append_assoc]
  · exact ⟨_, (Option.some.inj h).symm⟩
  · exact ⟨_, (Option.some.inj h).symm⟩

/-- C7: for a join without shuffle_join / broadcast_join hint, every property and every
`inEnforce`, `recordIndexJoinHintWarnings` returns a non-nil error exactly when some
index-join-family force hint is set and the property has no sort items or `inEnforce`
holds; the error text then reads "Optimizer Hint ... is inapplicable", followed by the
reason when the join has no equal condition. -/
theorem recordIndexJoinHintWarnings_iff (env : Env) (p : LogicalJoin) (prop : PhysicalProperty)
    (inEnforce : Bool)
    (hshuffle : p.PreferJoinType &&& PreferShuffleJoin = 0)
    (hbc : p.PreferJoinType &&& PreferBCJoin = 0) :
    ((recordIndexJoinHintWarnings env p prop inEnforce ≠ none)
        ↔ (p.PreferAny forceIndexJoinFlags = true
            ∧ (prop.SortItems = [] ∨ inEnforce = true)))
      ∧ ∀ msg, recordIndexJoinHintWarnings env p prop inEnforce = some msg →
          ∃ hint : String,
            msg = "Optimizer Hint " ++ hint ++ " is inapplicable" ++ inapplicableReason p := by
  have hsome := forceHintInapplicableMsg_isSome env p
  have hempty : prop.IsSortItemEmpty = true ↔ prop.SortItems = [] := by
    simp [PhysicalProperty.IsSortItemEmpty]
  unfold recordIndexJoinHintWarnings
  simp only [hshuffle, hbc, gt_iff_lt, lt_self_iff_false, decide_False, Bool.or_self,
    Bool.false_eq_true, if_false]
  cases hf : p.PreferAny forceIndexJoinFlags
  · simp
  · rw [hf] at hsome
    obtain ⟨m, hm⟩ := Option.isSome_iff_exists.mp hsome
    have hshape := forceHintInapplicableMsg_shape env p m hm
    simp only [Bool.not_true, Bool.false_eq_true, if_false, hm, true_and]
    by_cases hc : (prop.IsSortItemEmpty || inEnforce) = true
    · simp only [hc, if_true]
      refine ⟨⟨fun _ => ?_, fun _ => by simp⟩, ?_⟩
      · rcases Bool.or_eq_true _ _ ▸ hc with h | h
        · exact Or.inl (hempty.mp h)
        · exact Or.inr h
      · intro msg hmsg
        obtain ⟨hint, hh⟩ := hshape
        exact ⟨hint, by rw [← Option.some.inj hmsg, hh]⟩
    · simp only [hc, Bool.false_eq_true, if_false]
      refine ⟨⟨fun h => absurd rfl h, fun h => ?_⟩, fun msg hmsg => by simp at hmsg⟩
      exfalso
      apply hc
      rcases h with h | h
      · simp [hempty.mpr h]
      · simp [h]

/-- C7, witness: the sample inner join with INL_JOIN on the right table, an empty
property, outside the enforcing pass. -/
theorem recordIndexJoinHintWarnings_iff_witness :
    ((recordIndexJoinHintWarnings sampleEnv (sampleJoin JoinType.InnerJoin PreferRightAsINLJInner)
          sampleProp false ≠ none)
        ↔ ((sampleJoin JoinType.InnerJoin PreferRightAsINLJInner).PreferAny forceIndexJoinFlags
            = true
            ∧ (sampleProp.SortItems = [] ∨ false = true)))
      ∧ ∀ msg, recordIndexJoinHintWarnings sampleEnv
            (sampleJoin JoinType.InnerJoin PreferRightAsINLJInner) sampleProp false = some msg →
          ∃ hint : String,
            msg = "Optimizer Hint " ++ hint ++ " is inapplicable"
              ++ inapplicableReason (sampleJoin JoinType.InnerJoin PreferRightAsINLJInner) :=
  recordIndexJoinHintWarnings_iff sampleEnv (sampleJoin JoinType.InnerJoin PreferRightAsINLJInner)
    sampleProp false (by decide) (by decide)

/-! ## Completion of an index join -/

/-- The state the first loop of `completePhysicalIndexJoin` reaches from `st` when it
runs over `offs` from position `k` on without fault. -/
theorem completeKeyLoop_eq (physic : PhysicalIndexJoin) :
    ∀ (offs : List Int) (k : Nat) (st : KeyLoopState),
      completeKeyLoop physic offs k st
        = if (offs.enumFrom k).all (fun q =>
              if q.2 < 0 then decide (q.1 < physic.EqualConditions.length)
              else decide (q.1 < physic.InnerJoinKeys.length)
                && decide (q.1 < physic.OuterJoinKeys.length)
                && decide (q.1 < physic.IsNullEQ.length)) then
            some
              { newKeyOff := st.newKeyOff
                  ++ (offs.enumFrom k).filterMap (fun q => if 0 ≤ q.2 then some q.2 else none)
                newIsNullEQ := st.newIsNullEQ
                  ++ (offs.enumFrom k).filterMap
                    (fun q => if 0 ≤ q.2 then physic.IsNullEQ[q.1]? else none)
                newInnerKeys := st.newInnerKeys
                  ++ (offs.enumFrom k).filterMap
                    (fun q => if 0 ≤ q.2 then physic.InnerJoinKeys[q.1]? else none)
                newOuterKeys := st.newOuterKeys
                  ++ (offs.enumFrom k).filterMap
                    (fun q => if 0 ≤ q.2 then physic.OuterJoinKeys[q.1]? else none)
                newOtherConds := st.newOtherConds
                  ++ ((offs.enumFrom k).filterMap
                    (fun q => if q.2 < 0 then physic.EqualConditions[q.1]? else none)).map
                      EqualCondition.toExpression }
          else none := by
  intro offs
  induction offs with
  | nil => intro k st; simp [completeKeyLoop]
  | cons o rest ih =>
    intro k st
    unfold completeKeyLoop
    by_cases ho : o < 0
    · have hno : ¬ (0 ≤ o) := not_le.mpr ho
      simp only [ho, if_true]
      cases hE : physic.EqualConditions[k]? with
      | none =>
        have : ¬ (k < physic.EqualConditions.length) := by
          intro hlt
          rw [List.getElem?_eq_getElem hlt] at hE
          exact absurd hE (by simp)
        simp [List.enumFrom, ho, this]
      | some e =>
        have hlt : k < physic.EqualConditions.length := by
          by_contra hge
          rw [List.getElem?_eq_none (not_lt.mp hge)] at hE
          exact absurd hE (by simp)
        simp only [ih, List.enumFrom, List.all_cons, ho, if_true, hlt, decide_True,
          Bool.true_and, List.filterMap_cons, hno, if_false, hE, List.map_cons,
          List.append_assoc, List.singleton_append]
    · have hge : 0 ≤ o := not_lt.mp ho
      simp only [ho, if_false]
      cases hI : physic.InnerJoinKeys[k]? with
      | none =>
        have : ¬ (k < physic.InnerJoinKeys.length) := by
          intro hlt
          rw [List.getElem?_eq_getElem hlt] at hI
          exact absurd hI (by simp)
        simp [List.enumFrom, ho, this]
      | some ik =>
        have hltI : k < physic.InnerJoinKeys.length := by
          by_contra hge
          rw [List.getElem?_eq_none (not_lt.mp hge)] at hI
          exact absurd hI (by simp)
        cases hO : physic.OuterJoinKeys[k]? with
        | none =>
          have : ¬ (k < physic.OuterJoinKeys.length) := by
            intro hlt
            rw [List.getElem?_eq_getElem hlt] at hO
            exact absurd hO (by simp)
          simp [List.enumFrom, ho, this]
        | some ok =>
          have hltO : k < physic.OuterJoinKeys.length := by
            by_contra hge
            rw [List.getElem?_eq_none (not_lt.mp hge)] at hO
            exact absurd hO (by simp)
          cases hN : physic.IsNullEQ[k]? with
          | none =>
            have : ¬ (k < physic.IsNullEQ.length) := by
              intro hlt
              rw [List.getElem?_eq_getElem hlt] at hN
              exact absurd hN (by simp)
            simp [List.enumFrom, ho, this]
          | some ne =>
            have hltN : k < physic.IsNullEQ.length := by
              by_contra hge
              rw [List.getElem?_eq_none (not_lt.mp hge)] at hN
              exact absurd hN (by simp)
            simp only [ih, List.enumFrom, List.all_cons, ho, if_false, hltI, hltO, hltN,
              decide_True, Bool.true_and, Bool.and_self, List.filterMap_cons, hge, if_true,
              hI, hO, hN, List.append_assoc, List.singleton_append]

theorem getElem?_append_cons_length {α : Type} (l : List α) (x : α) (tail : List α) :
    (l ++ x :: tail)[l.length]? = some x := by
  induction l with
  | nil => simp
  | cons a l ih => simpa using ih

theorem eraseIdx_append_cons_length {α : Type} (l : List α) (x : α) (tail : List α) :
    (l ++ x :: tail).eraseIdx l.length = l ++ tail := by
  induction l with
  | nil => rfl
  | cons a l ih => simp [List.eraseIdx, ih]

theorem extractedHashKeyPairs_append_singleton (innerS outerS : Schema) (l : List Expression)
    (x : Expression) :
    extractedHashKeyPairs innerS outerS (l ++ [x])
      = ((extractableEQ x).bind (hashKeyPair innerS outerS)).toList
        ++ extractedHashKeyPairs innerS outerS l := by
  unfold extractedHashKeyPairs
  rw [List.reverse_append, List.reverse_singleton, List.singleton_append, List.filterMap_cons]
  cases (extractableEQ x).bind (hashKeyPair innerS outerS) <;> rfl

/-- One step of the second loop of `completePhysicalIndexJoin` on a condition that it
leaves in place. -/
theorem extractOtherEQLoop_keep (innerS outerS : Schema) (l : List Expression) (x : Expression)
    (tail : List Expression) (ohk ihk : List Column)
    (hstep : extractOtherEQLoop innerS outerS (l.length + 1)
        { newOtherConds := l ++ x :: tail, outerHashKeys := ohk, innerHashKeys := ihk }
      = extractOtherEQLoop innerS outerS l.length
        { newOtherConds := l ++ x :: tail, outerHashKeys := ohk, innerHashKeys := ihk })
    (hx : extractableEQ x = none) (hw : hasEQArgs x = true)
    (ih : ∀ (tail : List Expression) (ohk ihk : List Column),
      extractOtherEQLoop innerS outerS l.length
          { newOtherConds := l ++ tail, outerHashKeys := ohk, innerHashKeys := ihk }
        = if l.all hasEQArgs then
            some
              { newOtherConds := l.filter (fun e => (extractableEQ e).isNone) ++ tail
                outerHashKeys := ohk ++ (extractedHashKeyPairs innerS outerS l).map Prod.fst
                innerHashKeys := ihk ++ (extractedHashKeyPairs innerS outerS l).map Prod.snd }
          else none) :
    extractOtherEQLoop innerS outerS (l.length + 1)
        { newOtherConds := l ++ x :: tail, outerHashKeys := ohk, innerHashKeys := ihk }
      = if (l ++ [x]).all hasEQArgs then
          some
            { newOtherConds := (l ++ [x]).filter (fun e => (extractableEQ e).isNone) ++ tail
              outerHashKeys := ohk
                ++ (extractedHashKeyPairs innerS outerS (l ++ [x])).map Prod.fst
              innerHashKeys := ihk
                ++ (extractedHashKeyPairs innerS outerS (l ++ [x])).map Prod.snd }
        else none := by
  rw [hstep, ih, extractedHashKeyPairs_append_singleton]
  simp [hx, hw, List.filter_append]

/-- One step of the second loop of `completePhysicalIndexJoin` on a condition that it
deletes, appending the hash keys `ks` (none or one pair). -/
theorem extractOtherEQLoop_delete (innerS outerS : Schema) (l : List Expression)
    (x : Expression) (tail : List Expression) (ohk ihk : List Column) (q : Column × Column)
    (hx : extractableEQ x = some q) (hw : hasEQArgs x = true)
    (hstep : extractOtherEQLoop innerS outerS (l.length + 1)
        { newOtherConds := l ++ x :: tail, outerHashKeys := ohk, innerHashKeys := ihk }
      = extractOtherEQLoop innerS outerS l.length
        { newOtherConds := l ++ tail
          outerHashKeys := ohk ++ ((hashKeyPair innerS outerS q).toList).map Prod.fst
          innerHashKeys := ihk ++ ((hashKeyPair innerS outerS q).toList).map Prod.snd })
    (ih : ∀ (tail : List Expression) (ohk ihk : List Column),
      extractOtherEQLoop innerS outerS l.length
          { newOtherConds := l ++ tail, outerHashKeys := ohk, innerHashKeys := ihk }
        = if l.all hasEQArgs then
            some
              { newOtherConds := l.filter (fun e => (extractableEQ e).isNone) ++ tail
                outerHashKeys := ohk ++ (extractedHashKeyPairs innerS outerS l).map Prod.fst
                innerHashKeys := ihk ++ (extractedHashKeyPairs innerS outerS l).map Prod.snd }
          else none) :
    extractOtherEQLoop innerS outerS (l.length + 1)
        { newOtherConds := l ++ x :: tail, outerHashKeys := ohk, innerHashKeys := ihk }
      = if (l ++ [x]).all hasEQArgs then
          some
            { newOtherConds := (l ++ [x]).filter (fun e => (extractableEQ e).isNone) ++ tail
              outerHashKeys := ohk
                ++ (extractedHashKeyPairs innerS outerS (l ++ [x])).map Prod.fst
              innerHashKeys := ihk
                ++ (extractedHashKeyPairs innerS outerS (l ++ [x])).map Prod.snd }
        else none := by
  rw [hstep, ih, extractedHashKeyPairs_append_singleton]
  simp [hx, hw, List.filter_append]

/-- The state the second loop of `completePhysicalIndexJoin` reaches when it runs over
the conditions `l` (those before `tail`): it faults exactly when some `eq` function of
`l` lacks an argument; otherwise it deletes the extractable column equalities and
appends their hash-key pairs, last condition first. -/
theorem extractOtherEQLoop_eq (innerS outerS : Schema) (l : List Expression) :
    ∀ (tail : List Expression) (ohk ihk : List Column),
      extractOtherEQLoop innerS outerS l.length
          { newOtherConds := l ++ tail, outerHashKeys := ohk, innerHashKeys := ihk }
        = if l.all hasEQArgs then
            some
              { newOtherConds := l.filter (fun e => (extractableEQ e).isNone) ++ tail
                outerHashKeys := ohk ++ (extractedHashKeyPairs innerS outerS l).map Prod.fst
                innerHashKeys := ihk ++ (extractedHashKeyPairs innerS outerS l).map Prod.snd }
          else none := by
  induction l using List.reverseRecOn with
  | nil =>
    intro tail ohk ihk
    simp [extractOtherEQLoop, extractedHashKeyPairs]
  | append_singleton l x ih =>
    intro tail ohk ihk
    rw [List.length_append, List.length_singleton, List.append_assoc, List.singleton_append]
    cases x with
    | column c =>
      refine extractOtherEQLoop_keep innerS outerS l _ tail ohk ihk ?_ rfl rfl ih
      rw [extractOtherEQLoop]
      simp only [getElem?_append_cons_length]
    | constant v =>
      refine extractOtherEQLoop_keep innerS outerS l _ tail ohk ihk ?_ rfl rfl ih
      rw [extractOtherEQLoop]
      simp only [getElem?_append_cons_length]
    | correlatedColumn c =>
      refine extractOtherEQLoop_keep innerS outerS l _ tail ohk ihk ?_ rfl rfl ih
      rw [extractOtherEQLoop]
      simp only [getElem?_append_cons_length]
    | scalarFunction name args =>
      by_cases hn : (name == ast.EQ) = true
      · match args with
        | [] =>
          rw [extractOtherEQLoop]
          simp only [getElem?_append_cons_length]
          simp [hn, hasEQArgs]
        | [a] =>
          rw [extractOtherEQLoop]
          simp only [getElem?_append_cons_length]
          simp [hn, hasEQArgs]
        | a0 :: a1 :: rest =>
          have hw : hasEQArgs (Expression.scalarFunction name (a0 :: a1 :: rest)) = true := by
            simp [hasEQArgs, hn]
          cases a0 with
          | column lhs =>
            cases a1 with
            | column rhs =>
              by_cases hin : (lhs.InOperand || rhs.InOperand) = true
              · refine extractOtherEQLoop_keep innerS outerS l _ tail ohk ihk ?_ ?_ hw ih
                · rw [extractOtherEQLoop]
                  simp only [getElem?_append_cons_length, hn, if_true, List.getElem?_cons_zero,
                    List.getElem?_cons_succ, hin]
                · simp [extractableEQ, hn, hin]
              · have hx : extractableEQ (Expression.scalarFunction name
                    (Expression.column lhs :: Expression.column rhs :: rest))
                    = some (lhs, rhs) := by
                  simp only [Bool.not_eq_true] at hin
                  simp [extractableEQ, hn, hin]
                refine extractOtherEQLoop_delete innerS outerS l _ tail ohk ihk (lhs, rhs)
                  hx hw ?_ ih
                have hin2 : (lhs.InOperand || rhs.InOperand) = false := by simpa using hin
                rw [extractOtherEQLoop]
                simp only [getElem?_append_cons_length, hn, if_true, List.getElem?_cons_zero,
                  List.getElem?_cons_succ, hin2, Bool.false_eq_true, if_false,
                  eraseIdx_append_cons_length, hashKeyPair]
                cases h1 : (outerS.Contains lhs && innerS.Contains rhs) <;>
                  cases h2 : (innerS.Contains lhs && outerS.Contains rhs) <;> simp
            | constant v =>
              refine extractOtherEQLoop_keep innerS outerS l _ tail ohk ihk ?_ rfl hw ih
              rw [extractOtherEQLoop]
              simp only [getElem?_append_cons_length, hn, if_true, List.getElem?_cons_zero,
                List.getElem?_cons_succ]
            | correlatedColumn c =>
              refine extractOtherEQLoop_keep innerS outerS l _ tail ohk ihk ?_ rfl hw ih
              rw [extractOtherEQLoop]
              simp only [getElem?_append_cons_length, hn, if_true, List.getElem?_cons_zero,
                List.getElem?_cons_succ]
            | scalarFunction n2 a2 =>
              refine extractOtherEQLoop_keep innerS outerS l _ tail ohk ihk ?_ rfl hw ih
              rw [extractOtherEQLoop]
              simp only [getElem?_append_cons_length, hn, if_true, List.getElem?_cons_zero,
                List.getElem?_cons_succ]
          | constant v =>
            refine extractOtherEQLoop_keep innerS outerS l _ tail ohk ihk ?_ rfl hw ih
            rw [extractOtherEQLoop]
            simp only [getElem?_append_cons_length, hn, if_true, List.getElem?_cons_zero,
              List.getElem?_cons_succ]
          | correlatedColumn c =>
            refine extractOtherEQLoop_keep innerS outerS l _ tail ohk ihk ?_ rfl hw ih
            rw [extractOtherEQLoop]
            simp only [getElem?_append_cons_length, hn, if_true, List.getElem?_cons_zero,
              List.getElem?_cons_succ]
          | scalarFunction n2 a2 =>
            refine extractOtherEQLoop_keep innerS outerS l _ tail ohk ihk ?_ rfl hw ih
            rw [extractOtherEQLoop]
            simp only [getElem?_append_cons_length, hn, if_true, List.getElem?_cons_zero,
              List.getElem?_cons_succ]
      · have hx : extractableEQ (Expression.scalarFunction name args) = none := by
          simp only [Bool.not_eq_true] at hn
          unfold extractableEQ
          split
          · simp_all
          · rfl
        have hw : hasEQArgs (Expression.scalarFunction name args) = true := by
          simp [hasEQArgs, hn]
        refine extractOtherEQLoop_keep innerS outerS l _ tail ohk ihk ?_ hx hw ih
        rw [extractOtherEQLoop]
        simp only [getElem?_append_cons_length, hn, Bool.false_eq_true, if_false]

theorem enumFrom_filterMap_nonneg (offs : List Int) :
    ∀ k : Nat, (offs.enumFrom k).filterMap (fun q => if 0 ≤ q.2 then some q.2 else none)
      = offs.filter (fun o => decide (0 ≤ o)) := by
  induction offs with
  | nil => intro k; rfl
  | cons o rest ih =>
    intro k
    by_cases ho : 0 ≤ o <;> simp [List.enumFrom, List.filterMap_cons, List.filter_cons, ho, ih]

/-- What `completePhysicalIndexJoin` returns on a task that carries `info`. -/
theorem completePhysicalIndexJoin_eq (physic : PhysicalIndexJoin) (rt : RootTask)
    (info : IndexJoinInfo) (innerS outerS : Schema) (extractOtherEQ : Bool)
    (hrt : rt.IndexJoinInfo = some info) :
    completePhysicalIndexJoin physic rt innerS outerS extractOtherEQ
      = if completionInRange physic info extractOtherEQ then
          some (completedIndexJoin physic info innerS outerS extractOtherEQ,
            { rt with IndexJoinInfo := none })
        else none := by
  have hoffs : (if info.Ranges.isNone then { info with Ranges := some [] } else info).KeyOff2IdxOff
      = info.KeyOff2IdxOff := by split_ifs <;> rfl
  have hlens : (if info.Ranges.isNone then { info with Ranges := some [] } else info).IdxColLens
      = info.IdxColLens := by split_ifs <;> rfl
  have hcmp : (if info.Ranges.isNone then { info with Ranges := some [] } else info).CompareFilters
      = info.CompareFilters := by split_ifs <;> rfl
  have hranges : (if info.Ranges.isNone then { info with Ranges := some [] } else info).Ranges
      = some (info.Ranges.getD []) := by
    cases hr : info.Ranges <;> simp [hr]
  unfold completePhysicalIndexJoin
  simp only [hrt, hoffs, hlens, hcmp, hranges]
  rw [completeKeyLoop_eq]
  unfold completionInRange keyLoopInRange
  rw [List.enum_eq_enumFrom]
  cases hin : (info.KeyOff2IdxOff.enumFrom 0).all (fun q =>
      if q.2 < 0 then decide (q.1 < physic.EqualConditions.length)
      else decide (q.1 < physic.InnerJoinKeys.length)
        && decide (q.1 < physic.OuterJoinKeys.length)
        && decide (q.1 < physic.IsNullEQ.length))
  · simp
  · simp only [if_true, Bool.true_and, enumFrom_filterMap_nonneg, List.nil_append]
    have hres : physic.OtherConditions
        ++ ((info.KeyOff2IdxOff.enumFrom 0).filterMap
          (fun q => if q.2 < 0 then physic.EqualConditions[q.1]? else none)).map
            EqualCondition.toExpression
        = residualConditions physic info.KeyOff2IdxOff := rfl
    rw [hres]
    cases extractOtherEQ
    · simp [completedIndexJoin, keptAt, List.enum_eq_enumFrom]
    · have hl := extractOtherEQLoop_eq innerS outerS
        (residualConditions physic info.KeyOff2IdxOff) []
        ((info.KeyOff2IdxOff.enumFrom 0).filterMap
          (fun q => if 0 ≤ q.2 then physic.OuterJoinKeys[q.1]? else none))
        ((info.KeyOff2IdxOff.enumFrom 0).filterMap
          (fun q => if 0 ≤ q.2 then physic.InnerJoinKeys[q.1]? else none))
      simp only [List.append_nil] at hl
      simp only [if_true, hl, Bool.not_true, Bool.false_or]
      cases hw : (residualConditions physic info.KeyOff2IdxOff).all hasEQArgs
      · simp
      · simp [completedIndexJoin, keptAt, List.enum_eq_enumFrom]

theorem keyLoopInRange_of_lengths (physic : PhysicalIndexJoin) (offs : List Int)
    (hE : offs.length = physic.EqualConditions.length)
    (hI : offs.length = physic.InnerJoinKeys.length)
    (hO : offs.length = physic.OuterJoinKeys.length)
    (hN : offs.length = physic.IsNullEQ.length) :
    keyLoopInRange physic offs = true := by
  unfold keyLoopInRange
  rw [List.all_eq_true]
  intro q hq
  have hlt := List.fst_lt_of_mem_enum hq
  split_ifs
  · simpa using hE ▸ hlt
  · simp only [Bool.and_eq_true, decide_eq_true_eq]
    exact ⟨⟨hI ▸ hlt, hO ▸ hlt⟩, hN ▸ hlt⟩

theorem length_filterMap_enumFrom {α : Type} (xs : List α) (offs : List Int) :
    ∀ k : Nat, (∀ q ∈ offs.enumFrom k, 0 ≤ q.2 → q.1 < xs.length) →
      ((offs.enumFrom k).filterMap (fun q => if 0 ≤ q.2 then xs[q.1]? else none)).length
        = (offs.filter (fun o => decide (0 ≤ o))).length := by
  induction offs with
  | nil => intro k _; rfl
  | cons o rest ih =>
    intro k hk
    have hrest : ∀ q ∈ rest.enumFrom (k + 1), 0 ≤ q.2 → q.1 < xs.length := by
      intro q hq
      exact hk q (by simp [List.enumFrom, hq])
    by_cases ho : 0 ≤ o
    · have hlt : k < xs.length := hk (k, o) (by simp [List.enumFrom]) ho
      simp [List.enumFrom, List.filterMap_cons, List.filter_cons, ho,
        List.getElem?_eq_getElem hlt, ih (k + 1) hrest]
    · simp [List.enumFrom, List.filterMap_cons, List.filter_cons, ho, ih (k + 1) hrest]

theorem length_keptAt {α : Type} (xs : List α) (offs : List Int)
    (h : ∀ q ∈ offs.enum, 0 ≤ q.2 → q.1 < xs.length) :
    (keptAt offs xs).length = (offs.filter (fun o => decide (0 ≤ o))).length := by
  unfold keptAt
  rw [List.enum_eq_enumFrom]
  exact length_filterMap_enumFrom xs offs 0 h

theorem length_keptAt_of_inRange (physic : PhysicalIndexJoin) (offs : List Int)
    (h : keyLoopInRange physic offs = true) :
    (keptAt offs physic.InnerJoinKeys).length = (offs.filter (fun o => decide (0 ≤ o))).length
      ∧ (keptAt offs physic.OuterJoinKeys).length
        = (offs.filter (fun o => decide (0 ≤ o))).length
      ∧ (keptAt offs physic.IsNullEQ).length
        = (offs.filter (fun o => decide (0 ≤ o))).length := by
  unfold keyLoopInRange at h
  rw [List.all_eq_true] at h
  have hq : ∀ q ∈ offs.enum, 0 ≤ q.2 →
      q.1 < physic.InnerJoinKeys.length ∧ q.1 < physic.OuterJoinKeys.length
        ∧ q.1 < physic.IsNullEQ.length := by
    intro q hmem hnn
    have := h q hmem
    simp only [not_lt.mpr hnn, if_false, Bool.and_eq_true, decide_eq_true_eq] at this
    exact ⟨this.1.1, this.1.2, this.2⟩
  exact ⟨length_keptAt _ _ (fun q hm hn => (hq q hm hn).1),
    length_keptAt _ _ (fun q hm hn => (hq q hm hn).2.1),
    length_keptAt _ _ (fun q hm hn => (hq q hm hn).2.2)⟩

theorem completePhysicalIndexJoin_some (physic : PhysicalIndexJoin) (rt : RootTask)
    (info : IndexJoinInfo) (innerS outerS : Schema) (extractOtherEQ : Bool)
    (physic2 : PhysicalIndexJoin) (rt2 : RootTask)
    (hrt : rt.IndexJoinInfo = some info)
    (hret : completePhysicalIndexJoin physic rt innerS outerS extractOtherEQ
      = some (physic2, rt2)) :
    completionInRange physic info extractOtherEQ = true
      ∧ physic2 = completedIndexJoin physic info innerS outerS extractOtherEQ
      ∧ rt2 = { rt with IndexJoinInfo := none } := by
  rw [completePhysicalIndexJoin_eq physic rt info innerS outerS extractOtherEQ hrt] at hret
  cases hin : completionInRange physic info extractOtherEQ
  · rw [hin] at hret
    exact absurd hret (by simp)
  · rw [hin] at hret
    simp only [if_true, Option.some.injEq, Prod.mk.injEq] at hret
    exact ⟨rfl, hret.1.symm, hret.2.symm⟩

/-- C8: when `KeyOff2IdxOff` of the task's index-join information has one entry per
equal condition and per join key, `completePhysicalIndexJoin` with
`extractOtherEQ = false` returns; the other conditions become the original ones
followed, in order, by the equal conditions at the positions with a negative entry;
the inner keys, outer keys and null-safe marks become their sub-sequences at the
positions with a non-negative entry, and `KeyOff2IdxOff` the non-negative entries, so
that the four lists have equal length. -/
theorem completePhysicalIndexJoin_demotes_unused_eq (physic : PhysicalIndexJoin)
    (rt : RootTask) (info : IndexJoinInfo) (innerS outerS : Schema)
    (hrt : rt.IndexJoinInfo = some info)
    (hE : info.KeyOff2IdxOff.length = physic.EqualConditions.length)
    (hI : info.KeyOff2IdxOff.length = physic.InnerJoinKeys.length)
    (hO : info.KeyOff2IdxOff.length = physic.OuterJoinKeys.length)
    (hN : info.KeyOff2IdxOff.length = physic.IsNullEQ.length) :
    ∃ (physic2 : PhysicalIndexJoin) (rt2 : RootTask),
      completePhysicalIndexJoin physic rt innerS outerS false = some (physic2, rt2)
      ∧ physic2.OtherConditions
        = physic.OtherConditions
          ++ (demotedAt info.KeyOff2IdxOff physic.EqualConditions).map
            EqualCondition.toExpression
      ∧ physic2.InnerJoinKeys = keptAt info.KeyOff2IdxOff physic.InnerJoinKeys
      ∧ physic2.OuterJoinKeys = keptAt info.KeyOff2IdxOff physic.OuterJoinKeys
      ∧ physic2.IsNullEQ = keptAt info.KeyOff2IdxOff physic.IsNullEQ
      ∧ physic2.KeyOff2IdxOff = info.KeyOff2IdxOff.filter (fun o => decide (0 ≤ o))
      ∧ physic2.InnerJoinKeys.length = physic2.KeyOff2IdxOff.length
      ∧ physic2.OuterJoinKeys.length = physic2.KeyOff2IdxOff.length
      ∧ physic2.IsNullEQ.length = physic2.KeyOff2IdxOff.length
      ∧ ∀ o ∈ physic2.KeyOff2IdxOff, 0 ≤ o := by
  have hr := keyLoopInRange_of_lengths physic info.KeyOff2IdxOff hE hI hO hN
  have hin : completionInRange physic info false = true := by
    simp [completionInRange, hr]
  have hlen := length_keptAt_of_inRange physic info.KeyOff2IdxOff hr
  refine ⟨completedIndexJoin physic info innerS outerS false, { rt with IndexJoinInfo := none },
    ?_, rfl, rfl, rfl, rfl, rfl, hlen.1, hlen.2.1, hlen.2.2, ?_⟩
  · rw [completePhysicalIndexJoin_eq physic rt info innerS outerS false hrt, hin]
    rfl
  · intro o ho
    have := (List.mem_filter.mp ho).2
    simpa using this

/-- C8, witness: the sample index join, whose second join key the chosen index does not
use. -/
theorem completePhysicalIndexJoin_demotes_unused_eq_witness :
    ∃ (physic2 : PhysicalIndexJoin) (rt2 : RootTask),
      completePhysicalIndexJoin sampleStaticIndexJoin sampleRootTask sampleInnerSchema
          sampleOuterSchema false = some (physic2, rt2)
      ∧ physic2.OtherConditions
        = sampleStaticIndexJoin.OtherConditions
          ++ (demotedAt [0, -1] sampleStaticIndexJoin.EqualConditions).map
            EqualCondition.toExpression
      ∧ physic2.InnerJoinKeys = keptAt [0, -1] sampleStaticIndexJoin.InnerJoinKeys
      ∧ physic2.OuterJoinKeys = keptAt [0, -1] sampleStaticIndexJoin.OuterJoinKeys
      ∧ physic2.IsNullEQ = keptAt [0, -1] sampleStaticIndexJoin.IsNullEQ
      ∧ physic2.KeyOff2IdxOff = [0, -1].filter (fun o => decide ((0 : Int) ≤ o))
      ∧ physic2.InnerJoinKeys.length = physic2.KeyOff2IdxOff.length
      ∧ physic2.OuterJoinKeys.length = physic2.KeyOff2IdxOff.length
      ∧ physic2.IsNullEQ.length = physic2.KeyOff2IdxOff.length
      ∧ ∀ o ∈ physic2.KeyOff2IdxOff, 0 ≤ o :=
  completePhysicalIndexJoin_demotes_unused_eq sampleStaticIndexJoin sampleRootTask
    sampleIndexJoinInfo sampleInnerSchema sampleOuterSchema rfl rfl rfl rfl rfl

theorem extractableEQ_of_columns (name : String) (lhs rhs : Column) (rest : List Expression)
    (hn : name = ast.EQ) (hl : lhs.InOperand = false) (hr : rhs.InOperand = false) :
    extractableEQ (Expression.scalarFunction name
      (Expression.column lhs :: Expression.column rhs :: rest)) = some (lhs, rhs) := by
  simp [extractableEQ, hn, hl, hr]

theorem extractableEQ_of_inOperand (name : String) (lhs rhs : Column) (rest : List Expression)
    (h : lhs.InOperand = true ∨ rhs.InOperand = true) :
    extractableEQ (Expression.scalarFunction name
      (Expression.column lhs :: Expression.column rhs :: rest)) = none := by
  rcases h with h | h <;> simp [extractableEQ, h]

theorem extractableEQ_eq_some (e : Expression) (q : Column × Column)
    (h : extractableEQ e = some q) :
    ∃ rest, e = Expression.scalarFunction ast.EQ
        (Expression.column q.1 :: Expression.column q.2 :: rest)
      ∧ q.1.InOperand = false ∧ q.2.InOperand = false := by
  unfold extractableEQ at h
  split at h
  · rename_i name lhs rhs rest
    split_ifs at h with hc
    simp only [Bool.and_eq_true, beq_iff_eq, Bool.not_eq_true', Bool.or_eq_false_iff] at hc
    have hq := Option.some.inj h
    subst hq
    exact ⟨rest, by rw [hc.1], hc.2.1, hc.2.2⟩
  · exact absurd h (by simp)

theorem hashKeyPair_eq_some (innerS outerS : Schema) (q r : Column × Column)
    (h : hashKeyPair innerS outerS q = some r) :
    outerS.Contains r.1 = true ∧ innerS.Contains r.2 = true
      ∧ ((r.1 = q.1 ∧ r.2 = q.2) ∨ (r.1 = q.2 ∧ r.2 = q.1)) := by
  unfold hashKeyPair at h
  split_ifs at h with h1 h2
  · have hr := Option.some.inj h
    subst hr
    simp only [Bool.and_eq_true] at h1
    exact ⟨h1.1, h1.2, Or.inl ⟨rfl, rfl⟩⟩
  · have hr := Option.some.inj h
    subst hr
    simp only [Bool.and_eq_true] at h2
    exact ⟨h2.2, h2.1, Or.inr ⟨rfl, rfl⟩⟩

theorem hashKeyPair_isSome (innerS outerS : Schema) (lhs rhs : Column)
    (h : (outerS.Contains lhs = true ∧ innerS.Contains rhs = true)
      ∨ (innerS.Contains lhs = true ∧ outerS.Contains rhs = true)) :
    ∃ r, hashKeyPair innerS outerS (lhs, rhs) = some r := by
  unfold hashKeyPair
  rcases h with h | h
  · exact ⟨(lhs, rhs), by simp [h.1, h.2]⟩
  · by_cases h1 : (outerS.Contains lhs && innerS.Contains rhs) = true
    · exact ⟨(lhs, rhs), by rw [if_pos h1]⟩
    · exact ⟨(rhs, lhs), by rw [if_neg h1]; simp [h.1, h.2]⟩

theorem mem_extractedHashKeyPairs (innerS outerS : Schema) (conds : List Expression)
    (r : Column × Column) :
    r ∈ extractedHashKeyPairs innerS outerS conds
      ↔ ∃ e ∈ conds, ∃ q, extractableEQ e = some q ∧ hashKeyPair innerS outerS q = some r := by
  unfold extractedHashKeyPairs
  simp only [List.mem_filterMap, List.mem_reverse, Option.bind_eq_some]

theorem getElem?_hashKeys {α : Type} (keys : List α) (ext : List α) (j : Nat)
    (hj : keys.length ≤ j) : (keys ++ ext)[j]? = ext[j - keys.length]? :=
  List.getElem?_append_right hj

/-- C9: on a task that carries `info`, whenever `completePhysicalIndexJoin` with
`extractOtherEQ = true` returns (it does unless an index is out of range): every
residual condition that is an equality of two bare columns, neither marked
`InOperand`, one of the outer and one of the inner schema, is absent from the new
`OtherConditions` and its outer and inner columns stand at one same index of
`OuterHashKeys` and `InnerHashKeys`; every column equality with an `InOperand` column
stays in `OtherConditions`, and every hash-key pair past the join keys comes from a
column equality without `InOperand` column; `OuterHashKeys` and `InnerHashKeys` have
equal length and begin with the new `OuterJoinKeys` and `InnerJoinKeys`. -/
theorem completePhysicalIndexJoin_extracts_hash_keys (physic : PhysicalIndexJoin)
    (rt : RootTask) (info : IndexJoinInfo) (innerS outerS : Schema)
    (hrt : rt.IndexJoinInfo = some info) :
    (completionInRange physic info true = true →
        ∃ r, completePhysicalIndexJoin physic rt innerS outerS true = some r)
      ∧ ∀ (physic2 : PhysicalIndexJoin) (rt2 : RootTask),
        completePhysicalIndexJoin physic rt innerS outerS true = some (physic2, rt2) →
        (∀ (lhs rhs : Column) (rest : List Expression),
            Expression.scalarFunction ast.EQ
                (Expression.column lhs :: Expression.column rhs :: rest)
              ∈ residualConditions physic info.KeyOff2IdxOff →
            lhs.InOperand = false → rhs.InOperand = false →
            ((outerS.Contains lhs = true ∧ innerS.Contains rhs = true)
              ∨ (innerS.Contains lhs = true ∧ outerS.Contains rhs = true)) →
            Expression.scalarFunction ast.EQ
                (Expression.column lhs :: Expression.column rhs :: rest)
              ∉ physic2.OtherConditions
            ∧ ∃ (j : Nat) (o i : Column),
                physic2.OuterJoinKeys.length ≤ j
                ∧ physic2.OuterHashKeys[j]? = some o ∧ physic2.InnerHashKeys[j]? = some i
                ∧ outerS.Contains o = true ∧ innerS.Contains i = true
                ∧ ((o = lhs ∧ i = rhs) ∨ (o = rhs ∧ i = lhs)))
        ∧ (∀ (lhs rhs : Column) (rest : List Expression),
            Expression.scalarFunction ast.EQ
                (Expression.column lhs :: Expression.column rhs :: rest)
              ∈ residualConditions physic info.KeyOff2IdxOff →
            (lhs.InOperand = true ∨ rhs.InOperand = true) →
            Expression.scalarFunction ast.EQ
                (Expression.column lhs :: Expression.column rhs :: rest)
              ∈ physic2.OtherConditions)
        ∧ (∀ (j : Nat) (o i : Column),
            physic2.OuterJoinKeys.length ≤ j →
            physic2.OuterHashKeys[j]? = some o → physic2.InnerHashKeys[j]? = some i →
            ∃ (lhs rhs : Column) (rest : List Expression),
              Expression.scalarFunction ast.EQ
                  (Expression.column lhs :: Expression.column rhs :: rest)
                ∈ residualConditions physic info.KeyOff2IdxOff
              ∧ lhs.InOperand = false ∧ rhs.InOperand = false
              ∧ ((o = lhs ∧ i = rhs) ∨ (o = rhs ∧ i = lhs)))
        ∧ physic2.OuterHashKeys.length = physic2.InnerHashKeys.length
        ∧ (∃ ext, physic2.OuterHashKeys = physic2.OuterJoinKeys ++ ext)
        ∧ (∃ ext, physic2.InnerHashKeys = physic2.InnerJoinKeys ++ ext) := by
  constructor
  · intro hin
    exact ⟨_, by rw [completePhysicalIndexJoin_eq physic rt info innerS outerS true hrt, hin]; rfl⟩
  · intro physic2 rt2 hret
    obtain ⟨hin, hp, _⟩ :=
      completePhysicalIndexJoin_some physic rt info innerS outerS true physic2 rt2 hrt hret
    have hkr : keyLoopInRange physic info.KeyOff2IdxOff = true := by
      unfold completionInRange at hin
      simp only [Bool.and_eq_true] at hin
      exact hin.1
    have hlen := length_keptAt_of_inRange physic info.KeyOff2IdxOff hkr
    have hlenIO : (keptAt info.KeyOff2IdxOff physic.InnerJoinKeys).length
        = (keptAt info.KeyOff2IdxOff physic.OuterJoinKeys).length := by
      rw [hlen.1, hlen.2.1]
    have hOC : physic2.OtherConditions
        = (residualConditions physic info.KeyOff2IdxOff).filter
          (fun e => (extractableEQ e).isNone) := by rw [hp]; rfl
    have hOK : physic2.OuterJoinKeys = keptAt info.KeyOff2IdxOff physic.OuterJoinKeys := by
      rw [hp]; rfl
    have hIK : physic2.InnerJoinKeys = keptAt info.KeyOff2IdxOff physic.InnerJoinKeys := by
      rw [hp]; rfl
    have hOH : physic2.OuterHashKeys
        = keptAt info.KeyOff2IdxOff physic.OuterJoinKeys
          ++ (extractedHashKeyPairs innerS outerS
            (residualConditions physic info.KeyOff2IdxOff)).map Prod.fst := by rw [hp]; rfl
    have hIH : physic2.InnerHashKeys
        = keptAt info.KeyOff2IdxOff physic.InnerJoinKeys
          ++ (extractedHashKeyPairs innerS outerS
            (residualConditions physic info.KeyOff2IdxOff)).map Prod.snd := by rw [hp]; rfl
    refine ⟨?_, ?_, ?_, ?_, ⟨_, hOK ▸ hOH⟩, ⟨_, hIK ▸ hIH⟩⟩
    · intro lhs rhs rest hmem hl hr hside
      have hx := extractableEQ_of_columns ast.EQ lhs rhs rest rfl hl hr
      constructor
      · rw [hOC]
        intro hc
        have := (List.mem_filter.mp hc).2
        rw [hx] at this
        exact absurd this (by simp)
      · obtain ⟨r, hr2⟩ := hashKeyPair_isSome innerS outerS lhs rhs hside
        have hmemp : r ∈ extractedHashKeyPairs innerS outerS
            (residualConditions physic info.KeyOff2IdxOff) :=
          (mem_extractedHashKeyPairs innerS outerS _ r).mpr ⟨_, hmem, _, hx, hr2⟩
        obtain ⟨n, hn⟩ := List.mem_iff_getElem?.mp hmemp
        have hprop := hashKeyPair_eq_some innerS outerS (lhs, rhs) r hr2
        refine ⟨(keptAt info.KeyOff2IdxOff physic.OuterJoinKeys).length + n, r.1, r.2,
          ?_, ?_, ?_, hprop.1, hprop.2.1, hprop.2.2⟩
        · rw [hOK]; exact Nat.le_add_right _ _
        · rw [hOH, getElem?_hashKeys _ _ _ (Nat.le_add_right _ _), Nat.add_sub_cancel_left,
            List.getElem?_map, hn]
          rfl
        · rw [hIH, ← hlenIO, getElem?_hashKeys _ _ _ (Nat.le_add_right _ _),
            Nat.add_sub_cancel_left, List.getElem?_map, hn]
          rfl
    · intro lhs rhs rest hmem hin2
      rw [hOC]
      refine List.mem_filter.mpr ⟨hmem, ?_⟩
      rw [extractableEQ_of_inOperand ast.EQ lhs rhs rest hin2]
      rfl
    · intro j o i hj ho hi
      rw [hOK] at hj
      have hjI : (keptAt info.KeyOff2IdxOff physic.InnerJoinKeys).length ≤ j := hlenIO ▸ hj
      rw [hOH, getElem?_hashKeys _ _ _ hj, List.getElem?_map] at ho
      rw [hIH, getElem?_hashKeys _ _ _ hjI, hlenIO, List.getElem?_map] at hi
      cases hr : (extractedHashKeyPairs innerS outerS
          (residualConditions physic info.KeyOff2IdxOff))[j
            - (keptAt info.KeyOff2IdxOff physic.OuterJoinKeys).length]? with
      | none =>
        rw [hr] at ho
        exact absurd ho (by simp)
      | some r =>
        rw [hr] at ho hi
        have ho2 : r.1 = o := by simpa using ho
        have hi2 : r.2 = i := by simpa using hi
        have hmemp : r ∈ extractedHashKeyPairs innerS outerS
            (residualConditions physic info.KeyOff2IdxOff) :=
          List.mem_iff_getElem?.mpr ⟨_, hr⟩
        obtain ⟨e, he, q, hq, hqr⟩ := (mem_extractedHashKeyPairs innerS outerS _ r).mp hmemp
        obtain ⟨rest, hee, hl, hr3⟩ := extractableEQ_eq_some e q hq
        have hprop := hashKeyPair_eq_some innerS outerS q r hqr
        refine ⟨q.1, q.2, rest, hee ▸ he, hl, hr3, ?_⟩
        rw [← ho2, ← hi2]
        exact hprop.2.2
    · rw [hOH, hIH, List.length_append, List.length_append, List.length_map, List.length_map,
        hlenIO]

/-- C9, witness: on the sample task the completion with `extractOtherEQ = true`
returns, and the hash keys it leaves have equal length. -/
theorem completePhysicalIndexJoin_extracts_hash_keys_witness :
    sampleRootTask.IndexJoinInfo = some sampleIndexJoinInfo
      ∧ (∃ r, completePhysicalIndexJoin sampleStaticIndexJoin sampleRootTask sampleInnerSchema
          sampleOuterSchema true = some r)
      ∧ ∀ (physic2 : PhysicalIndexJoin) (rt2 : RootTask),
          completePhysicalIndexJoin sampleStaticIndexJoin sampleRootTask sampleInnerSchema
            sampleOuterSchema true = some (physic2, rt2) →
          physic2.OuterHashKeys.length = physic2.InnerHashKeys.length :=
  ⟨rfl,
    (completePhysicalIndexJoin_extracts_hash_keys sampleStaticIndexJoin sampleRootTask
      sampleIndexJoinInfo sampleInnerSchema sampleOuterSchema rfl).1 (by decide),
    fun physic2 rt2 h =>
      ((completePhysicalIndexJoin_extracts_hash_keys sampleStaticIndexJoin sampleRootTask
        sampleIndexJoinInfo sampleInnerSchema sampleOuterSchema rfl).2 physic2 rt2 h).2.2.2.1⟩

/-- C10: on a root task that carries index-join information `info`,
`completePhysicalIndexJoin` returns unless an index is out of range, and after it
returns the task's `IndexJoinInfo` is nil, the join's `EqualConditions` is nil, and
the join's `Ranges` is non-nil: the ranges of `info`, or the empty range list when
`info` carried none. -/
theorem completePhysicalIndexJoin_clears_pending_state (physic : PhysicalIndexJoin)
    (rt : RootTask) (info : IndexJoinInfo) (innerS outerS : Schema) (extractOtherEQ : Bool)
    (hrt : rt.IndexJoinInfo = some info) :
    (completionInRange physic info extractOtherEQ = true →
        ∃ r, completePhysicalIndexJoin physic rt innerS outerS extractOtherEQ = some r)
      ∧ ∀ (physic2 : PhysicalIndexJoin) (rt2 : RootTask),
        completePhysicalIndexJoin physic rt innerS outerS extractOtherEQ
          = some (physic2, rt2) →
        rt2.IndexJoinInfo = none
          ∧ physic2.EqualConditions = []
          ∧ physic2.Ranges ≠ none
          ∧ physic2.Ranges = some (info.Ranges.getD []) := by
  constructor
  · intro hin
    exact ⟨_, by
      rw [completePhysicalIndexJoin_eq physic rt info innerS outerS extractOtherEQ hrt, hin]
      rfl⟩
  · intro physic2 rt2 hret
    obtain ⟨_, hp, hr⟩ := completePhysicalIndexJoin_some physic rt info innerS outerS
      extractOtherEQ physic2 rt2 hrt hret
    subst hp hr
    exact ⟨rfl, rfl, by simp [completedIndexJoin], rfl⟩

/-- C10, witness: the sample task carries index-join information without ranges; the
completion returns, clears the task's state and leaves the empty range list. -/
theorem completePhysicalIndexJoin_clears_pending_state_witness :
    sampleRootTask.IndexJoinInfo = some sampleIndexJoinInfo
      ∧ (∃ r, completePhysicalIndexJoin sampleStaticIndexJoin sampleRootTask sampleInnerSchema
          sampleOuterSchema false = some r)
      ∧ ∀ (physic2 : PhysicalIndexJoin) (rt2 : RootTask),
          completePhysicalIndexJoin sampleStaticIndexJoin sampleRootTask sampleInnerSchema
            sampleOuterSchema false = some (physic2, rt2) →
          rt2.IndexJoinInfo = none
            ∧ physic2.EqualConditions = []
            ∧ physic2.Ranges ≠ none
            ∧ physic2.Ranges = some (sampleIndexJoinInfo.Ranges.getD []) :=
  ⟨rfl,
    (completePhysicalIndexJoin_clears_pending_state sampleStaticIndexJoin sampleRootTask
      sampleIndexJoinInfo sampleInnerSchema sampleOuterSchema false rfl).1 (by decide),
    (completePhysicalIndexJoin_clears_pending_state sampleStaticIndexJoin sampleRootTask
      sampleIndexJoinInfo sampleInnerSchema sampleOuterSchema false rfl).2⟩

/-! ## MPP hash joins -/

/-- An early return of no candidate is not the source of a returned candidate. -/
theorem of_ite_some_nil {α β : Type} {c : Prop} [Decidable c] {w : β}
    {t : Option (List α × β)} {res : List α × β}
    (h : (if c then some ([], w) else t) = some res) {x : α} (hx : x ∈ res.1) :
    t = some res := by
  by_cases hc : c
  · rw [if_pos hc] at h
    simp only [Option.some.injEq] at h
    subst h
    simp at hx
  · rw [if_neg hc] at h
    exact h

/-- Every candidate of `buildMppHashJoin` is one hash join built on the child that
`mppPreferredBuildIndex` chooses, and the warnings are those of that choice. -/
theorem buildMppHashJoin_candidate (env : Env) (ge : Option GroupExpression) (p : LogicalJoin)
    (prop : PhysicalProperty) (useBCJ : Bool) (res : List PhysicalPlan × List String)
    (hret : buildMppHashJoin env ge p prop useBCJ = some res)
    (pl : PhysicalPlan) (hpl : pl ∈ res.1) :
    ∃ j : PhysicalHashJoin, pl = PhysicalPlan.hashJoin j ∧
      j.InnerChildIdx = (mppPreferredBuildIndex env ge p useBCJ).1 ∧
      res.2 = (mppPreferredBuildIndex env ge p useBCJ).2 := by
  unfold buildMppHashJoin at hret
  simp only at hret
  split at hret
  · simp at hret
  · simp only [Option.some.injEq] at hret; subst hret; simp at hpl
  · simp only [Option.some.injEq] at hret
    subst hret
    simp only [List.mem_singleton] at hpl
    exact ⟨_, hpl, rfl, rfl⟩

/-- Every candidate of `tryToGetMppHashJoin` is one hash join built on the child that
`mppPreferredBuildIndex` chooses, and the warnings are those of that choice. -/
theorem tryToGetMppHashJoin_candidate (env : Env) (super : LogicalPlan)
    (prop : PhysicalProperty) (useBCJ : Bool) (res : List PhysicalPlan × List String)
    (hret : tryToGetMppHashJoin env super prop useBCJ = some res)
    (pl : PhysicalPlan) (hpl : pl ∈ res.1) :
    ∃ j : PhysicalHashJoin, pl = PhysicalPlan.hashJoin j ∧
      j.InnerChildIdx = (mppPreferredBuildIndex env (getGEAndLogicalJoin super).1
        (getGEAndLogicalJoin super).2 useBCJ).1 ∧
      res.2 = (mppPreferredBuildIndex env (getGEAndLogicalJoin super).1
        (getGEAndLogicalJoin super).2 useBCJ).2 := by
  unfold tryToGetMppHashJoin at hret
  simp only at hret
  have h := of_ite_some_nil (of_ite_some_nil (of_ite_some_nil (of_ite_some_nil
    (of_ite_some_nil (of_ite_some_nil (of_ite_some_nil (of_ite_some_nil
    (of_ite_some_nil (of_ite_some_nil hret hpl) hpl) hpl) hpl) hpl) hpl) hpl) hpl) hpl) hpl
  exact buildMppHashJoin_candidate env _ _ prop useBCJ res h pl hpl

/-- The build side `mppPreferredBuildIndex` chooses for an inner join. -/
theorem mppPreferredBuildIndex_inner (env : Env) (ge : Option GroupExpression)
    (p : LogicalJoin) (useBCJ : Bool) (hjt : p.JoinType = JoinType.InnerJoin) :
    (mppPreferredBuildIndex env ge p useBCJ).1 =
      if forcesLeftToBuild p = forcesRightToBuild p then
        (if env.Count (getJoinChildStatsAndSchema ge p).1
            > env.Count (getJoinChildStatsAndSchema ge p).2.1 then 1 else 0)
      else if forcesLeftToBuild p then 0 else 1 := by
  unfold mppPreferredBuildIndex forcesLeftToBuild forcesRightToBuild
  simp only [hjt]
  generalize (decide (p.PreferJoinType &&& PreferLeftAsHJBuild > 0)
    || decide (p.PreferJoinType &&& PreferRightAsHJProbe > 0)) = fl
  generalize (decide (p.PreferJoinType &&& PreferRightAsHJBuild > 0)
    || decide (p.PreferJoinType &&& PreferLeftAsHJProbe > 0)) = fr
  by_cases hc : env.Count (getJoinChildStatsAndSchema ge p).1
      > env.Count (getJoinChildStatsAndSchema ge p).2.1 <;>
    cases fl <;> cases fr <;> simp [hc]

/-- The build side `mppPreferredBuildIndex` chooses, and the warning it records, when
the join type fixes the build side. -/
theorem mppPreferredBuildIndex_fixed (env : Env) (ge : Option GroupExpression)
    (p : LogicalJoin) (useBCJ : Bool)
    (hfixed : p.JoinType = JoinType.LeftOuterSemiJoin ∨ p.JoinType = JoinType.AntiLeftOuterSemiJoin
      ∨ ((p.JoinType = JoinType.SemiJoin ∨ p.JoinType = JoinType.AntiSemiJoin)
        ∧ (useBCJ = true ∨ p.IsNAAJ = true ∨ p.EqualConditions.length = 0))) :
    (mppPreferredBuildIndex env ge p useBCJ).1 = 1 ∧
      (forcesLeftToBuild p = true → forcesRightToBuild p = false →
        mppHintsNotUtilizedWarning ∈ (mppPreferredBuildIndex env ge p useBCJ).2) := by
  unfold mppPreferredBuildIndex forcesLeftToBuild forcesRightToBuild
  generalize (decide (p.PreferJoinType &&& PreferLeftAsHJBuild > 0)
    || decide (p.PreferJoinType &&& PreferRightAsHJProbe > 0)) = fl
  generalize (decide (p.PreferJoinType &&& PreferRightAsHJBuild > 0)
    || decide (p.PreferJoinType &&& PreferLeftAsHJProbe > 0)) = fr
  have h2 : True := trivial
  rcases hfixed with h | h | ⟨h | h, h2 | h2 | h2⟩ <;>
    cases fl <;> cases fr <;> simp [h, h2, JoinType.IsSemiJoin]

/-- An early return of no candidate keeps a result that has no candidate. -/
theorem ite_some_nil_of_else {α β : Type} {c : Prop} [Decidable c] {w : β}
    {t : Option (List α × β)} (h : ∃ w2, t = some ([], w2)) :
    ∃ w2, (if c then some ([], w) else t) = some ([], w2) := by
  by_cases hc : c
  · exact ⟨w, by rw [if_pos hc]⟩
  · rw [if_neg hc]
    exact h

/-- C12: for a cross join (no equal condition) and every required property,
`tryToGetMppHashJoin` returns, and returns no candidate, when `useBCJ` is false and
when the variable `AllowCartesianBCJ` is 0. -/
theorem tryToGetMppHashJoin_cross_join_rejected (env : Env) (super : LogicalPlan)
    (prop : PhysicalProperty) (useBCJ : Bool)
    (hcross : (getGEAndLogicalJoin super).2.EqualConditions.length = 0)
    (hoff : useBCJ = false ∨ env.vars.AllowCartesianBCJ = 0) :
    ∃ w, tryToGetMppHashJoin env super prop useBCJ = some ([], w) := by
  unfold tryToGetMppHashJoin
  simp only
  refine ite_some_nil_of_else (ite_some_nil_of_else (ite_some_nil_of_else
    (ite_some_nil_of_else ?_)))
  by_cases hb : useBCJ = false
  · exact ⟨_, by rw [if_pos ⟨hcross, hb⟩]⟩
  · rw [if_neg (fun h => hb h.2)]
    have ha : env.vars.AllowCartesianBCJ = 0 := hoff.resolve_left hb
    exact ⟨_, by rw [if_pos ⟨hcross, ha⟩]⟩

theorem tryToGetMppHashJoin_cross_join_rejected_witness :
    sampleCrossJoin.EqualConditions.length = 0 ∧
      ∃ w, tryToGetMppHashJoin sampleEnv (LogicalPlan.join sampleCrossJoin) sampleProp false
        = some ([], w) :=
  ⟨rfl, tryToGetMppHashJoin_cross_join_rejected sampleEnv (LogicalPlan.join sampleCrossJoin)
    sampleProp false rfl (Or.inl rfl)⟩

/-- C13: for an inner join, every candidate `tryToGetMppHashJoin` returns is a hash join;
without a build-side force, or with both forces (conflicting hints), its build child
`InnerChildIdx` is 1 when child 0 has strictly more rows than child 1 and 0 otherwise;
with the force on one side only, it is the hinted child. -/
theorem tryToGetMppHashJoin_inner_build_side (env : Env) (super : LogicalPlan)
    (prop : PhysicalProperty) (useBCJ : Bool) (res : List PhysicalPlan × List String)
    (pl : PhysicalPlan)
    (hjt : (getGEAndLogicalJoin super).2.JoinType = JoinType.InnerJoin)
    (hret : tryToGetMppHashJoin env super prop useBCJ = some res)
    (hpl : pl ∈ res.1) :
    ∃ j : PhysicalHashJoin, pl = PhysicalPlan.hashJoin j ∧
      (forcesLeftToBuild (getGEAndLogicalJoin super).2
          = forcesRightToBuild (getGEAndLogicalJoin super).2 →
        j.InnerChildIdx =
          if env.Count (getJoinChildStatsAndSchema (getGEAndLogicalJoin super).1
                (getGEAndLogicalJoin super).2).1
              > env.Count (getJoinChildStatsAndSchema (getGEAndLogicalJoin super).1
                (getGEAndLogicalJoin super).2).2.1
          then 1 else 0) ∧
      (forcesLeftToBuild (getGEAndLogicalJoin super).2 = true →
        forcesRightToBuild (getGEAndLogicalJoin super).2 = false → j.InnerChildIdx = 0) ∧
      (forcesRightToBuild (getGEAndLogicalJoin super).2 = true →
        forcesLeftToBuild (getGEAndLogicalJoin super).2 = false → j.InnerChildIdx = 1) := by
  obtain ⟨j, hj, hidx, _⟩ := tryToGetMppHashJoin_candidate env super prop useBCJ res hret pl hpl
  rw [mppPreferredBuildIndex_inner env _ _ useBCJ hjt] at hidx
  refine ⟨j, hj, ?_, ?_, ?_⟩
  · intro h
    rw [hidx, if_pos h]
  · intro hl hr
    rw [hidx, hl, hr]
    simp
  · intro hr hl
    rw [hidx, hl, hr]
    simp

theorem tryToGetMppHashJoin_inner_build_side_witness :
    sampleMppInnerResult.1.length = 1 ∧
      ∀ pl ∈ sampleMppInnerResult.1,
        ∃ j : PhysicalHashJoin, pl = PhysicalPlan.hashJoin j ∧
          (forcesLeftToBuild (sampleJoin JoinType.InnerJoin 0)
              = forcesRightToBuild (sampleJoin JoinType.InnerJoin 0) →
            j.InnerChildIdx =
              if sampleEnv.Count (sampleJoin JoinType.InnerJoin 0).child0.Stats
                  > sampleEnv.Count (sampleJoin JoinType.InnerJoin 0).child1.Stats
              then 1 else 0) ∧
          (forcesLeftToBuild (sampleJoin JoinType.InnerJoin 0) = true →
            forcesRightToBuild (sampleJoin JoinType.InnerJoin 0) = false →
            j.InnerChildIdx = 0) ∧
          (forcesRightToBuild (sampleJoin JoinType.InnerJoin 0) = true →
            forcesLeftToBuild (sampleJoin JoinType.InnerJoin 0) = false →
            j.InnerChildIdx = 1) :=
  ⟨by decide, fun pl hpl =>
    tryToGetMppHashJoin_inner_build_side sampleEnv
      (LogicalPlan.join (sampleJoin JoinType.InnerJoin 0)) sampleProp true sampleMppInnerResult
      pl rfl rfl hpl⟩

/-- C14: when the join type fixes the build side of an MPP join (a left-outer-semi or
anti-left-outer-semi join, or a semi or anti-semi join that is broadcast, null-aware
or without equal condition), every candidate `tryToGetMppHashJoin` returns is a hash
join with `InnerChildIdx = 1` whatever the build-side hints are, and when the only
force names child 0 the warning that the hints cannot be utilized for MPP joins is
among the warnings returned with the candidate. -/
theorem tryToGetMppHashJoin_fixed_build_side (env : Env) (super : LogicalPlan)
    (prop : PhysicalProperty) (useBCJ : Bool) (res : List PhysicalPlan × List String)
    (pl : PhysicalPlan)
    (hfixed : (getGEAndLogicalJoin super).2.JoinType = JoinType.LeftOuterSemiJoin
      ∨ (getGEAndLogicalJoin super).2.JoinType = JoinType.AntiLeftOuterSemiJoin
      ∨ (((getGEAndLogicalJoin super).2.JoinType = JoinType.SemiJoin
          ∨ (getGEAndLogicalJoin super).2.JoinType = JoinType.AntiSemiJoin)
        ∧ (useBCJ = true ∨ (getGEAndLogicalJoin super).2.IsNAAJ = true
          ∨ (getGEAndLogicalJoin super).2.EqualConditions.length = 0)))
    (hret : tryToGetMppHashJoin env super prop useBCJ = some res)
    (hpl : pl ∈ res.1) :
    ∃ j : PhysicalHashJoin, pl = PhysicalPlan.hashJoin j ∧ j.InnerChildIdx = 1 ∧
      (forcesLeftToBuild (getGEAndLogicalJoin super).2 = true →
        forcesRightToBuild (getGEAndLogicalJoin super).2 = false →
        mppHintsNotUtilizedWarning ∈ res.2) := by
  obtain ⟨j, hj, hidx, hw⟩ := tryToGetMppHashJoin_candidate env super prop useBCJ res hret pl hpl
  have h := mppPreferredBuildIndex_fixed env (getGEAndLogicalJoin super).1
    (getGEAndLogicalJoin super).2 useBCJ hfixed
  refine ⟨j, hj, hidx.trans h.1, ?_⟩
  intro hl hr
  rw [hw]
  exact h.2 hl hr

theorem tryToGetMppHashJoin_fixed_build_side_witness :
    sampleMppSemiResult.1.length = 1 ∧
      forcesLeftToBuild (sampleJoin JoinType.LeftOuterSemiJoin PreferLeftAsHJBuild) = true ∧
      forcesRightToBuild (sampleJoin JoinType.LeftOuterSemiJoin PreferLeftAsHJBuild) = false ∧
      ∀ pl ∈ sampleMppSemiResult.1,
        ∃ j : PhysicalHashJoin, pl = PhysicalPlan.hashJoin j ∧ j.InnerChildIdx = 1 ∧
          (forcesLeftToBuild (sampleJoin JoinType.LeftOuterSemiJoin PreferLeftAsHJBuild) = true →
            forcesRightToBuild (sampleJoin JoinType.LeftOuterSemiJoin PreferLeftAsHJBuild)
              = false →
            mppHintsNotUtilizedWarning ∈ sampleMppSemiResult.2) :=
  ⟨by decide, by decide, by decide, fun pl hpl =>
    tryToGetMppHashJoin_fixed_build_side sampleEnv
      (LogicalPlan.join (sampleJoin JoinType.LeftOuterSemiJoin PreferLeftAsHJBuild)) sampleProp
      true sampleMppSemiResult pl (Or.inl rfl) rfl hpl⟩

/-! ## Broadcast or shuffle exchange -/

/-- On the row-count path `isJoinFitMPPBCJ` compares the smaller broadcast row count,
scaled by the store count, with the sum of the shuffled row counts. -/
theorem isJoinFitMPPBCJ_rows (env : Env) (p : LogicalJoin) (n : Int)
    (hh : p.child0.Stats.HistColl = none ∨ p.child1.Stats.HistColl = none) :
    isJoinFitMPPBCJ env p n =
      decide (min ((env.Count p.child0.Stats : ℚ) * ((n - 1 : Int) : ℚ))
          ((env.Count p.child1.Stats : ℚ) * ((n - 1 : Int) : ℚ)) * (n : ℚ)
        ≤ (env.Count p.child0.Stats : ℚ) * ((n - 1 : Int) : ℚ) / (n : ℚ)
          + (env.Count p.child1.Stats : ℚ) * ((n - 1 : Int) : ℚ) / (n : ℚ)) := by
  unfold isJoinFitMPPBCJ calcBroadcastExchangeSizeByChild calcHashExchangeSizeByChild
    calcBroadcastExchangeSize calcHashExchangeSize
  rcases hh with h | h
  · simp only [h]
    cases p.child1.Stats.HistColl <;> simp
  · simp only [h]
    cases p.child0.Stats.HistColl <;> simp

/-- The row-count comparison of `isJoinFitMPPBCJ` survives a raise of the larger count
and a cut of the store count. -/
theorem bcj_rows_mono (a b b2 n n2 : ℚ) (ha : 0 ≤ a) (hbb : b ≤ b2)
    (hn2 : 1 ≤ n2) (hnn : n2 ≤ n)
    (h : a * (n - 1) * n ≤ a * (n - 1) / n + b * (n - 1) / n) :
    a * (n2 - 1) * n2 ≤ a * (n2 - 1) / n2 + b2 * (n2 - 1) / n2 := by
  have hn2pos : 0 < n2 := by linarith
  have hnpos : 0 < n := by linarith
  rcases eq_or_lt_of_le hn2 with h1 | h1
  · rw [← h1]; simp
  · have hn1 : 0 < n - 1 := by linarith
    have hn21 : 0 < n2 - 1 := by linarith
    -- a * n * n ≤ a + b
    have key : a * n * n ≤ a + b := by
      rw [← add_div, le_div_iff₀ hnpos] at h
      have h2 : (a * n * n) * (n - 1) ≤ (a + b) * (n - 1) := by nlinarith
      exact le_of_mul_le_mul_right h2 hn1
    have key2 : a * n2 * n2 ≤ a + b2 := by
      have : a * n2 * n2 ≤ a * n * n := by
        have : n2 * n2 ≤ n * n := by nlinarith
        nlinarith
      linarith
    rw [← add_div, le_div_iff₀ hn2pos]
    nlinarith

/-- The comparison of `isJoinFitMPPBCJ` on the row-count path, with the smaller count
`a` and the larger count `b` named. -/
theorem bcj_rows_of_le (a b : ℚ) (n : ℚ) (hn : 1 ≤ n) (hab : a ≤ b) :
    (min (a * (n - 1)) (b * (n - 1)) * n ≤ a * (n - 1) / n + b * (n - 1) / n)
      ↔ (a * (n - 1) * n ≤ a * (n - 1) / n + b * (n - 1) / n) := by
  have h : a * (n - 1) ≤ b * (n - 1) :=
    mul_le_mul_of_nonneg_right hab (by linarith)
  rw [min_eq_left h]

/-- C15, amended: on the row-count path of `isJoinFitMPPBCJ` (a child without
histograms), with non-negative row counts and store counts `1 ≤ n2 ≤ n`: if broadcast
is preferred at `n` and then the row count of one child is raised while the other is
held fixed, broadcast is still preferred at `n2` provided the raised child is the one
whose count was not below the other's (the smaller count, which is the one broadcast,
is unchanged). -/
theorem isJoinFitMPPBCJ_monotone_in_larger_child (env : Env) (p p2 : LogicalJoin) (n n2 : Int)
    (hn2 : 1 ≤ n2) (hnn : n2 ≤ n)
    (hh : p.child0.Stats.HistColl = none ∨ p.child1.Stats.HistColl = none)
    (hh2 : p2.child0.Stats.HistColl = none ∨ p2.child1.Stats.HistColl = none)
    (h0 : 0 ≤ env.Count p.child0.Stats) (h1 : 0 ≤ env.Count p.child1.Stats)
    (hraise :
      (env.Count p2.child1.Stats = env.Count p.child1.Stats
        ∧ env.Count p.child0.Stats ≤ env.Count p2.child0.Stats
        ∧ env.Count p.child1.Stats ≤ env.Count p.child0.Stats)
      ∨ (env.Count p2.child0.Stats = env.Count p.child0.Stats
        ∧ env.Count p.child1.Stats ≤ env.Count p2.child1.Stats
        ∧ env.Count p.child0.Stats ≤ env.Count p.child1.Stats))
    (hfit : isJoinFitMPPBCJ env p n = true) :
    isJoinFitMPPBCJ env p2 n2 = true := by
  rw [isJoinFitMPPBCJ_rows env p n hh] at hfit
  rw [isJoinFitMPPBCJ_rows env p2 n2 hh2]
  simp only [decide_eq_true_eq] at hfit ⊢
  have hn2q : (1 : ℚ) ≤ (n2 : ℚ) := by exact_mod_cast hn2
  have hnnq : (n2 : ℚ) ≤ (n : ℚ) := by exact_mod_cast hnn
  have hnq : (1 : ℚ) ≤ (n : ℚ) := le_trans hn2q hnnq
  have h0q : (0 : ℚ) ≤ (env.Count p.child0.Stats : ℚ) := by exact_mod_cast h0
  have h1q : (0 : ℚ) ≤ (env.Count p.child1.Stats : ℚ) := by exact_mod_cast h1
  push_cast at hfit ⊢
  rcases hraise with ⟨hfix, hinc, hle⟩ | ⟨hfix, hinc, hle⟩
  · have hincq : (env.Count p.child0.Stats : ℚ) ≤ (env.Count p2.child0.Stats : ℚ) := by
      exact_mod_cast hinc
    have hleq : (env.Count p.child1.Stats : ℚ) ≤ (env.Count p.child0.Stats : ℚ) := by
      exact_mod_cast hle
    rw [hfix]
    rw [min_comm, add_comm, bcj_rows_of_le _ _ _ hnq hleq] at hfit
    rw [min_comm, add_comm, bcj_rows_of_le _ _ _ hn2q (le_trans hleq hincq)]
    exact bcj_rows_mono _ _ _ _ _ h1q hincq hn2q hnnq hfit
  · have hincq : (env.Count p.child1.Stats : ℚ) ≤ (env.Count p2.child1.Stats : ℚ) := by
      exact_mod_cast hinc
    have hleq : (env.Count p.child0.Stats : ℚ) ≤ (env.Count p.child1.Stats : ℚ) := by
      exact_mod_cast hle
    rw [hfix]
    rw [bcj_rows_of_le _ _ _ hnq hleq] at hfit
    rw [bcj_rows_of_le _ _ _ hn2q (le_trans hleq hincq)]
    exact bcj_rows_mono _ _ _ _ _ h0q hincq hn2q hnnq hfit

theorem isJoinFitMPPBCJ_monotone_in_larger_child_witness :
    isJoinFitMPPBCJ sampleEnv (sampleBCJJoin 1 100) 3 = true
      ∧ isJoinFitMPPBCJ sampleEnv (sampleBCJJoin 1 200) 2 = true :=
  ⟨by with_unfolding_all decide,
    isJoinFitMPPBCJ_monotone_in_larger_child sampleEnv (sampleBCJJoin 1 100)
      (sampleBCJJoin 1 200) 3 2 (by decide) (by decide) (Or.inl rfl) (Or.inl rfl)
      (by with_unfolding_all decide) (by with_unfolding_all decide)
      (Or.inr (by with_unfolding_all decide)) (by with_unfolding_all decide)⟩

/-- Raising the smaller child's row count flips `isJoinFitMPPBCJ` from broadcast to
shuffle at an unchanged store count: with 2 stores and no histograms, row counts
(1, 100) prefer broadcast and row counts (100, 100) do not. -/
theorem isJoinFitMPPBCJ_raise_smaller_child_counterexample :
    (sampleBCJJoin 1 100).child0.Stats.HistColl = none
      ∧ (sampleBCJJoin 100 100).child0.Stats.HistColl = none
      ∧ sampleEnv.Count (sampleBCJJoin 1 100).child0.Stats = 1
      ∧ sampleEnv.Count (sampleBCJJoin 1 100).child1.Stats = 100
      ∧ sampleEnv.Count (sampleBCJJoin 100 100).child0.Stats = 100
      ∧ sampleEnv.Count (sampleBCJJoin 100 100).child1.Stats = 100
      ∧ isJoinFitMPPBCJ sampleEnv (sampleBCJJoin 1 100) 2 = true
      ∧ isJoinFitMPPBCJ sampleEnv (sampleBCJJoin 100 100) 2 = false := by
  with_unfolding_all decide

/-! ## MPP hash aggregation -/

/-- The offset `firstMatchingKey` finds lies within the keys. -/
theorem firstMatchingKey_lt (partCol : MPPPartitionColumn) (keys : List MPPPartitionColumn) :
    ∀ (i j : Nat), firstMatchingKey partCol keys i = some j → j < i + keys.length := by
  induction keys with
  | nil => intro i j h; simp [firstMatchingKey] at h
  | cons key rest ih =>
    intro i j h
    simp only [firstMatchingKey] at h
    split_ifs at h
    · simp only [Option.some.injEq] at h
      subst h
      simp
    · have := ih (i + 1) j h
      simp only [List.length_cons]
      omega

/-- The offsets `isSubsetOfLoop` finds lie within the keys. -/
theorem isSubsetOfLoop_lt (keys : List MPPPartitionColumn) :
    ∀ (cols : List MPPPartitionColumn) (found : List Nat),
      isSubsetOfLoop keys cols = some found → ∀ i ∈ found, i < keys.length := by
  intro cols
  induction cols with
  | nil =>
    intro found h i hi
    simp only [isSubsetOfLoop, Option.some.injEq] at h
    subst h
    simp at hi
  | cons partCol rest ih =>
    intro found h i hi
    simp only [isSubsetOfLoop] at h
    cases hf : firstMatchingKey partCol keys 0 with
    | none => rw [hf] at h; simp at h
    | some k =>
      rw [hf] at h
      cases hr : isSubsetOfLoop keys rest with
      | none => rw [hr] at h; simp at h
      | some found2 =>
        rw [hr] at h
        simp only [Option.map_some', Option.some.injEq] at h
        subst h
        rcases List.mem_cons.mp hi with h1 | h1
        · subst h1
          have := firstMatchingKey_lt partCol keys 0 i hf
          omega
        · exact ih found2 hr i h1

/-- The offsets `IsSubsetOf` returns lie within the keys. -/
theorem isSubsetOf_lt (prop : PhysicalProperty) (keys : List MPPPartitionColumn) :
    ∀ i ∈ prop.IsSubsetOf keys, i < keys.length := by
  intro i hi
  unfold PhysicalProperty.IsSubsetOf at hi
  split_ifs at hi
  · simp at hi
  · cases hr : isSubsetOfLoop keys prop.MPPPartitionCols with
    | none => rw [hr] at hi; simp at hi
    | some found =>
      rw [hr] at hi
      exact isSubsetOfLoop_lt keys _ found hr i hi

/-- On offsets within the keys `choosePartitionKeys` does not fault and picks as many
keys as there are offsets. -/
theorem choosePartitionKeys_some (keys : List MPPPartitionColumn) :
    ∀ (found : List Nat), (∀ i ∈ found, i < keys.length) →
      ∃ newKeys, choosePartitionKeys keys found = some newKeys
        ∧ newKeys.length = found.length := by
  intro found
  induction found with
  | nil => intro _; exact ⟨[], rfl, rfl⟩
  | cons id rest ih =>
    intro h
    obtain ⟨newKeys, hn, hl⟩ := ih (fun i hi => h i (List.mem_cons_of_mem _ hi))
    have hid : id < keys.length := h id (List.mem_cons_self _ _)
    refine ⟨keys[id] :: newKeys, ?_, by simp [hl]⟩
    simp only [choosePartitionKeys, hn, List.getElem?_eq_getElem hid]

/-- The closure `finalAggAdjust` keeps the number of aggregate functions. -/
theorem length_finalAggAdjust (aggFuncs : List AggFuncDesc) :
    (finalAggAdjust aggFuncs).length = aggFuncs.length := by
  simp [finalAggAdjust]

/-- After `finalAggAdjust` an aggregate function is in final or complete mode exactly
when it was before. -/
theorem isFinalOrComplete_adjust (agg : AggFuncDesc) :
    (if agg.Mode = AggFunctionMode.FinalMode ∧ agg.Name = ast.AggFuncCount then
        (NewAggFuncDesc ast.AggFuncSum agg.Args false).TypeInfer4FinalCount agg.RetTp
      else agg).isFinalOrComplete = agg.isFinalOrComplete := by
  split_ifs with h
  · simp [AggFuncDesc.isFinalOrComplete, NewAggFuncDesc, AggFuncDesc.TypeInfer4FinalCount, h.1]
  · rfl

/-- On an aggregation with an aggregate function `validMppAgg` does not fault. -/
theorem validMppAgg_isSome (a : PhysicalHashAgg) (h : a.AggFuncs ≠ []) :
    ∃ ok, validMppAgg a = some ok := by
  unfold validMppAgg
  cases hf : a.AggFuncs with
  | nil => exact absurd hf h
  | cons first rest => exact ⟨_, rfl⟩

/-- The closure `validMppAgg` accepts an aggregation whose functions agree with the
first on being in final or complete mode. -/
theorem validMppAgg_of_agree (a : PhysicalHashAgg) (h : a.AggFuncs ≠ [])
    (hagree : aggModesAgree a.AggFuncs = true) : validMppAgg a = some true := by
  unfold validMppAgg
  unfold aggModesAgree at hagree
  cases hf : a.AggFuncs with
  | nil => exact absurd hf h
  | cons first rest =>
    rw [hf] at hagree
    simp only [Option.some.injEq]
    simp only [List.all_eq_true] at hagree ⊢
    intro one hone
    have := hagree one hone
    simp only [AggFuncDesc.isFinalOrComplete] at this
    cases hm : first.Mode <;> cases hm1 : one.Mode <;> simp_all

/-- The aggregate functions of the 1-phase candidate are those of the aggregation
after `finalAggAdjust`. -/
theorem mpp1PhaseAgg_aggFuncs (env : Env) (la : LogicalAggregation) (prop : PhysicalProperty)
    (pc : List MPPPartitionColumn) :
    (mpp1PhaseAgg env la prop pc).AggFuncs = finalAggAdjust la.AggFuncs ∧
      (mpp1PhaseAgg env la prop pc).MppRunMode = AggMppRunMode.Mpp1Phase := ⟨rfl, rfl⟩

/-- Every candidate of `mppGroupedAggs` is the 1-phase candidate or, for an aggregation
that is not final, the 2-phase candidate or the candidate finished on TiDB. -/
theorem mppGroupedAggs_mem (env : Env) (la : LogicalAggregation) (prop : PhysicalProperty)
    (pc : List MPPPartitionColumn) (r : Sum (List PhysicalPlan) (List PhysicalPlan))
    (hr : mppGroupedAggs env la prop pc = some r) (pl : PhysicalPlan)
    (hpl : pl ∈ Sum.elim id id r) :
    ∃ a, pl = PhysicalPlan.hashAgg a ∧
      (a = mpp1PhaseAgg env la prop pc
        ∨ (hasFinalAgg la = false
          ∧ (a = mpp2PhaseAgg env la prop pc
            ∨ a = mppRootAgg env la prop AggMppRunMode.MppTiDB))) := by
  unfold mppGroupedAggs at hr
  simp only at hr
  -- the 1-phase list
  have h1 : ∀ l1 : List PhysicalPlan,
      (if pc.length ≠ 0 ∧ env.vars.EnableSkewDistinctAgg = false then
          (validMppAgg (mpp1PhaseAgg env la prop pc)).map (fun ok =>
            if ok then [PhysicalPlan.hashAgg (mpp1PhaseAgg env la prop pc)] else [])
        else some []) = some l1 →
      ∀ x ∈ l1, x = PhysicalPlan.hashAgg (mpp1PhaseAgg env la prop pc) := by
    intro l1 hl1 x hx
    split_ifs at hl1
    · cases hv : validMppAgg (mpp1PhaseAgg env la prop pc) with
      | none => rw [hv] at hl1; simp at hl1
      | some ok =>
        rw [hv] at hl1
        simp only [Option.map_some', Option.some.injEq] at hl1
        subst hl1
        cases ok <;> simp at hx
        exact hx
    · simp only [Option.some.injEq] at hl1
      subst hl1
      simp at hx
  generalize hone : (if pc.length ≠ 0 ∧ env.vars.EnableSkewDistinctAgg = false then
          (validMppAgg (mpp1PhaseAgg env la prop pc)).map (fun ok =>
            if ok then [PhysicalPlan.hashAgg (mpp1PhaseAgg env la prop pc)] else [])
        else some []) = onePhase at hr h1
  cases onePhase with
  | none => simp at hr
  | some hashAggs1 =>
    have h1 := h1 hashAggs1 rfl
    simp only at hr
    cases hfin : hasFinalAgg la with
    | true =>
      rw [hfin] at hr
      simp only [if_true, Option.some.injEq] at hr
      subst hr
      simp only [Sum.elim_inl, id_eq] at hpl
      exact ⟨_, h1 pl hpl, Or.inl rfl⟩
    | false =>
      rw [hfin] at hr
      simp only [Bool.false_eq_true, if_false] at hr
      cases hv : validMppAgg (mpp2PhaseAgg env la prop pc) with
      | none => rw [hv] at hr; simp at hr
      | some ok =>
        rw [hv] at hr
        simp only at hr
        have h2 : ∀ x ∈ (if ok = true then
              hashAggs1 ++ [PhysicalPlan.hashAgg (mpp2PhaseAgg env la prop pc)]
            else hashAggs1),
            x = PhysicalPlan.hashAgg (mpp1PhaseAgg env la prop pc)
              ∨ x = PhysicalPlan.hashAgg (mpp2PhaseAgg env la prop pc) := by
          intro x hx
          split_ifs at hx
          · rcases List.mem_append.mp hx with hx | hx
            · exact Or.inl (h1 x hx)
            · exact Or.inr (List.mem_singleton.mp hx)
          · exact Or.inl (h1 x hx)
        generalize (if ok = true then
              hashAggs1 ++ [PhysicalPlan.hashAgg (mpp2PhaseAgg env la prop pc)]
            else hashAggs1) = hashAggs2 at hr h2
        by_cases hroot : prop.TaskTp = TaskType.RootTaskType
        · rw [if_pos hroot] at hr
          simp only [Option.some.injEq] at hr
          subst hr
          simp only [Sum.elim_inr, id_eq] at hpl
          rcases List.mem_append.mp hpl with hx | hx
          · rcases h2 pl hx with h | h
            · exact ⟨_, h, Or.inl rfl⟩
            · exact ⟨_, h, Or.inr ⟨rfl, Or.inl rfl⟩⟩
          · exact ⟨_, List.mem_singleton.mp hx, Or.inr ⟨rfl, Or.inr rfl⟩⟩
        · rw [if_neg hroot] at hr
          simp only [Option.some.injEq] at hr
          subst hr
          simp only [Sum.elim_inr, id_eq] at hpl
          rcases h2 pl hpl with h | h
          · exact ⟨_, h, Or.inl rfl⟩
          · exact ⟨_, h, Or.inr ⟨rfl, Or.inl rfl⟩⟩

/-- Every candidate of `mppHashAggCandidates` is a hash aggregation: the 1-phase
candidate or, for an aggregation that is not final, the 2-phase candidate or a
candidate finished on TiDB or in scalar mode. -/
theorem mppHashAggCandidates_mem (env : Env) (la : LogicalAggregation) (prop : PhysicalProperty)
    (r : Sum (List PhysicalPlan) (List PhysicalPlan))
    (hr : mppHashAggCandidates env la prop = some r) (pl : PhysicalPlan)
    (hpl : pl ∈ Sum.elim id id r) :
    ∃ a, pl = PhysicalPlan.hashAgg a ∧
      ((∃ pc, a = mpp1PhaseAgg env la prop pc)
        ∨ (hasFinalAgg la = false
          ∧ ((∃ pc, a = mpp2PhaseAgg env la prop pc)
            ∨ a = mppRootAgg env la prop AggMppRunMode.MppTiDB
            ∨ a = mppRootAgg env la prop AggMppRunMode.MppScalar))) := by
  unfold mppHashAggCandidates at hr
  split_ifs at hr with hg hfin hd
  · cases hp : mppAggPartitionCols env la prop with
    | none => rw [hp] at hr; simp at hr
    | some o =>
      cases o with
      | none =>
        rw [hp] at hr
        simp only [Option.some.injEq] at hr
        subst hr
        simp at hpl
      | some pc =>
        rw [hp] at hr
        simp only at hr
        obtain ⟨a, ha, hs⟩ := mppGroupedAggs_mem env la prop pc r hr pl hpl
        refine ⟨a, ha, ?_⟩
        rcases hs with h | ⟨hf, h | h⟩
        · exact Or.inl ⟨pc, h⟩
        · exact Or.inr ⟨hf, Or.inl ⟨pc, h⟩⟩
        · exact Or.inr ⟨hf, Or.inr (Or.inl h)⟩
  · simp only [Option.some.injEq] at hr
    subst hr
    simp only [Sum.elim_inr, id_eq, List.mem_singleton] at hpl
    simp only [Bool.not_eq_true'] at hfin
    exact ⟨_, hpl, Or.inr ⟨hfin, Or.inr (Or.inr rfl)⟩⟩
  · simp only [Option.some.injEq] at hr
    subst hr
    simp only [Sum.elim_inr, id_eq, List.mem_singleton] at hpl
    simp only [Bool.not_eq_true'] at hfin
    exact ⟨_, hpl, Or.inr ⟨hfin, Or.inr (Or.inl rfl)⟩⟩
  · simp only [Option.some.injEq] at hr
    subst hr
    simp at hpl

/-- Every candidate `tryToGetMppHashAggs` returns is a hash aggregation: the 1-phase
candidate or, for an aggregation that is not final, the 2-phase candidate or a
candidate finished on TiDB or in scalar mode. -/
theorem tryToGetMppHashAggs_mem (env : Env) (la : LogicalAggregation) (prop : PhysicalProperty)
    (plans : List PhysicalPlan) (hret : tryToGetMppHashAggs env la prop = some plans)
    (pl : PhysicalPlan) (hpl : pl ∈ plans) :
    ∃ a, pl = PhysicalPlan.hashAgg a ∧
      ((∃ pc, a = mpp1PhaseAgg env la prop pc)
        ∨ (hasFinalAgg la = false
          ∧ ((∃ pc, a = mpp2PhaseAgg env la prop pc)
            ∨ a = mppRootAgg env la prop AggMppRunMode.MppTiDB
            ∨ a = mppRootAgg env la prop AggMppRunMode.MppScalar))) := by
  unfold tryToGetMppHashAggs at hret
  split_ifs at hret
  · simp only [Option.some.injEq] at hret; subst hret; simp at hpl
  · simp only [Option.some.injEq] at hret; subst hret; simp at hpl
  · simp only [Option.some.injEq] at hret; subst hret; simp at hpl
  · cases hc : mppHashAggCandidates env la prop with
    | none => rw [hc] at hret; simp at hret
    | some r =>
      rw [hc] at hret
      cases r with
      | inl l =>
        simp only [Option.some.injEq] at hret
        subst hret
        exact mppHashAggCandidates_mem env la prop _ hc pl (by simpa using hpl)
      | inr l =>
        simp only [Option.some.injEq] at hret
        subst hret
        have hin : pl ∈ l := by
          unfold handleMppAggHints at hpl
          split_ifs at hpl
          · exact (List.mem_filter.mp hpl).1
          · exact (List.mem_filter.mp hpl).1
          · exact hpl
        exact mppHashAggCandidates_mem env la prop _ hc pl (by simpa using hin)

/-- C17, amended: for an aggregation with a group-by item and an aggregate function,
whose first aggregate function is not in final mode and whose aggregate functions all
agree with the first on being in final or complete mode, with no MPP_1PHASE_AGG hint,
and a required property without sort items, of root or MPP task type, whose partition
type is any or a hash partition matched by a group key: `tryToGetMppHashAggs` returns
a list that contains a hash aggregation of run mode Mpp2Phase whose only child
property asks for the MPP task type with partition type any. -/
theorem tryToGetMppHashAggs_offers_2phase (env : Env) (la : LogicalAggregation)
    (prop : PhysicalProperty)
    (hg : la.GroupByItems.length > 0) (hne : la.AggFuncs ≠ [])
    (hfin : hasFinalAgg la = false) (hagree : aggModesAgree la.AggFuncs = true)
    (hhint : la.PreferAggType &&& PreferMPP1PhaseAgg = 0)
    (hsort : prop.IsSortItemEmpty = true)
    (htask : prop.TaskTp = TaskType.RootTaskType ∨ prop.TaskTp = TaskType.MppTaskType)
    (hpart : prop.MPPPartitionTp = MPPPartitionType.AnyType
      ∨ (prop.MPPPartitionTp = MPPPartitionType.HashType
        ∧ (prop.IsSubsetOf (la.GetPotentialPartitionKeys env)).length ≠ 0)) :
    ∃ plans, tryToGetMppHashAggs env la prop = some plans ∧
      ∃ a, PhysicalPlan.hashAgg a ∈ plans ∧ a.MppRunMode = AggMppRunMode.Mpp2Phase ∧
        ∃ childProp, a.childrenReqProps = [childProp]
          ∧ childProp.TaskTp = TaskType.MppTaskType
          ∧ childProp.MPPPartitionTp = MPPPartitionType.AnyType := by
  -- the partition columns are settled
  have hpc : ∃ pc, mppAggPartitionCols env la prop = some (some pc) := by
    unfold mppAggPartitionCols
    simp only
    rcases hpart with h | ⟨h, hm⟩
    · rw [h]; simp
    · rw [if_pos h, if_neg hm]
      obtain ⟨newKeys, hn, _⟩ := choosePartitionKeys_some (la.GetPotentialPartitionKeys env)
        (prop.IsSubsetOf (la.GetPotentialPartitionKeys env)) (isSubsetOf_lt prop _)
      exact ⟨newKeys, by rw [hn]; rfl⟩
  obtain ⟨pc, hpc⟩ := hpc
  -- the grouped candidates contain the 2-phase candidate
  have hgr : ∃ l, mppGroupedAggs env la prop pc = some (Sum.inr l)
      ∧ PhysicalPlan.hashAgg (mpp2PhaseAgg env la prop pc) ∈ l := by
    have hne1 : (mpp1PhaseAgg env la prop pc).AggFuncs ≠ [] := by
      intro h
      have hl := congrArg List.length h
      rw [(mpp1PhaseAgg_aggFuncs env la prop pc).1, length_finalAggAdjust] at hl
      exact hne (List.length_eq_zero.mp hl)
    obtain ⟨ok1, h1⟩ := validMppAgg_isSome (mpp1PhaseAgg env la prop pc) hne1
    have h2 : validMppAgg (mpp2PhaseAgg env la prop pc) = some true :=
      validMppAgg_of_agree _ hne hagree
    unfold mppGroupedAggs
    simp only [h1, h2, hfin, Option.map_some']
    by_cases hc : pc.length ≠ 0 ∧ env.vars.EnableSkewDistinctAgg = false
    · rw [if_pos hc]
      simp only [Bool.false_eq_true, if_false, if_true]
      split_ifs <;> exact ⟨_, rfl, by simp⟩
    · rw [if_neg hc]
      simp only [Bool.false_eq_true, if_false, if_true]
      split_ifs <;> exact ⟨_, rfl, by simp⟩
  obtain ⟨l, hl, hmem⟩ := hgr
  have hcand : mppHashAggCandidates env la prop = some (Sum.inr l) := by
    unfold mppHashAggCandidates
    rw [if_pos hg, hpc]
    exact hl
  have hkeep : PhysicalPlan.hashAgg (mpp2PhaseAgg env la prop pc) ∈ handleMppAggHints la l := by
    unfold handleMppAggHints
    rw [if_neg (by omega)]
    split_ifs
    · exact List.mem_filter.mpr ⟨hmem, by simp [isHashAggOfMode, mpp2PhaseAgg]⟩
    · exact hmem
  refine ⟨handleMppAggHints la l, ?_, mpp2PhaseAgg env la prop pc, hkeep, rfl, _, rfl, rfl, rfl⟩
  unfold tryToGetMppHashAggs
  rw [if_neg (by simp [hsort]), if_neg (by rcases htask with h | h <;> simp [h]), hcand]
  have hb : prop.MPPPartitionTp ≠ MPPPartitionType.BroadcastType := by
    rcases hpart with h | ⟨h, _⟩ <;> simp [h]
  rw [if_neg hb]

theorem tryToGetMppHashAggs_offers_2phase_witness :
    ∃ plans, tryToGetMppHashAggs sampleEnv (sampleAgg AggFunctionMode.CompleteMode 0) sampleProp
        = some plans ∧
      ∃ a, PhysicalPlan.hashAgg a ∈ plans ∧ a.MppRunMode = AggMppRunMode.Mpp2Phase ∧
        ∃ childProp, a.childrenReqProps = [childProp]
          ∧ childProp.TaskTp = TaskType.MppTaskType
          ∧ childProp.MPPPartitionTp = MPPPartitionType.AnyType :=
  tryToGetMppHashAggs_offers_2phase sampleEnv (sampleAgg AggFunctionMode.CompleteMode 0)
    sampleProp (by decide) (by simp [sampleAgg]) (by decide) (by decide) (by decide) (by decide)
    (Or.inl rfl) (Or.inl rfl)

/-- An aggregation whose functions disagree on their mode gets no 2-phase candidate:
for a complete-mode sum followed by a partial-mode sum, grouped by a partition key,
without hints and under a root property without sort items and with partition type
any, `tryToGetMppHashAggs` returns only the candidate finished on TiDB. -/
theorem tryToGetMppHashAggs_mixed_modes_counterexample :
    (sampleAggTwo ast.AggFuncSum AggFunctionMode.Partial1Mode).GroupByItems.length > 0
      ∧ (sampleAggTwo ast.AggFuncSum AggFunctionMode.Partial1Mode).AggFuncs.length > 0
      ∧ hasFinalAgg (sampleAggTwo ast.AggFuncSum AggFunctionMode.Partial1Mode) = false
      ∧ (sampleAggTwo ast.AggFuncSum AggFunctionMode.Partial1Mode).PreferAggType
          &&& PreferMPP1PhaseAgg = 0
      ∧ sampleProp.IsSortItemEmpty = true
      ∧ sampleProp.TaskTp = TaskType.RootTaskType
      ∧ sampleProp.MPPPartitionTp = MPPPartitionType.AnyType
      ∧ (tryToGetMppHashAggs sampleEnv (sampleAggTwo ast.AggFuncSum AggFunctionMode.Partial1Mode)
            sampleProp).map (fun plans => plans.map PhysicalPlan.mppRunMode)
          = some [some AggMppRunMode.MppTiDB] := by
  decide

/-- The closure `finalAggAdjust` turns each final-mode count into a sum over the same
arguments and leaves every other aggregate function as it is. -/
theorem finalAggAdjust_spec (aggFuncs : List AggFuncDesc) :
    (finalAggAdjust aggFuncs).length = aggFuncs.length
      ∧ (∀ g ∈ finalAggAdjust aggFuncs, g.isFinalCount = false)
      ∧ ∀ (i : Nat) (f : AggFuncDesc), aggFuncs[i]? = some f →
          ∃ g, (finalAggAdjust aggFuncs)[i]? = some g
            ∧ (if f.isFinalCount = true then g.Name = ast.AggFuncSum ∧ g.Args = f.Args
              else g = f) := by
  refine ⟨length_finalAggAdjust aggFuncs, ?_, ?_⟩
  · intro g hg
    unfold finalAggAdjust at hg
    obtain ⟨f, _, hf⟩ := List.mem_map.mp hg
    subst hf
    split_ifs with h
    · simp [AggFuncDesc.isFinalCount, NewAggFuncDesc, AggFuncDesc.TypeInfer4FinalCount]
    · simp only [AggFuncDesc.isFinalCount, Bool.and_eq_false_imp, decide_eq_true_eq,
        decide_eq_false_iff_not]
      intro h1 h2
      exact h ⟨h1, h2⟩
  · intro i f hf
    unfold finalAggAdjust
    rw [List.getElem?_map, hf]
    refine ⟨_, rfl, ?_⟩
    dsimp only
    by_cases h : f.Mode = AggFunctionMode.FinalMode ∧ f.Name = ast.AggFuncCount
    · have hc : f.isFinalCount = true := by
        simp [AggFuncDesc.isFinalCount, h.1, h.2]
      rw [if_pos h, if_pos hc]
      exact ⟨rfl, rfl⟩
    · have hc : ¬ f.isFinalCount = true := by
        simp only [AggFuncDesc.isFinalCount, Bool.and_eq_true, decide_eq_true_eq]
        exact h
      rw [if_neg h, if_neg hc]

/-- What the candidates of `tryToGetMppHashAggs` carry: in a candidate whose run mode is
Mpp1Phase no aggregate function is a final-mode COUNT, each final-mode COUNT of the
logical aggregation appearing at its position as a SUM over the same arguments and
every other aggregate function unchanged; a candidate of another run mode carries all
the aggregate functions as they are, a final-mode COUNT included, and is only returned
for an aggregation whose first aggregate function is not final. -/
theorem tryToGetMppHashAggs_final_count_to_sum (env : Env) (la : LogicalAggregation)
    (prop : PhysicalProperty) (plans : List PhysicalPlan) (pl : PhysicalPlan)
    (hret : tryToGetMppHashAggs env la prop = some plans) (hpl : pl ∈ plans) :
    ∃ a, pl = PhysicalPlan.hashAgg a ∧
      (a.MppRunMode = AggMppRunMode.Mpp1Phase →
        a.AggFuncs.length = la.AggFuncs.length
          ∧ (∀ g ∈ a.AggFuncs, g.isFinalCount = false)
          ∧ ∀ (i : Nat) (f : AggFuncDesc), la.AggFuncs[i]? = some f →
              ∃ g, a.AggFuncs[i]? = some g
                ∧ (if f.isFinalCount = true then g.Name = ast.AggFuncSum ∧ g.Args = f.Args
                  else g = f)) ∧
      (a.MppRunMode ≠ AggMppRunMode.Mpp1Phase →
        a.AggFuncs = la.AggFuncs ∧ hasFinalAgg la = false) := by
  obtain ⟨a, ha, hs⟩ := tryToGetMppHashAggs_mem env la prop plans hret pl hpl
  refine ⟨a, ha, ?_, ?_⟩
  · intro hm
    rcases hs with ⟨pc, h⟩ | ⟨_, ⟨pc, h⟩ | h | h⟩
    · rw [h, (mpp1PhaseAgg_aggFuncs env la prop pc).1]
      exact finalAggAdjust_spec la.AggFuncs
    · rw [h] at hm; exact absurd hm (by simp [mpp2PhaseAgg])
    · rw [h] at hm; exact absurd hm (by simp [mppRootAgg])
    · rw [h] at hm; exact absurd hm (by simp [mppRootAgg])
  · intro hm
    rcases hs with ⟨pc, h⟩ | ⟨hf, ⟨pc, h⟩ | h | h⟩
    · rw [h] at hm; exact absurd rfl hm
    · rw [h]; exact ⟨rfl, hf⟩
    · rw [h]; exact ⟨rfl, hf⟩
    · rw [h]; exact ⟨rfl, hf⟩

theorem tryToGetMppHashAggs_final_count_to_sum_witness :
    ((tryToGetMppHashAggs sampleEnv (sampleAgg AggFunctionMode.FinalMode 0) sampleProp).getD
        []).length = 1
      ∧ ∀ pl ∈ (tryToGetMppHashAggs sampleEnv (sampleAgg AggFunctionMode.FinalMode 0)
          sampleProp).getD [],
        ∃ a, pl = PhysicalPlan.hashAgg a ∧
          (a.MppRunMode = AggMppRunMode.Mpp1Phase →
            a.AggFuncs.length = (sampleAgg AggFunctionMode.FinalMode 0).AggFuncs.length
              ∧ (∀ g ∈ a.AggFuncs, g.isFinalCount = false)
              ∧ ∀ (i : Nat) (f : AggFuncDesc),
                  (sampleAgg AggFunctionMode.FinalMode 0).AggFuncs[i]? = some f →
                  ∃ g, a.AggFuncs[i]? = some g
                    ∧ (if f.isFinalCount = true then
                        g.Name = ast.AggFuncSum ∧ g.Args = f.Args
                      else g = f)) ∧
          (a.MppRunMode ≠ AggMppRunMode.Mpp1Phase →
            a.AggFuncs = (sampleAgg AggFunctionMode.FinalMode 0).AggFuncs
              ∧ hasFinalAgg (sampleAgg AggFunctionMode.FinalMode 0) = false) :=
  ⟨by decide, fun pl hpl =>
    tryToGetMppHashAggs_final_count_to_sum sampleEnv (sampleAgg AggFunctionMode.FinalMode 0)
      sampleProp _ pl rfl hpl⟩

/-- C19: evaluation of `tryToGetMppHashAggs` on the aggregation `GROUP BY t1.a` of a
complete-mode sum followed by a final-mode count, under a root property: the first
aggregate function is not final, so the aggregation does not count as a final-stage
aggregate, and of the three candidates returned only the 1-phase one has the final
COUNT turned into a SUM; the 2-phase candidate and the candidate finished on TiDB
still carry the final-mode COUNT on the MPP path. -/
theorem tryToGetMppHashAggs_keeps_final_count_past_1phase :
    (sampleAggTwo ast.AggFuncCount AggFunctionMode.FinalMode).AggFuncs.map
        AggFuncDesc.isFinalCount = [false, true]
      ∧ hasFinalAgg (sampleAggTwo ast.AggFuncCount AggFunctionMode.FinalMode) = false
      ∧ (tryToGetMppHashAggs sampleEnv (sampleAggTwo ast.AggFuncCount AggFunctionMode.FinalMode)
        sampleProp).map
        (fun plans => plans.map (fun pl => (pl.mppRunMode, pl.carriesFinalCount)))
      = some [(some AggMppRunMode.Mpp1Phase, false), (some AggMppRunMode.Mpp2Phase, true),
          (some AggMppRunMode.MppTiDB, true)] := by
  decide

/-! ## Index joins built from a completed inner task -/

/-- Every index join `constructIndexJoin` returns carries the index column lengths of
the chosen path. -/
theorem constructIndexJoin_idxColLens (env : Env) (p : LogicalJoin) (prop : PhysicalProperty)
    (outerIdx : Nat) (innerTask : InnerTask) (ranges : Option (List Range))
    (keyOff2IdxOff : List Int) (pa : AccessPath)
    (compareFilters : Option ColWithCmpFuncManager) (extractOtherEQ : Bool)
    (joins : List PhysicalIndexJoin)
    (hij : constructIndexJoin env p prop outerIdx innerTask ranges keyOff2IdxOff (some pa)
      compareFilters extractOtherEQ = some joins) :
    ∀ join ∈ joins, join.IdxColLens = pa.IdxColLens := by
  intro join hjoin
  unfold constructIndexJoin at hij
  by_cases h1 : innerTask.Invalid = true
  · rw [if_pos h1] at hij
    simp only [Option.some.injEq] at hij; subst hij; simp at hjoin
  rw [if_neg h1] at hij
  simp only at hij
  by_cases h2 : p.GetJoinKeys.2.2.2 = true
  · rw [if_pos h2] at hij
    simp only [Option.some.injEq] at hij; subst hij; simp at hjoin
  rw [if_neg h2] at hij
  split at hij
  · simp at hij
  · split at hij
    · simp at hij
    · simp only [Option.some.injEq] at hij
      subst hij
      simp only [List.mem_singleton] at hjoin
      rw [hjoin]
      rfl

/-- The loop of `constructIndexMergeJoin` ends without a candidate when every index
join has more hash keys than join keys, a key of type ENUM or SET, or an index column
with a prefix length. -/
theorem constructIndexMergeJoinLoop_rejects (prop : PhysicalProperty) :
    ∀ (joins : List PhysicalIndexJoin),
      (∀ join ∈ joins,
        join.InnerHashKeys.length > join.InnerJoinKeys.length
          ∨ (∃ k ∈ join.InnerJoinKeys, k.RetType = mysql.TypeEnum ∨ k.RetType = mysql.TypeSet)
          ∨ (∃ k ∈ join.OuterJoinKeys, k.RetType = mysql.TypeEnum ∨ k.RetType = mysql.TypeSet)
          ∨ (∃ l ∈ join.IdxColLens, l ≠ types.UnspecifiedLength)) →
      constructIndexMergeJoinLoop prop joins [] = some [] := by
  intro joins
  induction joins with
  | nil => intro _; rfl
  | cons join rest ih =>
    intro h
    have hrest := ih (fun j hj => h j (List.mem_cons_of_mem _ hj))
    unfold constructIndexMergeJoinLoop
    by_cases h1 : join.InnerHashKeys.length > join.InnerJoinKeys.length
    · rw [if_pos h1]
    rw [if_neg h1]
    by_cases h2 : join.InnerJoinKeys.any (fun innerKey =>
        innerKey.RetType == mysql.TypeEnum || innerKey.RetType == mysql.TypeSet) = true
    · rw [if_pos h2]
    rw [if_neg h2]
    by_cases h3 : join.OuterJoinKeys.any (fun outerKey =>
        outerKey.RetType == mysql.TypeEnum || outerKey.RetType == mysql.TypeSet) = true
    · rw [if_pos h3]
    rw [if_neg h3]
    have h4 : join.IdxColLens.any (fun l => l != types.UnspecifiedLength) = true := by
      rcases h join (List.mem_cons_self _ _) with hb | ⟨k, hk, hb⟩ | ⟨k, hk, hb⟩ | ⟨l, hl, hb⟩
      · exact absurd hb h1
      · exfalso
        apply h2
        rw [List.any_eq_true]
        exact ⟨k, hk, by rcases hb with hb | hb <;> simp [hb]⟩
      · exfalso
        apply h3
        rw [List.any_eq_true]
        exact ⟨k, hk, by rcases hb with hb | hb <;> simp [hb]⟩
      · rw [List.any_eq_true]
        exact ⟨l, hl, by simpa using hb⟩
    rw [if_pos h4]
    exact hrest

/-- C11: `constructIndexMergeJoin` returns no candidate when the underlying index join
(what `constructIndexJoin` returns on the same arguments) extracted more hash keys
than join keys, when one of its inner or outer join keys has type ENUM or SET, or when
an index column length of the chosen path is a prefix length, different from
`UnspecifiedLength`. -/
theorem constructIndexMergeJoin_rejects (env : Env) (p : LogicalJoin) (prop : PhysicalProperty)
    (outerIdx : Nat) (innerTask : InnerTask) (ranges : Option (List Range))
    (keyOff2IdxOff : List Int) (path : Option AccessPath)
    (compareFilters : Option ColWithCmpFuncManager) (joins : List PhysicalIndexJoin)
    (hij : constructIndexJoin env p prop outerIdx innerTask ranges keyOff2IdxOff path
      compareFilters (!indexMergeJoinHintExists p outerIdx) = some joins)
    (hbad : (∀ join ∈ joins, join.InnerHashKeys.length > join.InnerJoinKeys.length)
      ∨ (∀ join ∈ joins,
          ∃ k ∈ join.InnerJoinKeys, k.RetType = mysql.TypeEnum ∨ k.RetType = mysql.TypeSet)
      ∨ (∀ join ∈ joins,
          ∃ k ∈ join.OuterJoinKeys, k.RetType = mysql.TypeEnum ∨ k.RetType = mysql.TypeSet)
      ∨ (∃ pa, path = some pa ∧ ∃ l ∈ pa.IdxColLens, l ≠ types.UnspecifiedLength)) :
    constructIndexMergeJoin env p prop outerIdx innerTask ranges keyOff2IdxOff path
      compareFilters = some [] := by
  unfold constructIndexMergeJoin
  simp only [hij]
  apply constructIndexMergeJoinLoop_rejects
  intro join hjoin
  rcases hbad with h | h | h | ⟨pa, hpa, l, hl, hne⟩
  · exact Or.inl (h join hjoin)
  · exact Or.inr (Or.inl (h join hjoin))
  · exact Or.inr (Or.inr (Or.inl (h join hjoin)))
  · subst hpa
    have := constructIndexJoin_idxColLens env p prop outerIdx innerTask ranges keyOff2IdxOff pa
      compareFilters _ joins hij join hjoin
    exact Or.inr (Or.inr (Or.inr ⟨l, by rw [this]; exact hl, hne⟩))

theorem constructIndexMergeJoin_rejects_witness :
    sampleEnumIndexJoins.length = 1
      ∧ constructIndexMergeJoin sampleEnv sampleEnumJoin sampleProp 0 sampleInnerTask none [0]
          none none = some [] :=
  ⟨by decide,
    constructIndexMergeJoin_rejects sampleEnv sampleEnumJoin sampleProp 0 sampleInnerTask none
      [0] none none sampleEnumIndexJoins rfl
      (Or.inr (Or.inr (Or.inl (fun join hjoin =>
        ⟨colT1E,
          (beq_iff_eq.mp (List.all_eq_true.mp
            (by decide : sampleEnumIndexJoins.all
              (fun j => j.OuterJoinKeys == [colT1E]) = true) join hjoin)).symm ▸
            List.mem_singleton_self colT1E,
          Or.inl rfl⟩))))⟩

/-! ## Enumerators of the single-child operators and of union all -/

/-- The selection enumerator always returns the flag true and no error. -/
theorem exhaustPhysicalPlans4LogicalSelection_flag (env : Env) (p : LogicalSelection)
    (prop : PhysicalProperty) :
    (exhaustPhysicalPlans4LogicalSelection env p prop).2 = (true, none) := rfl

/-- The projection enumerator always returns the flag true and no error. -/
theorem exhaustPhysicalPlans4LogicalProjection_flag (env : Env) (super : ProjectionPlan)
    (prop : PhysicalProperty) :
    (exhaustPhysicalPlans4LogicalProjection env super prop).2 = (true, none) := by
  unfold exhaustPhysicalPlans4LogicalProjection
  simp only
  split <;> rfl

/-- The limit enumerator always returns the flag true and no error. -/
theorem exhaustPhysicalPlans4LogicalLimit_flag (env : Env) (p : LogicalLimit)
    (prop : PhysicalProperty) :
    (exhaustPhysicalPlans4LogicalLimit env p prop).2 = (true, none) := by
  unfold exhaustPhysicalPlans4LogicalLimit getLimitPhysicalPlans
  split_ifs <;> rfl

/-- The TopN enumerator always returns the flag true and no error. -/
theorem exhaustPhysicalPlans4LogicalTopN_flag (env : Env) (lt : LogicalTopN)
    (prop : PhysicalProperty) :
    (exhaustPhysicalPlans4LogicalTopN env lt prop).2 = (true, none) := by
  unfold exhaustPhysicalPlans4LogicalTopN
  split_ifs <;> rfl

/-- The sort enumerator always returns the flag true and no error. -/
theorem exhaustPhysicalPlans4LogicalSort_flag (env : Env) (ls : LogicalSort)
    (prop : PhysicalProperty) :
    (exhaustPhysicalPlans4LogicalSort env ls prop).2 = (true, none) := by
  unfold exhaustPhysicalPlans4LogicalSort
  split
  · split_ifs
    · split <;> rfl
    · rfl
  · split <;> rfl
  · rfl

/-- The union-all enumerator always returns the flag true and no error. -/
theorem exhaustPhysicalPlans4LogicalUnionAll_flag (env : Env) (p : LogicalUnionAll)
    (prop : PhysicalProperty) :
    (exhaustPhysicalPlans4LogicalUnionAll env p prop).2 = (true, none) := by
  unfold exhaustPhysicalPlans4LogicalUnionAll
  simp only
  split_ifs <;> rfl

/-- The tail of `tryToGetMppWindows` does not fault. -/
theorem buildMppWindow_isSome (env : Env) (lw : LogicalWindow) (prop : PhysicalProperty) :
    ∃ windows, buildMppWindow env lw prop = some windows := by
  unfold buildMppWindow
  simp only
  by_cases hp : (!env.IsPrefix prop
      { ExpectedCnt := MaxFloat64, CanAddEnforcer := true,
        SortItems := lw.PartitionBy ++ lw.OrderBy, TaskTp := TaskType.MppTaskType,
        SortItemsForPartition := lw.PartitionBy ++ lw.OrderBy,
        CTEProducerStatus := prop.CTEProducerStatus }) = true
  · rw [if_pos hp]; exact ⟨_, rfl⟩
  rw [if_neg hp]
  by_cases h1 : lw.PartitionBy.length > 0
  · rw [if_pos h1]
    by_cases h2 : prop.MPPPartitionTp = MPPPartitionType.HashType
    · rw [if_pos h2]
      by_cases h3 : (prop.IsSubsetOf (env.WindowPartitionKeys lw)).length = 0
      · rw [if_pos h3]; exact ⟨_, rfl⟩
      · rw [if_neg h3]
        obtain ⟨chosen, hc, _⟩ := choosePartitionKeys_some (env.WindowPartitionKeys lw)
          (prop.IsSubsetOf (env.WindowPartitionKeys lw)) (isSubsetOf_lt prop _)
        rw [hc]
        simp only
        split_ifs <;> exact ⟨_, rfl⟩
    · rw [if_neg h2]
      simp only
      split_ifs <;> exact ⟨_, rfl⟩
  · rw [if_neg h1]
    simp only
    split_ifs <;> exact ⟨_, rfl⟩

/-- The MPP window enumeration does not fault. -/
theorem tryToGetMppWindows_isSome (env : Env) (lw : LogicalWindow) (prop : PhysicalProperty) :
    ∃ r, tryToGetMppWindows env lw prop = some r := by
  unfold tryToGetMppWindows
  split_ifs
  · exact ⟨_, rfl⟩
  · exact ⟨_, rfl⟩
  · exact ⟨_, rfl⟩
  · simp only
    split
    · exact ⟨_, rfl⟩
    · exact ⟨_, rfl⟩
    · split
      · exact ⟨_, rfl⟩
      · obtain ⟨windows, hw⟩ := buildMppWindow_isSome env lw prop
        rw [hw]
        exact ⟨_, rfl⟩

/-- The window enumerator does not fault, and always returns the flag true and no
error. -/
theorem exhaustPhysicalPlans4LogicalWindow_flag (env : Env) (lw : LogicalWindow)
    (prop : PhysicalProperty) :
    ∃ res w, exhaustPhysicalPlans4LogicalWindow env lw prop = some (res, w)
      ∧ res.2 = (true, none) := by
  have hm : ∃ r, (if env.vars.IsMPPAllowed = true then tryToGetMppWindows env lw prop
      else some ([], [])) = some r := by
    split_ifs
    · exact tryToGetMppWindows_isSome env lw prop
    · exact ⟨_, rfl⟩
  obtain ⟨r, hr⟩ := hm
  unfold exhaustPhysicalPlans4LogicalWindow
  simp only [hr]
  split_ifs <;> exact ⟨_, _, rfl, rfl⟩

/-- C20: for each of the selection, projection, limit, TopN, sort, window and union-all
enumerators and every required property, whenever the enumerator returns an empty
candidate list it returns the flag true and a nil error; the window enumerator, the
only one with an indexing step, always returns. -/
theorem enumerators_empty_list_is_authoritative (env : Env) (prop : PhysicalProperty) :
    (∀ p : LogicalSelection, (exhaustPhysicalPlans4LogicalSelection env p prop).1 = [] →
        (exhaustPhysicalPlans4LogicalSelection env p prop).2 = (true, none))
      ∧ (∀ super : ProjectionPlan,
        (exhaustPhysicalPlans4LogicalProjection env super prop).1 = [] →
        (exhaustPhysicalPlans4LogicalProjection env super prop).2 = (true, none))
      ∧ (∀ p : LogicalLimit, (exhaustPhysicalPlans4LogicalLimit env p prop).1 = [] →
        (exhaustPhysicalPlans4LogicalLimit env p prop).2 = (true, none))
      ∧ (∀ lt : LogicalTopN, (exhaustPhysicalPlans4LogicalTopN env lt prop).1 = [] →
        (exhaustPhysicalPlans4LogicalTopN env lt prop).2 = (true, none))
      ∧ (∀ ls : LogicalSort, (exhaustPhysicalPlans4LogicalSort env ls prop).1 = [] →
        (exhaustPhysicalPlans4LogicalSort env ls prop).2 = (true, none))
      ∧ (∀ lw : LogicalWindow,
        ∃ res w, exhaustPhysicalPlans4LogicalWindow env lw prop = some (res, w)
          ∧ (res.1 = [] → res.2 = (true, none)))
      ∧ (∀ p : LogicalUnionAll, (exhaustPhysicalPlans4LogicalUnionAll env p prop).1 = [] →
        (exhaustPhysicalPlans4LogicalUnionAll env p prop).2 = (true, none)) := by
  refine ⟨?_, ?_, ?_, ?_, ?_, ?_, ?_⟩
  · intro p _; exact exhaustPhysicalPlans4LogicalSelection_flag env p prop
  · intro super _; exact exhaustPhysicalPlans4LogicalProjection_flag env super prop
  · intro p _; exact exhaustPhysicalPlans4LogicalLimit_flag env p prop
  · intro lt _; exact exhaustPhysicalPlans4LogicalTopN_flag env lt prop
  · intro ls _; exact exhaustPhysicalPlans4LogicalSort_flag env ls prop
  · intro lw
    obtain ⟨res, w, h, hf⟩ := exhaustPhysicalPlans4LogicalWindow_flag env lw prop
    exact ⟨res, w, h, fun _ => hf⟩
  · intro p _; exact exhaustPhysicalPlans4LogicalUnionAll_flag env p prop

theorem enumerators_empty_list_is_authoritative_witness :
    (exhaustPhysicalPlans4LogicalLimit sampleEnv sampleLimit samplePropSorted).1.length = 0
      ∧ (exhaustPhysicalPlans4LogicalLimit sampleEnv sampleLimit samplePropSorted).2
        = (true, none) :=
  ⟨by decide,
    (enumerators_empty_list_is_authoritative sampleEnv samplePropSorted).2.2.1 sampleLimit rfl⟩

/-! ## Limit and TopN -/

/-- The loop of `MatchItems`, read position by position. -/
theorem matchItemsLoop_iff :
    ∀ (cols : List SortItem) (items : List ByItems), cols.length ≤ items.length →
      (matchItemsLoop cols items = true ↔
        ∀ (i : Nat) (col : SortItem), cols[i]? = some col →
          ∃ sortItem, items[i]? = some sortItem ∧ sortItem.Desc = col.Desc
            ∧ col.Col.EqualColumnExpr sortItem.Expr = true) := by
  intro cols
  induction cols with
  | nil =>
    intro items _
    simp [matchItemsLoop]
  | cons col cols ih =>
    intro items hlen
    cases items with
    | nil => simp at hlen
    | cons sortItem items =>
      have hlen2 : cols.length ≤ items.length := by simpa using hlen
      simp only [matchItemsLoop]
      constructor
      · intro h
        split_ifs at h with hbad
        have hrest := (ih items hlen2).mp h
        intro i c hc
        cases i with
        | zero =>
          simp only [List.getElem?_cons_zero, Option.some.injEq] at hc
          subst hc
          refine ⟨sortItem, by simp, ?_, ?_⟩
          · by_contra hd
            apply hbad
            simp [hd]
          · by_contra he
            apply hbad
            simp [he]
        | succ j =>
          simp only [List.getElem?_cons_succ] at hc ⊢
          exact hrest j c hc
      · intro h
        obtain ⟨s0, hs0, hd, he⟩ := h 0 col (by simp)
        simp only [List.getElem?_cons_zero, Option.some.injEq] at hs0
        subst hs0
        have hgood : ¬ ((sortItem.Desc != col.Desc
            || !col.Col.EqualColumnExpr sortItem.Expr) = true) := by
          simp [hd, he]
        rw [if_neg hgood]
        apply (ih items hlen2).mpr
        intro i c hc
        have := h (i + 1) c (by simpa using hc)
        simpa using this

/-- C24: `MatchItems p items` is true if and only if `p.SortItems` is no longer than
`items` and, at every position of `p.SortItems`, the item has the same direction as
the sort item and its expression is the column of the sort item; it is true for every
`items` when `p` has no sort items; and `exhaustPhysicalPlans4LogicalTopN` returns
candidates only when it is true. -/
theorem MatchItems_iff_leading_items (env : Env) (p : PhysicalProperty) (items : List ByItems)
    (lt : LogicalTopN) :
    (MatchItems p items = true ↔
        p.SortItems.length ≤ items.length
          ∧ ∀ (i : Nat) (col : SortItem), p.SortItems[i]? = some col →
              ∃ sortItem, items[i]? = some sortItem ∧ sortItem.Desc = col.Desc
                ∧ col.Col.EqualColumnExpr sortItem.Expr = true)
      ∧ (p.SortItems = [] → MatchItems p items = true)
      ∧ ((exhaustPhysicalPlans4LogicalTopN env lt p).1 ≠ [] →
          MatchItems p lt.ByItems = true) := by
  have hiff : MatchItems p items = true ↔
      p.SortItems.length ≤ items.length
        ∧ ∀ (i : Nat) (col : SortItem), p.SortItems[i]? = some col →
            ∃ sortItem, items[i]? = some sortItem ∧ sortItem.Desc = col.Desc
              ∧ col.Col.EqualColumnExpr sortItem.Expr = true := by
    unfold MatchItems
    by_cases hlen : items.length < p.SortItems.length
    · rw [if_pos hlen]
      constructor
      · intro h; exact absurd h (by simp)
      · intro h; omega
    · rw [if_neg hlen]
      have hle : p.SortItems.length ≤ items.length := by omega
      rw [matchItemsLoop_iff p.SortItems items hle]
      constructor
      · intro h; exact ⟨hle, h⟩
      · intro h; exact h.2
  refine ⟨hiff, ?_, ?_⟩
  · intro hnil
    rw [hiff, hnil]
    simp
  · intro hne
    unfold exhaustPhysicalPlans4LogicalTopN at hne
    by_cases hm : MatchItems p lt.ByItems = true
    · exact hm
    · rw [if_neg hm] at hne
      exact absurd rfl hne

theorem MatchItems_iff_leading_items_witness :
    MatchItems sampleProp (sampleTopN 10 0).ByItems = true
      ∧ MatchItems samplePropSorted (sampleTopN 10 0).ByItems = true :=
  ⟨(MatchItems_iff_leading_items sampleEnv sampleProp (sampleTopN 10 0).ByItems (sampleTopN 10 0)).2.1
      rfl,
    (MatchItems_iff_leading_items sampleEnv samplePropSorted (sampleTopN 10 0).ByItems
      (sampleTopN 10 0)).2.2 (by simp [exhaustPhysicalPlans4LogicalTopN, MatchItems,
        matchItemsLoop, samplePropSorted, sampleTopN, Column.EqualColumnExpr,
        Column.EqualColumn, getPhysTopN, sampleEnv, sampleVars])⟩

/-- On by-items that are bare columns `GetPropByOrderByItems` yields the property
sorted by them. -/
theorem GetPropByOrderByItems_of_columns :
    ∀ (items : List ByItems), (∀ b ∈ items, ∃ c, b.Expr = Expression.column c) →
      ∃ q, GetPropByOrderByItems items = some q
        ∧ q.SortItems.map (fun s => (Expression.column s.Col, s.Desc))
          = items.map (fun b => (b.Expr, b.Desc)) := by
  intro items
  induction items with
  | nil => intro _; exact ⟨{}, rfl, rfl⟩
  | cons item rest ih =>
    intro h
    obtain ⟨q, hq, hs⟩ := ih (fun b hb => h b (List.mem_cons_of_mem _ hb))
    obtain ⟨c, hc⟩ := h item (List.mem_cons_self _ _)
    refine ⟨{ q with SortItems := { Col := c, Desc := item.Desc } :: q.SortItems }, ?_, ?_⟩
    · simp only [GetPropByOrderByItems, hc, hq]
    · simp only [List.map_cons, hs, hc]

/-- Every TopN of `getPhysTopN` whose child property carries a vector-search
requirement comes from the vector-search branch. -/
theorem getPhysTopN_vector (env : Env) (lt : LogicalTopN) (prop : PhysicalProperty)
    (tn : PhysicalTopN) (cp : PhysicalProperty)
    (hmem : PhysicalPlan.topN tn ∈ getPhysTopN env lt prop)
    (hcp : tn.childrenReqProps = [cp]) (hvs : cp.VectorProp.VSInfo ≠ none) :
    env.vars.IsMPPAllowed = true ∧ cp.TaskTp = TaskType.MppTaskType ∧
      ∃ item vs ds, lt.ByItems = [item] ∧ env.InterpretVectorSearchExpr item.Expr = some vs
        ∧ item.Desc = false ∧ lt.child = LogicalChild.dataSource ds
        ∧ ds.PushedDownConds.length = 0 := by
  -- a TopN of the plain list carries no vector-search requirement
  have hplain : ∀ (tps : List TaskType),
      PhysicalPlan.topN tn ∉ tps.map (fun tp =>
        newPhysicalTopN lt
          { TaskTp := tp, ExpectedCnt := MaxFloat64, CTEProducerStatus := prop.CTEProducerStatus,
            NoCopPushDown := prop.NoCopPushDown }) := by
    intro tps hin
    obtain ⟨tp, _, htp⟩ := List.mem_map.mp hin
    simp only [newPhysicalTopN, PhysicalPlan.topN.injEq] at htp
    rw [← htp] at hcp
    simp only [List.cons.injEq, and_true] at hcp
    rw [← hcp] at hvs
    exact hvs rfl
  unfold getPhysTopN at hmem
  simp only at hmem
  by_cases hmpp : env.vars.IsMPPAllowed = true
  · simp only [hmpp, if_true] at hmem
    split at hmem
    · rename_i item hitems
      split at hmem
      · exact absurd hmem (hplain _)
      · rename_i vs hvsi
        by_cases hdesc : item.Desc = true
        · rw [if_pos hdesc] at hmem
          exact absurd hmem (hplain _)
        · rw [if_neg hdesc] at hmem
          split at hmem
          · rename_i ds hds
            by_cases hpd : ds.PushedDownConds.length > 0
            · rw [if_pos hpd] at hmem
              exact absurd hmem (hplain _)
            · rw [if_neg hpd] at hmem
              rcases List.mem_append.mp hmem with h | h
              · exact absurd h (hplain _)
              · simp only [List.mem_singleton, newPhysicalTopN, PhysicalPlan.topN.injEq] at h
                rw [h] at hcp
                simp only [List.cons.injEq, and_true] at hcp
                refine ⟨hmpp, by rw [← hcp], item, vs, ds, hitems, hvsi, ?_, hds, by omega⟩
                simpa using hdesc
          · exact absurd hmem (hplain _)
    · exact absurd hmem (hplain _)
  · simp only [hmpp] at hmem
    exact absurd hmem (hplain _)

/-- With MPP allowed `getPhysTopN` offers a TopN over an MPP child without
vector-search requirement. -/
theorem getPhysTopN_mpp (env : Env) (lt : LogicalTopN) (prop : PhysicalProperty)
    (hmpp : env.vars.IsMPPAllowed = true) :
    PhysicalPlan.topN
        { ByItems := lt.ByItems, PartitionBy := lt.PartitionBy, Count := lt.Count,
          Offset := lt.Offset, stats := lt.stats,
          childrenReqProps :=
            [{ TaskTp := TaskType.MppTaskType, ExpectedCnt := MaxFloat64,
               CTEProducerStatus := prop.CTEProducerStatus,
               NoCopPushDown := prop.NoCopPushDown }],
          schema := lt.schema }
      ∈ getPhysTopN env lt prop := by
  have hret : PhysicalPlan.topN
        { ByItems := lt.ByItems, PartitionBy := lt.PartitionBy, Count := lt.Count,
          Offset := lt.Offset, stats := lt.stats,
          childrenReqProps :=
            [{ TaskTp := TaskType.MppTaskType, ExpectedCnt := MaxFloat64,
               CTEProducerStatus := prop.CTEProducerStatus,
               NoCopPushDown := prop.NoCopPushDown }],
          schema := lt.schema }
      ∈ ([TaskType.CopSingleReadTaskType, TaskType.CopMultiReadTaskType,
          TaskType.RootTaskType] ++ [TaskType.MppTaskType]).map (fun tp =>
        newPhysicalTopN lt
          { TaskTp := tp, ExpectedCnt := MaxFloat64, CTEProducerStatus := prop.CTEProducerStatus,
            NoCopPushDown := prop.NoCopPushDown }) := by
    simp [newPhysicalTopN]
  unfold getPhysTopN
  simp only [hmpp, if_true]
  split
  · split
    · exact hret
    · split_ifs
      · exact hret
      · split
        · split_ifs
          · exact hret
          · exact List.mem_append_left _ hret
        · exact hret
  · exact hret

/-- When the by-items yield a property, `getPhysLimits` offers a Limit over a root
child sorted as that property. -/
theorem getPhysLimits_root (lt : LogicalTopN) (prop q : PhysicalProperty)
    (hq : GetPropByOrderByItems lt.ByItems = some q) :
    ∃ lim cp, PhysicalPlan.limit lim ∈ getPhysLimits lt prop
      ∧ lim.childrenReqProps = [cp] ∧ cp.TaskTp = TaskType.RootTaskType
      ∧ cp.SortItems = q.SortItems := by
  unfold getPhysLimits
  simp only [hq, List.map_cons, List.map_nil]
  exact ⟨_, _, List.mem_cons_of_mem _ (List.mem_cons_of_mem _ (List.mem_cons_self _ _)),
    rfl, rfl, rfl⟩

/-- C21, amended: for a TopN whose order-by items are bare columns matched by the
required property, with MPP allowed, the candidates of
`exhaustPhysicalPlans4LogicalTopN` include a Limit whose child property has the root
task type and is sorted by the TopN's columns; they always include a TopN whose child
property asks for the MPP task type, without vector-search requirement; and a TopN
whose child property carries a vector-search requirement is among them only when the
TopN has a single ascending vector-search order-by item directly over a data source
with no pushed-down filter. -/
theorem exhaustPhysicalPlans4LogicalTopN_candidates (env : Env) (lt : LogicalTopN)
    (prop : PhysicalProperty)
    (hmpp : env.vars.IsMPPAllowed = true)
    (hcols : ∀ b ∈ lt.ByItems, ∃ c, b.Expr = Expression.column c)
    (hmatch : MatchItems prop lt.ByItems = true) :
    (∃ lim cp, PhysicalPlan.limit lim ∈ (exhaustPhysicalPlans4LogicalTopN env lt prop).1
        ∧ lim.childrenReqProps = [cp] ∧ cp.TaskTp = TaskType.RootTaskType
        ∧ cp.SortItems.map (fun s => (Expression.column s.Col, s.Desc))
          = lt.ByItems.map (fun b => (b.Expr, b.Desc)))
      ∧ (∃ tn cp, PhysicalPlan.topN tn ∈ (exhaustPhysicalPlans4LogicalTopN env lt prop).1
        ∧ tn.childrenReqProps = [cp] ∧ cp.TaskTp = TaskType.MppTaskType
        ∧ cp.VectorProp.VSInfo = none)
      ∧ (∀ tn cp, PhysicalPlan.topN tn ∈ (exhaustPhysicalPlans4LogicalTopN env lt prop).1 →
        tn.childrenReqProps = [cp] → cp.VectorProp.VSInfo ≠ none →
        cp.TaskTp = TaskType.MppTaskType ∧
          ∃ item vs ds, lt.ByItems = [item]
            ∧ env.InterpretVectorSearchExpr item.Expr = some vs
            ∧ item.Desc = false ∧ lt.child = LogicalChild.dataSource ds
            ∧ ds.PushedDownConds.length = 0) := by
  have hplans : (exhaustPhysicalPlans4LogicalTopN env lt prop).1
      = getPhysTopN env lt prop ++ getPhysLimits lt prop := by
    unfold exhaustPhysicalPlans4LogicalTopN
    rw [if_pos hmatch]
  rw [hplans]
  obtain ⟨q, hq, hs⟩ := GetPropByOrderByItems_of_columns lt.ByItems hcols
  refine ⟨?_, ?_, ?_⟩
  · obtain ⟨lim, cp, hmem, h1, h2, h3⟩ := getPhysLimits_root lt prop q hq
    exact ⟨lim, cp, List.mem_append_right _ hmem, h1, h2, by rw [h3]; exact hs⟩
  · exact ⟨_, _, List.mem_append_left _ (getPhysTopN_mpp env lt prop hmpp), rfl, rfl, rfl⟩
  · intro tn cp hmem hcp hvs
    rcases List.mem_append.mp hmem with h | h
    · exact (getPhysTopN_vector env lt prop tn cp h hcp hvs).2
    · exfalso
      unfold getPhysLimits at h
      simp only [hq, List.map_cons, List.map_nil] at h
      simp at h

theorem exhaustPhysicalPlans4LogicalTopN_candidates_witness :
    (∃ lim cp, PhysicalPlan.limit lim
          ∈ (exhaustPhysicalPlans4LogicalTopN sampleEnvMppAllowed (sampleTopN 10 0) sampleProp).1
        ∧ lim.childrenReqProps = [cp] ∧ cp.TaskTp = TaskType.RootTaskType
        ∧ cp.SortItems.map (fun s => (Expression.column s.Col, s.Desc))
          = (sampleTopN 10 0).ByItems.map (fun b => (b.Expr, b.Desc)))
      ∧ (∃ tn cp, PhysicalPlan.topN tn
          ∈ (exhaustPhysicalPlans4LogicalTopN sampleEnvMppAllowed (sampleTopN 10 0) sampleProp).1
        ∧ tn.childrenReqProps = [cp] ∧ cp.TaskTp = TaskType.MppTaskType
        ∧ cp.VectorProp.VSInfo = none) :=
  ⟨(exhaustPhysicalPlans4LogicalTopN_candidates sampleEnvMppAllowed (sampleTopN 10 0) sampleProp
      rfl (by simp [sampleTopN]) (by decide)).1,
    (exhaustPhysicalPlans4LogicalTopN_candidates sampleEnvMppAllowed (sampleTopN 10 0) sampleProp
      rfl (by simp [sampleTopN]) (by decide)).2.1⟩

/-- With MPP allowed a TopN over an MPP child is offered for a plain column order: for
`ORDER BY t1.a LIMIT 10` over an operator that is not a data source, whose order-by
item is no vector search, the TopN candidates ask their child for the two
coprocessor, the root and the MPP task type. -/
theorem exhaustPhysicalPlans4LogicalTopN_mpp_counterexample :
    sampleEnvMppAllowed.vars.IsMPPAllowed = true
      ∧ MatchItems sampleProp (sampleTopN 10 0).ByItems = true
      ∧ (sampleTopN 10 0).ByItems.length = 1
      ∧ ((sampleTopN 10 0).ByItems.map
          (fun b => sampleEnvMppAllowed.InterpretVectorSearchExpr b.Expr)) = [none]
      ∧ ((exhaustPhysicalPlans4LogicalTopN sampleEnvMppAllowed (sampleTopN 10 0)
            sampleProp).1.filterMap PhysicalPlan.topNChildTaskTp)
          = [TaskType.CopSingleReadTaskType, TaskType.CopMultiReadTaskType,
              TaskType.RootTaskType, TaskType.MppTaskType] := by
  decide

/-- C29, amended: for a TopN whose `Count + Offset` stays within the `uint64` range and
a non-negative `LimitPushDownThreshold`, `pushLimitOrTopNForcibly` returns as its first
result the `PreferLimitToCop` hint and as its second result true if and only if
`Count + Offset` is at most the threshold; for a Limit the first result is its hint and
the second is true. -/
theorem pushLimitOrTopNForcibly_results (env : Env) (lt : LogicalTopN) (lim : LogicalLimit)
    (hsum : lt.Count + lt.Offset < 2 ^ 64)
    (hth : 0 ≤ env.vars.LimitPushDownThreshold)
    (hth2 : env.vars.LimitPushDownThreshold < 2 ^ 63) :
    pushLimitOrTopNForcibly env (LimitOrTopN.topN lt)
        = (lt.PreferLimitToCop,
            decide (((lt.Count + lt.Offset : Nat) : Int) ≤ env.vars.LimitPushDownThreshold))
      ∧ pushLimitOrTopNForcibly env (LimitOrTopN.limit lim) = (lim.PreferLimitToCop, true) := by
  refine ⟨?_, rfl⟩
  unfold pushLimitOrTopNForcibly
  simp only [Prod.mk.injEq, true_and]
  have h1 : (lt.Count + lt.Offset) % 2 ^ 64 = lt.Count + lt.Offset := Nat.mod_eq_of_lt hsum
  have h2 : env.vars.LimitPushDownThreshold % 2 ^ 64 = env.vars.LimitPushDownThreshold :=
    Int.emod_eq_of_lt hth (by omega)
  rw [h1, h2]
  congr 1
  apply propext
  constructor
  · intro h
    omega
  · intro h
    omega

theorem pushLimitOrTopNForcibly_results_witness :
    pushLimitOrTopNForcibly sampleEnv (LimitOrTopN.topN (sampleTopN 90 20))
        = ((sampleTopN 90 20).PreferLimitToCop,
            decide ((((sampleTopN 90 20).Count + (sampleTopN 90 20).Offset : Nat) : Int)
              ≤ sampleEnv.vars.LimitPushDownThreshold))
      ∧ pushLimitOrTopNForcibly sampleEnv (LimitOrTopN.limit sampleLimit)
        = (sampleLimit.PreferLimitToCop, true) :=
  pushLimitOrTopNForcibly_results sampleEnv (sampleTopN 90 20) sampleLimit (by decide)
    (by decide) (by decide)

/-- The `uint64` sum `Count + Offset` wraps around: for `Count = 2^64 - 1` and
`Offset = 1`, far above the threshold 100, the second result of
`pushLimitOrTopNForcibly` is true. -/
theorem pushLimitOrTopNForcibly_wrap_counterexample :
    (sampleTopN (2 ^ 64 - 1) 1).Count < 2 ^ 64
      ∧ (sampleTopN (2 ^ 64 - 1) 1).Offset < 2 ^ 64
      ∧ sampleEnv.vars.LimitPushDownThreshold = 100
      ∧ ¬ ((((sampleTopN (2 ^ 64 - 1) 1).Count + (sampleTopN (2 ^ 64 - 1) 1).Offset : Nat) : Int)
          ≤ sampleEnv.vars.LimitPushDownThreshold)
      ∧ (pushLimitOrTopNForcibly sampleEnv (LimitOrTopN.topN (sampleTopN (2 ^ 64 - 1) 1))).2
          = true := by
  decide

/-- C30: evaluation of `tryToGetMppHashAggs` on an aggregation `GROUP BY t1.a` without
aggregate functions, under a root property without sort items: the read of
`AggFuncs[0]` in `validMppAgg` is out of range, and the function does not return. -/
theorem tryToGetMppHashAggs_faults_without_agg_funcs :
    ({ sampleAgg AggFunctionMode.CompleteMode 0 with AggFuncs := [] }
        : LogicalAggregation).GroupByItems.length = 1
      ∧ hasFinalAgg { sampleAgg AggFunctionMode.CompleteMode 0 with AggFuncs := [] } = false
      ∧ (validMppAgg (mpp1PhaseAgg sampleEnv
            { sampleAgg AggFunctionMode.CompleteMode 0 with AggFuncs := [] } sampleProp
            [{ Col := colT1A, CollateID := 0 }])).isNone = true
      ∧ (tryToGetMppHashAggs sampleEnv
            { sampleAgg AggFunctionMode.CompleteMode 0 with AggFuncs := [] }
            sampleProp).isNone = true := by
  decide

/-! ## Completion drops column equalities it cannot use -/

/-- C25: on a task that carries `info`, whenever `completePhysicalIndexJoin` with
`extractOtherEQ = true` returns, a residual condition that is an equality of two bare
columns, neither marked `InOperand`, whose columns are not one of the outer and one of
the inner schema, is absent from the resulting `OtherConditions`, which are fewer than
the residual conditions: it is dropped, while the hash keys past the join keys are
exactly those of the equalities with one column on each side. -/
theorem completePhysicalIndexJoin_drops_unusable_eq (physic : PhysicalIndexJoin)
    (rt : RootTask) (info : IndexJoinInfo) (innerS outerS : Schema)
    (physic2 : PhysicalIndexJoin) (rt2 : RootTask) (lhs rhs : Column) (rest : List Expression)
    (hrt : rt.IndexJoinInfo = some info)
    (hret : completePhysicalIndexJoin physic rt innerS outerS true = some (physic2, rt2))
    (hmem : Expression.scalarFunction ast.EQ
        (Expression.column lhs :: Expression.column rhs :: rest)
      ∈ residualConditions physic info.KeyOff2IdxOff)
    (hl : lhs.InOperand = false) (hr : rhs.InOperand = false)
    (hside : ¬ (outerS.Contains lhs = true ∧ innerS.Contains rhs = true)
      ∧ ¬ (innerS.Contains lhs = true ∧ outerS.Contains rhs = true)) :
    Expression.scalarFunction ast.EQ (Expression.column lhs :: Expression.column rhs :: rest)
        ∉ physic2.OtherConditions
      ∧ physic2.OtherConditions.length < (residualConditions physic info.KeyOff2IdxOff).length
      ∧ hashKeyPair innerS outerS (lhs, rhs) = none
      ∧ physic2.OuterHashKeys = physic2.OuterJoinKeys
          ++ (extractedHashKeyPairs innerS outerS
            (residualConditions physic info.KeyOff2IdxOff)).map Prod.fst
      ∧ physic2.InnerHashKeys = physic2.InnerJoinKeys
          ++ (extractedHashKeyPairs innerS outerS
            (residualConditions physic info.KeyOff2IdxOff)).map Prod.snd := by
  obtain ⟨_, h2, _⟩ := completePhysicalIndexJoin_some physic rt info innerS outerS true physic2 rt2
    hrt hret
  subst h2
  have hext : extractableEQ (Expression.scalarFunction ast.EQ
      (Expression.column lhs :: Expression.column rhs :: rest)) = some (lhs, rhs) := by
    simp [extractableEQ, hl, hr]
  refine ⟨?_, ?_, ?_, rfl, rfl⟩
  · intro hin
    simp only [completedIndexJoin, if_true, List.mem_filter] at hin
    rw [hext] at hin
    simp at hin
  · simp only [completedIndexJoin, if_true]
    rw [List.length_filter_lt_length_iff_exists]
    exact ⟨_, hmem, by simp [hext]⟩
  · unfold hashKeyPair
    have h1 : ¬ ((outerS.Contains lhs && innerS.Contains rhs) = true) := by
      simpa using hside.1
    have h2 : ¬ ((innerS.Contains lhs && outerS.Contains rhs) = true) := by
      simpa using hside.2
    simp [h1, h2]

theorem completePhysicalIndexJoin_drops_unusable_eq_witness :
    Expression.scalarFunction ast.EQ [Expression.column colT1C, Expression.column colT1B]
        ∉ (completedIndexJoin sampleOuterOnlyEQJoin sampleIndexJoinInfo sampleInnerSchema
            sampleOuterSchema true).OtherConditions
      ∧ (completedIndexJoin sampleOuterOnlyEQJoin sampleIndexJoinInfo sampleInnerSchema
            sampleOuterSchema true).OtherConditions.length
          < (residualConditions sampleOuterOnlyEQJoin sampleIndexJoinInfo.KeyOff2IdxOff).length
      ∧ hashKeyPair sampleInnerSchema sampleOuterSchema (colT1C, colT1B) = none
      ∧ (completedIndexJoin sampleOuterOnlyEQJoin sampleIndexJoinInfo sampleInnerSchema
            sampleOuterSchema true).OuterHashKeys
          = (completedIndexJoin sampleOuterOnlyEQJoin sampleIndexJoinInfo sampleInnerSchema
              sampleOuterSchema true).OuterJoinKeys
            ++ (extractedHashKeyPairs sampleInnerSchema sampleOuterSchema
              (residualConditions sampleOuterOnlyEQJoin
                sampleIndexJoinInfo.KeyOff2IdxOff)).map Prod.fst
      ∧ (completedIndexJoin sampleOuterOnlyEQJoin sampleIndexJoinInfo sampleInnerSchema
            sampleOuterSchema true).InnerHashKeys
          = (completedIndexJoin sampleOuterOnlyEQJoin sampleIndexJoinInfo sampleInnerSchema
              sampleOuterSchema true).InnerJoinKeys
            ++ (extractedHashKeyPairs sampleInnerSchema sampleOuterSchema
              (residualConditions sampleOuterOnlyEQJoin
                sampleIndexJoinInfo.KeyOff2IdxOff)).map Prod.snd :=
  completePhysicalIndexJoin_drops_unusable_eq sampleOuterOnlyEQJoin sampleRootTask
    sampleIndexJoinInfo sampleInnerSchema sampleOuterSchema
    (completedIndexJoin sampleOuterOnlyEQJoin sampleIndexJoinInfo sampleInnerSchema
      sampleOuterSchema true)
    { sampleRootTask with IndexJoinInfo := none } colT1C colT1B [] rfl
    (by
      rw [completePhysicalIndexJoin_eq sampleOuterOnlyEQJoin sampleRootTask sampleIndexJoinInfo
        sampleInnerSchema sampleOuterSchema true rfl]
      rw [if_pos (by decide)])
    (by simp [residualConditions, sampleOuterOnlyEQJoin])
    rfl rfl (by decide)

/-! ## Hint arbitration at attach time -/

/-- C27: evaluation of the two arbitrations on the left outer join
`t1 LEFT JOIN t2 ON t1.a = t2.a` with the single hint HASH_JOIN_BUILD(t1), under a
property without sort items: `getHashJoins` returns `forced = true` and one candidate,
which builds on child 0 as hinted (inner child 1 with `UseOuterToBuild`), and
`preferHashJoin` judges that candidate not preferred for the same join. -/
theorem preferHashJoin_rejects_forced_candidate :
    forcesLeftToBuild (sampleJoin JoinType.LeftOuterJoin PreferLeftAsHJBuild) = true
      ∧ forcesRightToBuild (sampleJoin JoinType.LeftOuterJoin PreferLeftAsHJBuild) = false
      ∧ sampleProp.SortItems.length = 0
      ∧ (getHashJoins sampleEnv
          (LogicalPlan.join (sampleJoin JoinType.LeftOuterJoin PreferLeftAsHJBuild))
          sampleProp).2.1 = true
      ∧ (getHashJoins sampleEnv
          (LogicalPlan.join (sampleJoin JoinType.LeftOuterJoin PreferLeftAsHJBuild))
          sampleProp).1.map PhysicalPlan.hashJoinBuildChildIdx = [some 0]
      ∧ (getHashJoins sampleEnv
          (LogicalPlan.join (sampleJoin JoinType.LeftOuterJoin PreferLeftAsHJBuild))
          sampleProp).1.map
          (fun pl => preferHashJoin
            (LogicalPlan.join (sampleJoin JoinType.LeftOuterJoin PreferLeftAsHJBuild))
            (some pl))
        = [false] := by
  decide

/-! ## One-shot and two-phase construction of an index join -/

theorem constructKeyLoop_eq_completeKeyLoop (p : LogicalJoin) (physic : PhysicalIndexJoin)
    (h : physic.EqualConditions = p.EqualConditions) :
    ∀ (offs : List Int) (k : Nat) (st : KeyLoopState),
      constructKeyLoop p physic.InnerJoinKeys physic.OuterJoinKeys physic.IsNullEQ offs k st
        = completeKeyLoop physic offs k st := by
  intro offs
  induction offs with
  | nil => intro k st; rfl
  | cons o rest ih =>
    intro k st
    simp only [constructKeyLoop, completeKeyLoop, h, ih]

/-- C28: for a join without a null-safe equal condition, a valid inner task and a root
task whose index-join information carries the same key offsets, ranges and compare
filters, `constructIndexJoinStatic` returns one join, and completing it with
`completePhysicalIndexJoin` under the schemas of the inner and outer children gives
the same result as `constructIndexJoin` on the thirteen settled fields: both fault, or
both return and the fields agree. With one key offset per equal condition and two
arguments on every residual `eq` function, both return. -/
theorem constructIndexJoinStatic_complete_eq_constructIndexJoin (env : Env) (p : LogicalJoin)
    (prop : PhysicalProperty) (outerIdx : Nat) (indexJoinProp : IndexJoinRuntimeProp)
    (outerStats : StatsInfo) (innerTask : InnerTask) (ranges : Option (List Range))
    (keyOff2IdxOff : List Int) (path : Option AccessPath)
    (compareFilters : Option ColWithCmpFuncManager) (extractOtherEQ : Bool)
    (rt : RootTask) (info : IndexJoinInfo)
    (hnull : p.GetJoinKeys.2.2.2 = false) (hvalid : innerTask.Invalid = false)
    (hrt : rt.IndexJoinInfo = some info) (hoffs : info.KeyOff2IdxOff = keyOff2IdxOff)
    (hranges : info.Ranges = ranges) (hfilters : info.CompareFilters = compareFilters) :
    ∃ join : PhysicalIndexJoin,
      constructIndexJoinStatic env p prop outerIdx indexJoinProp outerStats = [join]
        ∧ (completePhysicalIndexJoin join rt (innerChildSchema p outerIdx)
              (outerChildSchema p outerIdx) extractOtherEQ).map
            (fun r => [r.1.settledFields])
          = (constructIndexJoin env p prop outerIdx innerTask ranges keyOff2IdxOff path
              compareFilters extractOtherEQ).map
            (fun joins => joins.map PhysicalIndexJoin.settledFields)
        ∧ (keyOff2IdxOff.length = p.EqualConditions.length →
            (extractOtherEQ = true →
              (residualConditions join keyOff2IdxOff).all hasEQArgs = true) →
            (completePhysicalIndexJoin join rt (innerChildSchema p outerIdx)
              (outerChildSchema p outerIdx) extractOtherEQ).isSome = true) := by
  have hstatic : ∃ join : PhysicalIndexJoin,
      constructIndexJoinStatic env p prop outerIdx indexJoinProp outerStats = [join]
        ∧ join.EqualConditions = p.EqualConditions
        ∧ join.InnerJoinKeys = (if outerIdx == 0 then p.GetJoinKeys.2.1 else p.GetJoinKeys.1)
        ∧ join.OuterJoinKeys = (if outerIdx == 0 then p.GetJoinKeys.1 else p.GetJoinKeys.2.1)
        ∧ join.IsNullEQ = p.GetJoinKeys.2.2.1
        ∧ join.OtherConditions = p.OtherConditions
        ∧ join.JoinType = p.JoinType ∧ join.InnerChildIdx = 1 - outerIdx
        ∧ join.LeftConditions = p.LeftConditions
        ∧ join.RightConditions = p.RightConditions := by
    unfold constructIndexJoinStatic
    simp only [hnull, Bool.false_eq_true, if_false]
    exact ⟨_, rfl, rfl, rfl, rfl, rfl, rfl, rfl, rfl, rfl, rfl⟩
  obtain ⟨join, hjoin, hE, hI, hO, hN, hOther, hJT, hIdx, hL, hR⟩ := hstatic
  refine ⟨join, hjoin, ?_, ?_⟩
  · have hinfoR : (if info.Ranges.isNone then { info with Ranges := some [] } else info).Ranges
        = some (info.Ranges.getD []) := by
      cases hr : info.Ranges <;> simp [hr]
    have hinfoO : (if info.Ranges.isNone then { info with Ranges := some [] } else info).KeyOff2IdxOff
        = info.KeyOff2IdxOff := by split_ifs <;> rfl
    have hinfoC : (if info.Ranges.isNone then { info with Ranges := some [] } else info).CompareFilters
        = info.CompareFilters := by split_ifs <;> rfl
    subst hoffs hranges hfilters
    unfold completePhysicalIndexJoin constructIndexJoin
    simp only [hrt, hvalid, hnull, Bool.false_eq_true, if_false, hinfoO]
    rw [← hI, ← hO, ← hN, constructKeyLoop_eq_completeKeyLoop p join hE, ← hOther]
    generalize completeKeyLoop join info.KeyOff2IdxOff 0 _ = ks0
    cases ks0 with
    | none => rfl
    | some ks =>
      simp only [innerChildSchema, outerChildSchema]
      generalize (if extractOtherEQ = true then _ else _ : Option HashKeyLoopState) = hs0
      cases hs0 with
      | none => rfl
      | some hs =>
        simp only [Option.map_some', List.map_cons, List.map_nil, Option.some.injEq,
          List.cons.injEq, and_true, PhysicalIndexJoin.settledFields, buildIndexJoin,
          hinfoR, hinfoC, hJT, hIdx, hL, hR]
        cases info.Ranges <;> rfl
  · intro hlen hargs
    rw [completePhysicalIndexJoin_eq join rt info _ _ extractOtherEQ hrt]
    have hin : completionInRange join info extractOtherEQ = true := by
      unfold completionInRange
      rw [hoffs, keyLoopInRange_of_lengths join keyOff2IdxOff (by rw [hE, hlen])
        (by rw [hI, hlen]; unfold LogicalJoin.GetJoinKeys; split_ifs <;> simp)
        (by rw [hO, hlen]; unfold LogicalJoin.GetJoinKeys; split_ifs <;> simp)
        (by rw [hN, hlen]; unfold LogicalJoin.GetJoinKeys; simp)]
      cases extractOtherEQ
      · rfl
      · simp [hargs rfl]
    rw [hin]
    rfl

theorem constructIndexJoinStatic_complete_eq_constructIndexJoin_witness :
    ∃ join : PhysicalIndexJoin,
      constructIndexJoinStatic sampleEnv sampleEnumJoin sampleProp 0 sampleIndexJoinProp
          { RowCount := 10 } = [join]
        ∧ (completePhysicalIndexJoin join
              { IndexJoinInfo := some
                  { KeyOff2IdxOff := [0], Ranges := none, IdxColLens := [],
                    CompareFilters := none } }
              (innerChildSchema sampleEnumJoin 0) (outerChildSchema sampleEnumJoin 0) true).map
            (fun r => [r.1.settledFields])
          = (constructIndexJoin sampleEnv sampleEnumJoin sampleProp 0 sampleInnerTask none [0]
              none none true).map
            (fun joins => joins.map PhysicalIndexJoin.settledFields)
        ∧ (([0] : List Int).length = sampleEnumJoin.EqualConditions.length →
            (true = true → (residualConditions join [0]).all hasEQArgs = true) →
            (completePhysicalIndexJoin join
              { IndexJoinInfo := some
                  { KeyOff2IdxOff := [0], Ranges := none, IdxColLens := [],
                    CompareFilters := none } }
              (innerChildSchema sampleEnumJoin 0) (outerChildSchema sampleEnumJoin 0)
              true).isSome = true) :=
  constructIndexJoinStatic_complete_eq_constructIndexJoin sampleEnv sampleEnumJoin sampleProp 0
    sampleIndexJoinProp { RowCount := 10 } sampleInnerTask none [0] none none true
    { IndexJoinInfo := some
        { KeyOff2IdxOff := [0], Ranges := none, IdxColLens := [], CompareFilters := none } }
    { KeyOff2IdxOff := [0], Ranges := none, IdxColLens := [], CompareFilters := none }
    (by decide) rfl rfl rfl rfl rfl

/-! ## Order of the outer keys of an index merge join -/

/-- C26: evaluation of `constructIndexMergeJoin` on the join
`t1 JOIN t2 ON t1.a = t2.a AND t1.b = t2.b AND t1.c = t2.c` with key offsets
`[1, 2, 0]` under the required order `t1.b, t1.c, t1.a`: it returns one index merge
join, whose `KeyOff2IdxOff` and `KeyOff2KeyOffOrderByIdx` are both `[1, 2, 0]` and whose
`NeedOuterSort` is false, although the outer keys in the order of the inner index are
`t1.c, t1.a, t1.b`, which neither are a prefix of the required sort columns nor have
them as a prefix. -/
theorem constructIndexMergeJoin_order_by_key_offset :
    (constructIndexMergeJoin sampleEnv sampleThreeKeyJoin samplePropThreeKeys 0 sampleInnerTask
        none [1, 2, 0] none none).map List.length = some 1
      ∧ sampleThreeKeyMergeJoins.map
          (fun j => (j.PhysicalIndexJoin.KeyOff2IdxOff, j.KeyOff2KeyOffOrderByIdx,
            j.NeedOuterSort, j.PhysicalIndexJoin.OuterJoinKeys,
            outerKeysInIndexOrder j.PhysicalIndexJoin))
        = [([1, 2, 0], [1, 2, 0], false, [colT1A, colT1B, colT1C], [colT1C, colT1A, colT1B])]
      ∧ samplePropThreeKeys.SortItems.map (fun item => item.Col) = [colT1B, colT1C, colT1A]
      ∧ ¬ ([colT1C, colT1A, colT1B] <+: samplePropThreeKeys.SortItems.map (fun item => item.Col))
      ∧ ¬ (samplePropThreeKeys.SortItems.map (fun item => item.Col)
            <+: [colT1C, colT1A, colT1B]) := by
  refine ⟨by decide, by decide, by decide, by decide, by decide⟩

/-! ## The inner side of an index join -/

/-- What the walk of `extractIndexJoinInnerChildPattern` and its last test leave, from
a wrapper that holds no data source yet. -/
theorem childLoop_wrapperOrNil (env : Env) :
    ∀ (t : LogicalTree) (w : indexJoinInnerChildWrapper), w.ds = none →
      (match childLoop env t w with
        | none => none
        | some w2 => wrapperOrNil w2)
      = match innerChain t with
        | none => none
        | some r =>
          if r.2.PreferStoreType &&& PreferTiFlash = 0
              ∧ (env.vars.EnableINLJoinInnerMultiPattern = true
                ∨ r.1.all InnerOp.isUnionScan = true) then
            some { ds := some r.2
                   hasDitryWrite := w.hasDitryWrite || r.1.any InnerOp.isUnionScan
                   zippedChildren := w.zippedChildren ++ r.1 }
          else none := by
  intro t
  induction t with
  | dataSource ds =>
    intro w hw
    simp only [childLoop, wrapperOrNil, innerChain, List.all_nil, or_true, and_true,
      List.any_nil, Bool.or_false, List.append_nil]
    by_cases h : ds.PreferStoreType &&& PreferTiFlash = 0
    · simp [h]
    · simp [h]
  | nonUnary op =>
    intro w hw
    cases op <;> simp only [childLoop, visitInnerChild, innerChain]
    all_goals first
      | rfl
      | (split_ifs <;> simp [wrapperOrNil, hw])
      | simp [wrapperOrNil, hw]
  | unary op child ih =>
    intro w hw
    cases op with
    | other id => simp [childLoop, visitInnerChild, innerChain, InnerOp.isWrappingKind]
    | unionScan us =>
      simp only [childLoop, visitInnerChild, innerChain, InnerOp.isWrappingKind, if_true]
      have h2 := ih ⟨w.ds, true, w.zippedChildren ++ [InnerOp.unionScan us]⟩ hw
      rw [h2]
      cases innerChain child with
      | none => rfl
      | some r =>
        simp [InnerOp.isUnionScan, List.append_assoc]
    | projection x =>
      simp only [childLoop, visitInnerChild, innerChain, InnerOp.isWrappingKind, if_true]
      cases hsw : env.vars.EnableINLJoinInnerMultiPattern
      · cases innerChain child <;> simp [InnerOp.isUnionScan]
      · simp only [Bool.not_true, Bool.false_eq_true, if_false]
        have h2 := ih ⟨w.ds, w.hasDitryWrite, w.zippedChildren ++ [InnerOp.projection x]⟩ hw
        rw [h2]
        cases innerChain child with
        | none => rfl
        | some r => simp [hsw, InnerOp.isUnionScan, List.append_assoc]
    | selection x =>
      simp only [childLoop, visitInnerChild, innerChain, InnerOp.isWrappingKind, if_true]
      cases hsw : env.vars.EnableINLJoinInnerMultiPattern
      · cases innerChain child <;> simp [InnerOp.isUnionScan]
      · simp only [Bool.not_true, Bool.false_eq_true, if_false]
        have h2 := ih ⟨w.ds, w.hasDitryWrite, w.zippedChildren ++ [InnerOp.selection x]⟩ hw
        rw [h2]
        cases innerChain child with
        | none => rfl
        | some r => simp [hsw, InnerOp.isUnionScan, List.append_assoc]
    | aggregation x =>
      simp only [childLoop, visitInnerChild, innerChain, InnerOp.isWrappingKind, if_true]
      cases hsw : env.vars.EnableINLJoinInnerMultiPattern
      · cases innerChain child <;> simp [InnerOp.isUnionScan]
      · simp only [Bool.not_true, Bool.false_eq_true, if_false]
        have h2 := ih ⟨w.ds, w.hasDitryWrite, w.zippedChildren ++ [InnerOp.aggregation x]⟩ hw
        rw [h2]
        cases innerChain child with
        | none => rfl
        | some r => simp [hsw, InnerOp.isUnionScan, List.append_assoc]

/-- C23: `extractIndexJoinInnerChildPattern` returns a wrapper if and only if the inner
child is a single-child chain of selections, projections, aggregations and union scans
that ends in a data source which does not prefer TiFlash, and the session switch
`EnableINLJoinInnerMultiPattern` is on or every wrapping operator of the chain is a
union scan (a union scan is not gated by the switch); the wrapper then holds that data
source, the wrapping operators top-down, and `hasDitryWrite` exactly when the chain
contains a union scan. -/
theorem extractIndexJoinInnerChildPattern_iff_chain (env : Env) (innerChild : LogicalTree) :
    extractIndexJoinInnerChildPattern env innerChild
      = match innerChain innerChild with
        | none => none
        | some r =>
          if r.2.PreferStoreType &&& PreferTiFlash = 0
              ∧ (env.vars.EnableINLJoinInnerMultiPattern = true
                ∨ r.1.all InnerOp.isUnionScan = true) then
            some { ds := some r.2
                   hasDitryWrite := r.1.any InnerOp.isUnionScan
                   zippedChildren := r.1 }
          else none := by
  unfold extractIndexJoinInnerChildPattern
  rw [childLoop_wrapperOrNil env innerChild {} rfl]
  cases innerChain innerChild with
  | none => rfl
  | some r => simp

theorem extractIndexJoinInnerChildPattern_iff_chain_witness :
    extractIndexJoinInnerChildPattern sampleEnvMultiPattern sampleSelectionTree
      = match innerChain sampleSelectionTree with
        | none => none
        | some r =>
          if r.2.PreferStoreType &&& PreferTiFlash = 0
              ∧ (sampleEnvMultiPattern.vars.EnableINLJoinInnerMultiPattern = true
                ∨ r.1.all InnerOp.isUnionScan = true) then
            some { ds := some r.2
                   hasDitryWrite := r.1.any InnerOp.isUnionScan
                   zippedChildren := r.1 }
          else none :=
  extractIndexJoinInnerChildPattern_iff_chain sampleEnvMultiPattern sampleSelectionTree

/-- With `EnableINLJoinInnerMultiPattern` off, a union scan over a data source that
reads TiKV is a chain with one wrapping operator, and
`extractIndexJoinInnerChildPattern` returns a wrapper for it, with the union scan
zipped and `hasDitryWrite` set; a selection over the same data source gets none. -/
theorem extractIndexJoinInnerChildPattern_union_scan_counterexample :
    sampleEnv.vars.EnableINLJoinInnerMultiPattern = false
      ∧ (innerChain sampleUnionScanTree).map
          (fun r => (r.1.map InnerOp.isUnionScan, r.2.PreferStoreType &&& PreferTiFlash))
        = some ([true], 0)
      ∧ (extractIndexJoinInnerChildPattern sampleEnv sampleUnionScanTree).map
          (fun w => (w.ds.isSome, w.hasDitryWrite, w.zippedChildren.map InnerOp.isUnionScan))
        = some (true, true, [true])
      ∧ (extractIndexJoinInnerChildPattern sampleEnv sampleSelectionTree).isNone = true := by
  decide

/-- A task the loop of `constructIndexJoinInnerSideTask` returns when it attaches every
operator is valid, provided the task it started from was. -/
theorem innerSideTaskLoop_valid (env : Env) (prop : PhysicalProperty) :
    ∀ (ops : List InnerOp) (curTask t : Task), curTask.invalid = false →
      innerSideTaskLoop env prop false ops curTask = some t → t.invalid = false := by
  intro ops
  induction ops with
  | nil =>
    intro curTask t hv h
    simp only [innerSideTaskLoop, Option.some.injEq] at h
    rw [← h]; exact hv
  | cons x rest ih =>
    intro curTask t hv h
    cases x with
    | other id =>
      simp only [innerSideTaskLoop, hv, Bool.false_eq_true, if_false] at h
      exact ih _ _ hv h
    | unionScan us =>
      simp only [innerSideTaskLoop] at h
      by_cases hi : (env.Attach2Task (constructInnerUnionScan env prop us curTask.plan)
          curTask).invalid = true
      · rw [if_pos hi] at h; exact absurd h (by simp)
      · rw [if_neg hi] at h; exact ih _ _ (by simpa using hi) h
    | projection x =>
      simp only [innerSideTaskLoop] at h
      by_cases hi : (env.Attach2Task (constructInnerProj prop x) curTask).invalid = true
      · rw [if_pos hi] at h; exact absurd h (by simp)
      · rw [if_neg hi] at h; exact ih _ _ (by simpa using hi) h
    | selection x =>
      simp only [innerSideTaskLoop] at h
      by_cases hi : (env.Attach2Task (constructInnerSel prop x) curTask).invalid = true
      · rw [if_pos hi] at h; exact absurd h (by simp)
      · rw [if_neg hi] at h; exact ih _ _ (by simpa using hi) h
    | aggregation la =>
      simp only [innerSideTaskLoop, Bool.false_eq_true, if_false] at h
      by_cases hi : (env.Attach2Task (constructInnerAgg prop la) curTask).invalid = true
      · rw [if_pos hi] at h; exact absurd h (by simp)
      · rw [if_neg hi] at h; exact ih _ _ (by simpa using hi) h

/-- When the bottom-most zipped operator is not an aggregation that may be pushed to
the coprocessor, `constructIndexJoinInnerSideTaskWithAggCheck` does not count the
aggregations: it attaches every zipped operator to the root task, and a task it
returns for a pattern with a wrapping operator is valid. -/
theorem constructIndexJoinInnerSideTaskWithAggCheck_root_path (env : Env) (p : LogicalJoin)
    (prop : PhysicalProperty) (dsCopTask : Task) (ds : DataSource) (path : Option AccessPath)
    (wrapper : indexJoinInnerChildWrapper)
    (hpush : canPushAggToCop env wrapper.zippedChildren = false) :
    constructIndexJoinInnerSideTaskWithAggCheck env p prop dsCopTask ds path wrapper
        = constructIndexJoinInnerSideTask env (env.ConvertToRootTask dsCopTask) prop
            wrapper.zippedChildren false
      ∧ (wrapper.zippedChildren ≠ [] →
          ∀ t, constructIndexJoinInnerSideTaskWithAggCheck env p prop dsCopTask ds path wrapper
            = some t → t.invalid = false) := by
  have heq : constructIndexJoinInnerSideTaskWithAggCheck env p prop dsCopTask ds path wrapper
      = constructIndexJoinInnerSideTask env (env.ConvertToRootTask dsCopTask) prop
          wrapper.zippedChildren false := by
    unfold constructIndexJoinInnerSideTaskWithAggCheck
    simp [hpush]
  refine ⟨heq, ?_⟩
  intro hne t ht
  rw [heq] at ht
  unfold constructIndexJoinInnerSideTask at ht
  have hrev : wrapper.zippedChildren.reverse ≠ [] := by simpa using hne
  cases hr : wrapper.zippedChildren.reverse with
  | nil => exact absurd hr hrev
  | cons x rest =>
    rw [hr] at ht
    cases x with
    | other id =>
      simp only [innerSideTaskLoop] at ht
      by_cases hi : (env.ConvertToRootTask dsCopTask).invalid = true
      · rw [if_pos hi] at ht; exact absurd ht (by simp)
      · rw [if_neg hi] at ht
        exact innerSideTaskLoop_valid env prop rest _ t (by simpa using hi) ht
    | unionScan us =>
      simp only [innerSideTaskLoop] at ht
      by_cases hi : (env.Attach2Task (constructInnerUnionScan env prop us
          (env.ConvertToRootTask dsCopTask).plan) (env.ConvertToRootTask dsCopTask)).invalid = true
      · rw [if_pos hi] at ht; exact absurd ht (by simp)
      · rw [if_neg hi] at ht
        exact innerSideTaskLoop_valid env prop rest _ t (by simpa using hi) ht
    | projection x =>
      simp only [innerSideTaskLoop] at ht
      by_cases hi : (env.Attach2Task (constructInnerProj prop x)
          (env.ConvertToRootTask dsCopTask)).invalid = true
      · rw [if_pos hi] at ht; exact absurd ht (by simp)
      · rw [if_neg hi] at ht
        exact innerSideTaskLoop_valid env prop rest _ t (by simpa using hi) ht
    | selection x =>
      simp only [innerSideTaskLoop] at ht
      by_cases hi : (env.Attach2Task (constructInnerSel prop x)
          (env.ConvertToRootTask dsCopTask)).invalid = true
      · rw [if_pos hi] at ht; exact absurd ht (by simp)
      · rw [if_neg hi] at ht
        exact innerSideTaskLoop_valid env prop rest _ t (by simpa using hi) ht
    | aggregation la =>
      simp only [innerSideTaskLoop, Bool.false_eq_true, if_false] at ht
      by_cases hi : (env.Attach2Task (constructInnerAgg prop la)
          (env.ConvertToRootTask dsCopTask)).invalid = true
      · rw [if_pos hi] at ht; exact absurd ht (by simp)
      · rw [if_neg hi] at ht
        exact innerSideTaskLoop_valid env prop rest _ t (by simpa using hi) ht

/-- C22: for every inner pattern whose bottom-most zipped operator is an aggregation
that may be pushed to the coprocessor (it has no distinct function, or
`AllowDistinctAggPushDown` is on) and that holds a further aggregation above it,
`constructIndexJoinInnerSideTaskWithAggCheck` builds no inner task: it returns the
invalid task. -/
theorem constructIndexJoinInnerSideTaskWithAggCheck_many_aggs (env : Env) (p : LogicalJoin)
    (prop : PhysicalProperty) (dsCopTask : Task) (ds : DataSource) (path : Option AccessPath)
    (wrapper : indexJoinInnerChildWrapper) (la : LogicalAggregation) (above : List InnerOp)
    (hz : wrapper.zippedChildren = above ++ [InnerOp.aggregation la])
    (hdistinct : la.HasDistinct = false ∨ env.vars.AllowDistinctAggPushDown = true)
    (hnum : 1 ≤ (above.filter InnerOp.isAggregation).length) :
    constructIndexJoinInnerSideTaskWithAggCheck env p prop dsCopTask ds path wrapper
        = some InvalidTask
      ∧ InvalidTask.invalid = true := by
  have hpush : canPushAggToCop env wrapper.zippedChildren = true := by
    unfold canPushAggToCop
    rw [hz]
    simp only [List.getLast?_append, List.getLast?_singleton, Option.or_some]
    rcases hdistinct with h | h <;> simp [h]
  have hcount : (wrapper.zippedChildren.filter InnerOp.isAggregation).length > 1 := by
    rw [hz]
    simp only [List.filter_append, List.length_append]
    have : ([InnerOp.aggregation la].filter InnerOp.isAggregation).length = 1 := rfl
    omega
  have hres : constructIndexJoinInnerSideTaskWithAggCheck env p prop dsCopTask ds path wrapper
      = some InvalidTask := by
    unfold constructIndexJoinInnerSideTaskWithAggCheck
    simp only [hpush, Bool.not_true, Bool.false_eq_true, if_false, hcount, if_true]
  exact ⟨hres, rfl⟩

theorem constructIndexJoinInnerSideTaskWithAggCheck_many_aggs_witness :
    constructIndexJoinInnerSideTaskWithAggCheck sampleEnv (sampleJoin JoinType.InnerJoin 0)
        sampleProp sampleCopTask sampleDataSource none sampleWrapperAggAgg
        = some InvalidTask
      ∧ InvalidTask.invalid = true :=
  constructIndexJoinInnerSideTaskWithAggCheck_many_aggs sampleEnv
    (sampleJoin JoinType.InnerJoin 0) sampleProp sampleCopTask sampleDataSource none
    sampleWrapperAggAgg (sampleAgg AggFunctionMode.CompleteMode 0)
    [InnerOp.aggregation (sampleAgg AggFunctionMode.CompleteMode 0)] rfl
    (Or.inl (by decide)) (by decide)

/-- The sample inner pattern with two aggregations over a selection holds more than one
aggregation, yet `constructIndexJoinInnerSideTaskWithAggCheck` builds an inner task for
it: a valid root task whose top plan is a hash aggregation. -/
theorem constructIndexJoinInnerSideTaskWithAggCheck_aggs_above_selection_counterexample :
    (sampleWrapperAggAggSel.zippedChildren.filter InnerOp.isAggregation).length = 2
      ∧ sampleWrapperAggAggSel.zippedChildren.map InnerOp.isAggregation = [true, true, false]
      ∧ (constructIndexJoinInnerSideTaskWithAggCheck sampleEnv (sampleJoin JoinType.InnerJoin 0)
          sampleProp sampleCopTask sampleDataSource none sampleWrapperAggAggSel).map
          (fun t => (t.kind, t.invalid, t.plan.mppRunMode))
        = some (TaskKind.RootTask, false, some AggMppRunMode.NoMpp) := by
  decide

end Planner
